import Mathlib

/-!
# Radio excess (`RadioExcess.h`) : a shallow embedding

Modelling conventions, used by every definition below.

* A C `double` / `float` is an exact rational number (`ℚ`): no rounding, no
  NaN, no infinity.  Decimal constants of the source are the rationals they
  denote (`0.01 = 1/100`).  What is proved of a value is proved of the exact
  value; a property that rounding or cancellation decides, such as the sign of
  a result that is zero in exact arithmetic, is outside this embedding.
* A C `int` is an integer (`ℤ`).  Index arithmetic is not wrapped, with one
  exception: the sum `id1 + id3` of `Find_Index` (line 336) exceeds the 32-bit
  range for `nx ≥ 2^30 + 2` although both indices fit, so it is wrapped to 32
  bits (`wrap32`), as two's complement hardware does.
* A C array (`double *`) is the function from the index to the stored value.
  After the sum of line 336 has wrapped, `id2` is negative and `x_axis[id2]`
  is read below the array: the function decides what that read returns, and
  `readBelow` sets it.
* `Throw(ValueError)` and `exit(1)` are the two error results of `Except`.
* `pow` of `math.h` is not part of the repository: it is a parameter
  `pow : ℚ → ℚ → ℚ` of every function that calls it.
* `log` and `exp` of `math.h` are parameters too.  `Interp_1D` and
  `get_mturn_interp`, which call them, compute in a field `α` that contains
  the rationals: with `α = ℚ` they are executable, with `α = ℝ` and the real
  `log`, `exp` and power they are the exact-arithmetic reading of the source.
-/

namespace RadioExcess

/-- The two ways a call can fail: `Throw(ValueError)` and `exit(1)`. -/
inductive Error where
  | ValueError
  | Exit
  deriving DecidableEq, Repr

/-- Equality of results is decidable, so a call on concrete data can be
compared with its expected result by evaluation. -/
instance instDecidableEqExcept {ε α : Type} [DecidableEq ε] [DecidableEq α] :
    DecidableEq (Except ε α)
  | .ok a, .ok b =>
    if h : a = b then isTrue (congrArg Except.ok h)
    else isFalse (fun h' => h (Except.ok.inj h'))
  | .error a, .error b =>
    if h : a = b then isTrue (congrArg Except.error h)
    else isFalse (fun h' => h (Except.error.inj h'))
  | .ok _, .error _ => isFalse (fun h => Except.noConfusion h)
  | .error _, .ok _ => isFalse (fun h => Except.noConfusion h)

/-- C `round` : nearest integer, halfway cases away from zero. -/
def cround (q : ℚ) : Int :=
  if 0 ≤ q then Int.floor (q + 1 / 2) else -Int.floor (-q + 1 / 2)

/-- The constant `#define Reset_Radio_Temp_HMG 0`. -/
def Reset_Radio_Temp_HMG : Int := 0

/-- The constant `#define astro_nu0 0.15` (GHz). -/
def astro_nu0 : ℚ := 0.15

/-- The fields of `struct TsBox` the source reads or writes. -/
structure TsBox where
  History_box : Int → ℚ
  Trad_box : Int → ℚ

/-- The fields of `struct AstroParams` the source reads. -/
structure AstroParams where
  fR : ℚ
  fR_mini : ℚ
  aR : ℚ
  aR_mini : ℚ
  F_STAR10 : ℚ
  F_STAR7_MINI : ℚ
  X_RAY_SPEC_INDEX : ℚ
  Radio_Zmin : ℚ

/-- The fields of `struct CosmoParams` the source reads. -/
structure CosmoParams where
  OMb : ℚ
  hlittle : ℚ

/-- The fields of `struct FlagOptions` the source reads. -/
structure FlagOptions where
  USE_RADIO_ACG : Bool
  USE_RADIO_MCG : Bool

/-! ## `History_box_Interp` -/

/-- The redshift slot `zid1` of the bracket `idx` in the scan loop
(lines 34-45): `idx * 5` for the rate kinds, `(idx - 1) * 5 + 1` for `Tk`. -/
def History_box_Interp.zid1 (Type_ : Int) (idx : Int) : Int :=
  if Type_ = 1 ∨ Type_ = 2 then idx * 5 else (idx - 1) * 5 + 1

/-- One iteration of the scan loop (lines 32-55): `bingo` becomes `idx` when
`z2 <= z < z1`, and is kept otherwise. -/
def History_box_Interp.step (History_box : Int → ℚ) (z : ℚ) (Type_ : Int)
    (bingo : Int) (idx : Nat) : Int :=
  let zid1 := History_box_Interp.zid1 Type_ idx
  let zid2 := zid1 + 5
  let z1 := History_box zid1
  let z2 := History_box zid2
  if z2 ≤ z ∧ z < z1 then (idx : Int) else bingo

/-- The scan loop `for (idx = 1; idx < ArchiveSize; idx++)` started with
`bingo = 0`: the value of `bingo` after the loop. -/
def History_box_Interp.bingo (History_box : Int → ℚ) (z : ℚ) (Type_ : Int) : Int :=
  let ArchiveSize : Int := cround (History_box 0)
  (List.range' 1 (ArchiveSize - 1).toNat).foldl
    (History_box_Interp.step History_box z Type_) 0

/-- The function `double History_box_Interp(struct TsBox *previous_spin_temp, double z, int Type)`.
The values `zmin`, `zmax` read before `Throw` are only logged. -/
def History_box_Interp (previous_spin_temp : TsBox) (z : ℚ) (Type_ : Int) :
    Except Error ℚ :=
  if Type_ < 1 ∨ Type_ > 3 then
    .error .ValueError
  else
    let bingo := History_box_Interp.bingo previous_spin_temp.History_box z Type_
    if bingo = 0 then
      if Type_ ≠ 3 then .error .ValueError else .ok (-100.0)
    else
      let zid1 : Int := if Type_ = 1 then bingo * 5
        else if Type_ = 2 then bingo * 5
        else (bingo - 1) * 5 + 1
      let fid1 : Int := if Type_ = 1 then (bingo - 1) * 5 + 2
        else if Type_ = 2 then (bingo - 1) * 5 + 4
        else zid1 + 2
      let fid2 := fid1 + 5
      let zid2 := zid1 + 5
      let z1 := previous_spin_temp.History_box zid1
      let z2 := previous_spin_temp.History_box zid2
      let f1 := previous_spin_temp.History_box fid1
      let f2 := previous_spin_temp.History_box fid2
      .ok ((f2 - f1) * (z - z1) / (z2 - z1) + f1)

/-! ## `Get_Radio_Temp_HMG_Astro` and `Get_Radio_Temp_HMG` -/

/-- The loop `for (zid = 1; zid <= nz; zid++)` of `Get_Radio_Temp_HMG_Astro`
(lines 150-161): the first argument is the number of iterations still to run,
then the current `z` and `Radio_Temp`. -/
def Get_Radio_Temp_HMG_Astro.loop (pow : ℚ → ℚ → ℚ) (previous_spin_temp : TsBox)
    (astro_params : AstroParams) (Radio_Prefix_ACG Radio_Prefix_MCG dz : ℚ) :
    Nat → ℚ → ℚ → Except Error ℚ
  | 0, _, Radio_Temp => .ok Radio_Temp
  | n + 1, z, Radio_Temp =>
    match History_box_Interp previous_spin_temp z 1 with
    | .error e => .error e
    | .ok Phi =>
      match History_box_Interp previous_spin_temp z 2 with
      | .error e => .error e
      | .ok Phi_mini =>
        let fun_ACG := Radio_Prefix_ACG * Phi
          * pow (1 + z) (astro_params.X_RAY_SPEC_INDEX - astro_params.aR) * dz
        let fun_MCG := Radio_Prefix_MCG * Phi_mini
          * pow (1 + z) (astro_params.X_RAY_SPEC_INDEX - astro_params.aR_mini) * dz
        Get_Radio_Temp_HMG_Astro.loop pow previous_spin_temp astro_params
          Radio_Prefix_ACG Radio_Prefix_MCG dz n (z + dz)
          (if z > astro_params.Radio_Zmin then Radio_Temp + (fun_ACG + fun_MCG)
           else Radio_Temp)

/-- The function `double Get_Radio_Temp_HMG_Astro(previous_spin_temp, astro_params,
cosmo_params, flag_options, zpp_max, redshift)`. -/
def Get_Radio_Temp_HMG_Astro (pow : ℚ → ℚ → ℚ) (previous_spin_temp : TsBox)
    (astro_params : AstroParams) (cosmo_params : CosmoParams)
    (flag_options : FlagOptions) (zpp_max redshift : ℚ) : Except Error ℚ :=
  let nz : Nat := 1000
  let z2 := previous_spin_temp.History_box 5 - 0.01
  let z1 := zpp_max
  let dz := (z2 - z1) / ((nz : ℚ) - 1)
  let Radio_Prefix_ACG : ℚ :=
    if flag_options.USE_RADIO_ACG then
      113.6161 * astro_params.fR * cosmo_params.OMb * (pow cosmo_params.hlittle 2)
        * astro_params.F_STAR10 * pow (astro_nu0 / 1.4276) astro_params.aR
        * pow (1 + redshift) (3 + astro_params.aR)
    else 0.0
  let Radio_Prefix_MCG : ℚ :=
    if flag_options.USE_RADIO_MCG then
      113.6161 * astro_params.fR_mini * cosmo_params.OMb * (pow cosmo_params.hlittle 2)
        * astro_params.F_STAR7_MINI * pow (astro_nu0 / 1.4276) astro_params.aR_mini
        * pow (1 + redshift) (3 + astro_params.aR_mini)
    else 0.0
  if z1 > z2 then
    .ok 0.0
  else
    Get_Radio_Temp_HMG_Astro.loop pow previous_spin_temp astro_params
      Radio_Prefix_ACG Radio_Prefix_MCG dz nz z1 0.0

/-- The function `double Get_Radio_Temp_HMG(previous_spin_temp, astro_params, cosmo_params,
flag_options, user_params, zpp_max, redshift)`; `user_params` is not read. -/
def Get_Radio_Temp_HMG (pow : ℚ → ℚ → ℚ) (previous_spin_temp : TsBox)
    (astro_params : AstroParams) (cosmo_params : CosmoParams)
    (flag_options : FlagOptions) (zpp_max redshift : ℚ) : Except Error ℚ :=
  match Get_Radio_Temp_HMG_Astro pow previous_spin_temp astro_params cosmo_params
      flag_options zpp_max redshift with
  | .error e => .error e
  | .ok Radio_Temp_HMG =>
    if Radio_Temp_HMG < -1.0E-8 then
      .error .ValueError
    else if Reset_Radio_Temp_HMG = 1 then
      .ok 0.0
    else
      .ok Radio_Temp_HMG

/-! ## `Refine_T_Radio` -/

/-- What a call of `Refine_T_Radio` leaves behind: whether it threw, and the
two boxes it was given pointers to, as they are when the call ends. -/
structure Refine_T_Radio.Result where
  outcome : Except Error Unit
  previous_spin_temp : TsBox
  this_spin_temp : TsBox

/-- The loop `for (box_ct = 0; box_ct < HII_TOT_NUM_PIXELS; box_ct++)` (lines
205-208): each iteration stores `Conversion_Factor * previous Trad_box[box_ct]`
into cell `box_ct` of the current `Trad_box`. -/
def Refine_T_Radio.loop (HII_TOT_NUM_PIXELS : Nat) (Conversion_Factor : ℚ)
    (previous_Trad_box this_Trad_box : Int → ℚ) : Int → ℚ :=
  (List.range HII_TOT_NUM_PIXELS).foldl
    (fun (Trad_box : Int → ℚ) (box_ct : Nat) =>
      Function.update Trad_box (box_ct : Int)
        (Conversion_Factor * previous_Trad_box (box_ct : Int)))
    this_Trad_box

/-- The function `void Refine_T_Radio(previous_spin_temp, this_spin_temp,
prev_redshift, redshift, astro_params, flag_options)`.  The macro
`HII_TOT_NUM_PIXELS` (the number of cells) is defined outside the file and is
a parameter. -/
def Refine_T_Radio (pow : ℚ → ℚ → ℚ) (HII_TOT_NUM_PIXELS : Nat)
    (previous_spin_temp this_spin_temp : TsBox) (prev_redshift redshift : ℚ)
    (astro_params : AstroParams) (flag_options : FlagOptions) :
    Refine_T_Radio.Result :=
  if flag_options.USE_RADIO_MCG = true ∧ redshift < astro_params.Radio_Zmin then
    ⟨.error .ValueError, previous_spin_temp, this_spin_temp⟩
  else
    let Conversion_Factor :=
      pow ((1 + redshift) / (1 + prev_redshift)) (3 + astro_params.aR)
    if redshift < astro_params.Radio_Zmin then
      ⟨.ok (), previous_spin_temp,
        { this_spin_temp with
          Trad_box := Refine_T_Radio.loop HII_TOT_NUM_PIXELS Conversion_Factor
            previous_spin_temp.Trad_box this_spin_temp.Trad_box }⟩
    else
      ⟨.ok (), previous_spin_temp, this_spin_temp⟩

/-! ## `Find_Index` -/

/-- The value a 32-bit two's complement `int` holds after an addition whose
exact result is `n` : `n` itself inside `[-2^31, 2^31)`, wrapped otherwise. -/
def wrap32 (n : Int) : Int := (n + 2147483648) % 4294967296 - 2147483648

/-- The loop `while (Stop == 0)` of `Find_Index` (lines 333-374).  The first
argument bounds the number of iterations (the source leaves the loop through
`exit(1)` in the iteration that makes `count` 101, so 101 is enough); then
`reversed`, and the variables `id1`, `id3`, `count` at the head of the loop.
The `int` sum `id1 + id3` of line 336 is taken in 32 bits. -/
def Find_Index.loop (x_axis : Int → ℚ) (x : ℚ) (reversed : Bool) :
    Nat → Int → Int → Int → Except Error Int
  | 0, _, _, _ => .error .Exit
  | fuel + 1, id1, id3, count =>
    let count := count + 1
    let id2 : Int := cround (((wrap32 (id1 + id3) : Int) : ℚ) / 2.0)
    let Stop : Bool := decide (id3 = id1 + 1)
    let idx : Int := id1
    let x2 := x_axis id2
    -- `(id1, id3)` after lines 347-368
    let ids : Int × Int :=
      if !reversed then
        if x < x2 then (id1, id2) else (id2, id3)
      else
        if x < x2 then (id2, id3) else (id1, id2)
    if count > 100 then .error .Exit
    else if Stop then .ok idx
    else Find_Index.loop x_axis x reversed fuel ids.1 ids.2 count

/-- The function `int Find_Index(double *x_axis, double x, int nx)`. -/
def Find_Index (x_axis : Int → ℚ) (x : ℚ) (nx : Int) : Except Error Int :=
  let id1 : Int := 0
  let id3 : Int := nx - 1
  let x1 := x_axis id1
  let x3 := x_axis id3
  let reversed : Bool := if x1 < x3 then false else true
  -- `(Stop, idx)` after the range tests of lines 304-330; `idx` is not
  -- initialised in the source and is only read once it has been assigned
  let s0 : Bool × Int := (false, 0)
  let s2 : Bool × Int :=
    if !reversed then
      let s1 := if x < x1 then (true, -1) else s0
      if x > x3 then (true, nx) else s1
    else
      let s1 := if x > x1 then (true, -1) else s0
      if x < x3 then (true, nx) else s1
  if s2.1 then .ok s2.2
  else Find_Index.loop x_axis x reversed 101 id1 id3 0

/-! ## Specification vocabulary and sample data -/

/-- The redshift `z` lies in a rate bracket of the archive: some `idx` in
`1..ArchiveSize-1` has `History_box[5*idx+5] <= z < History_box[5*idx]`. -/
def RateCovered (History_box : Int → ℚ) (z : ℚ) : Prop :=
  ∃ idx : Int, 1 ≤ idx ∧ idx ≤ cround (History_box 0) - 1
    ∧ History_box (5 * idx + 5) ≤ z ∧ z < History_box (5 * idx)

/-- The array that holds the elements of `l` from index 0 on (0 elsewhere). -/
def arrayOf (l : List ℚ) : Int → ℚ :=
  fun i => if 0 ≤ i then l.getD i.toNat 0 else 0

/-- A sample `pow`: exact for integer exponents (`x ^ ⌊y⌋`). -/
def powFloor (x y : ℚ) : ℚ := x ^ Int.floor y

/-- A sample archive with one record, at redshift 10. -/
def oneRecordBox : TsBox :=
  ⟨arrayOf [1, 10, 0, 300, 0, 10, 0, 0, 0, 0], arrayOf [5, 6, 7]⟩

/-- A sample archive with three records, at rate redshifts 30, 20, 10. -/
def threeRecordBox : TsBox :=
  ⟨arrayOf [3, 31, 1, 100, 2, 30, 21, 3, 200, 4, 20, 11, 5, 300, 6, 10, 0, 0, 0, 0],
    arrayOf [5, 6, 7]⟩

/-- Sample astrophysical parameters (`Radio_Zmin = 5`, `aR = 0`). -/
def sampleAstro : AstroParams :=
  { fR := 1, fR_mini := 1, aR := 0, aR_mini := 0, F_STAR10 := 1,
    F_STAR7_MINI := 1, X_RAY_SPEC_INDEX := 1, Radio_Zmin := 5 }

/-- Sample cosmological parameters. -/
def sampleCosmo : CosmoParams := { OMb := 1, hlittle := 1 }

/-- A sample ascending axis `{0, 1, 2, 3}`. -/
def ascendingAxis : Int → ℚ := arrayOf [0, 1, 2, 3]

/-- A sample descending axis `{2, 1, 0}`. -/
def descendingAxis : Int → ℚ := arrayOf [2, 1, 0]

/-! ## `Interp_1D` and `get_mturn_interp` -/

/-- The function `double Interp_1D(double x, double *x_axis, double *y_axis,
int nx, int Use_LogX, int Use_LogY, int Overflow_Handle)`.  The table entries
and the query are rationals; `log` and `exp` of `math.h` are parameters, and
the interpolation is computed in a field `α` into which the rationals are
cast: `α = ℚ` gives an executable function, `α = ℝ` with the real logarithm
and exponential the exact-arithmetic reading of the log flags. -/
def Interp_1D {α : Type} [DivisionRing α] (log exp : α → α) (x : ℚ)
    (x_axis y_axis : Int → ℚ) (nx : Int)
    (Use_LogX Use_LogY Overflow_Handle : Int) : Except Error α :=
  match Find_Index x_axis x nx with
  | .error e => .error e
  | .ok id1 =>
    if id1 = -1 then
      if Overflow_Handle = 1 then .ok (y_axis 0 : α) else .error .Exit
    else if id1 = nx then
      if Overflow_Handle = 1 then .ok (y_axis (nx - 1) : α) else .error .Exit
    else
      let id2 := id1 + 1
      let x1 : α := if Use_LogX = 0 then (x_axis id1 : α) else log (x_axis id1 : α)
      let x2 : α := if Use_LogX = 0 then (x_axis id2 : α) else log (x_axis id2 : α)
      let x_ : α := if Use_LogX = 0 then (x : α) else log (x : α)
      let y1 : α := if Use_LogY ≠ 0 then log (y_axis id1 : α) else (y_axis id1 : α)
      let y2 : α := if Use_LogY ≠ 0 then log (y_axis id2 : α) else (y_axis id2 : α)
      let r : α := (y2 - y1) / (x2 - x1) * (x_ - x1) + y1
      .ok (if Use_LogY ≠ 0 then exp r else r)

/-- The local table `double z_axis[100]` of `get_mturn_interp`. -/
def get_mturn_interp.z_axis : Int → ℚ := arrayOf [
    5.39517E+00, 5.64340E+00, 5.89163E+00, 6.13987E+00, 6.38810E+00, 6.63633E+00, 6.88456E+00, 7.13280E+00, 7.38103E+00, 7.62926E+00,
    7.87749E+00, 8.12572E+00, 8.37396E+00, 8.62219E+00, 8.87042E+00, 9.11865E+00, 9.36689E+00, 9.61512E+00, 9.86335E+00, 1.01116E+01,
    1.03598E+01, 1.06080E+01, 1.08563E+01, 1.11045E+01, 1.13527E+01, 1.16010E+01, 1.18492E+01, 1.20974E+01, 1.23457E+01, 1.25939E+01,
    1.28421E+01, 1.30904E+01, 1.33386E+01, 1.35868E+01, 1.38351E+01, 1.40833E+01, 1.43315E+01, 1.45798E+01, 1.48280E+01, 1.50762E+01,
    1.53245E+01, 1.55727E+01, 1.58209E+01, 1.60692E+01, 1.63174E+01, 1.65656E+01, 1.68139E+01, 1.70621E+01, 1.73103E+01, 1.75586E+01,
    1.78068E+01, 1.80550E+01, 1.83033E+01, 1.85515E+01, 1.87997E+01, 1.90480E+01, 1.92962E+01, 1.95444E+01, 1.97926E+01, 2.00409E+01,
    2.02891E+01, 2.05373E+01, 2.07856E+01, 2.10338E+01, 2.12820E+01, 2.15303E+01, 2.17785E+01, 2.20267E+01, 2.22750E+01, 2.25232E+01,
    2.27714E+01, 2.30197E+01, 2.32679E+01, 2.35161E+01, 2.37644E+01, 2.40126E+01, 2.42608E+01, 2.45091E+01, 2.47573E+01, 2.50055E+01,
    2.52538E+01, 2.55020E+01, 2.57502E+01, 2.59985E+01, 2.62467E+01, 2.64949E+01, 2.67432E+01, 2.69914E+01, 2.72396E+01, 2.74879E+01,
    2.77361E+01, 2.79843E+01, 2.82325E+01, 2.84808E+01, 2.87290E+01, 2.89772E+01, 2.92255E+01, 2.94737E+01, 2.97219E+01, 2.99702E+01]

/-- The local table `double lmt_axis[100]` of `get_mturn_interp`. -/
def get_mturn_interp.lmt_axis : Int → ℚ := arrayOf [
    8.46618E+00, 8.31289E+00, 8.16164E+00, 8.02782E+00, 7.91852E+00, 7.82774E+00, 7.74884E+00, 7.67793E+00, 7.61205E+00, 7.54858E+00,
    7.48743E+00, 7.42967E+00, 7.37632E+00, 7.32775E+00, 7.28281E+00, 7.24020E+00, 7.19866E+00, 7.15769E+00, 7.11745E+00, 7.07812E+00,
    7.03990E+00, 7.00295E+00, 6.96732E+00, 6.93301E+00, 6.89998E+00, 6.86825E+00, 6.83778E+00, 6.80856E+00, 6.78048E+00, 6.75343E+00,
    6.72725E+00, 6.70181E+00, 6.67699E+00, 6.65263E+00, 6.62862E+00, 6.60480E+00, 6.58107E+00, 6.55744E+00, 6.53405E+00, 6.51103E+00,
    6.48851E+00, 6.46663E+00, 6.44550E+00, 6.42528E+00, 6.40601E+00, 6.38760E+00, 6.36995E+00, 6.35297E+00, 6.33654E+00, 6.32056E+00,
    6.30493E+00, 6.28955E+00, 6.27432E+00, 6.25912E+00, 6.24387E+00, 6.22859E+00, 6.21337E+00, 6.19829E+00, 6.18344E+00, 6.16891E+00,
    6.15479E+00, 6.14116E+00, 6.12812E+00, 6.11569E+00, 6.10380E+00, 6.09240E+00, 6.08142E+00, 6.07081E+00, 6.06050E+00, 6.05042E+00,
    6.04053E+00, 6.03076E+00, 6.02112E+00, 6.01160E+00, 6.00219E+00, 5.99288E+00, 5.98368E+00, 5.97457E+00, 5.96554E+00, 5.95661E+00,
    5.94774E+00, 5.93897E+00, 5.93029E+00, 5.92171E+00, 5.91325E+00, 5.90491E+00, 5.89671E+00, 5.88864E+00, 5.88073E+00, 5.87300E+00,
    5.86546E+00, 5.85814E+00, 5.85106E+00, 5.84424E+00, 5.83770E+00, 5.83146E+00, 5.82555E+00, 5.81998E+00, 5.81477E+00, 5.80995E+00]

/-- The function `double get_mturn_interp(double z)`; `pow`, `log`, `exp` of
`math.h` are parameters. -/
def get_mturn_interp {α : Type} [DivisionRing α] (log exp : α → α) (pow : α → α → α)
    (z : ℚ) : Except Error α :=
  match Interp_1D log exp z get_mturn_interp.z_axis get_mturn_interp.lmt_axis
      100 0 0 1 with
  | .error e => .error e
  | .ok r => .ok (pow 10.0 r)

/-- A sample value table `{0, 2, 4, 6}` (linear in `ascendingAxis`). -/
def linearValues : Int → ℚ := arrayOf [0, 2, 4, 6]

/-- A sample axis `{1, 2}`. -/
def twoPointAxis : Int → ℚ := arrayOf [1, 2]

/-- A sample value table `{1, 100}`. -/
def twoPointValues : Int → ℚ := arrayOf [1, 100]

/-- The axis is strictly increasing on the indices `0..nx-1`. -/
def StrictlyIncreasing (x_axis : Int → ℚ) (nx : Int) : Prop :=
  ∀ i j : Int, 0 ≤ i → i < j → j ≤ nx - 1 → x_axis i < x_axis j

/-- The axis is strictly decreasing on the indices `0..nx-1`. -/
def StrictlyDecreasing (x_axis : Int → ℚ) (nx : Int) : Prop :=
  ∀ i j : Int, 0 ≤ i → i < j → j ≤ nx - 1 → x_axis j < x_axis i

/-- A sample axis `{0, 5, 2, 9}` that is not monotonic. -/
def zigzagAxis : Int → ℚ := arrayOf [0, 5, 2, 9]

/-- The axis `x_axis[i] = i`, of any length. -/
def identityAxis : Int → ℚ := fun i => (i : ℚ)

/-- The axis `x_axis[i] = -i`, of any length. -/
def mirroredAxis : Int → ℚ := fun i => -(i : ℚ)

/-- A value table that holds 1 everywhere. -/
def unitValues : Int → ℚ := fun _ => 1

/-- The array `x_axis` with the value `v` at every index below 0 : what a read
below the array returns. -/
def readBelow (x_axis : Int → ℚ) (v : ℚ) : Int → ℚ :=
  fun i => if 0 ≤ i then x_axis i else v

/-- A sample archive with four records whose rate redshifts 30, 10, 40, 20
are not monotonic: `z = 25` lies in the brackets 1 (`[10, 30)`) and 3
(`[20, 40)`). -/
def overlapBox : TsBox :=
  ⟨arrayOf [4, 0, 100, 0, 0, 30, 0, 200, 0, 0, 10, 0, 0, 0, 0, 40, 0, 4, 0, 0, 20],
    arrayOf [5, 6, 7]⟩

end RadioExcess

/-! # Theorems -/

namespace RadioExcess

/-! ## The scan loop of `History_box_Interp` -/

theorem History_box_Interp.foldl_step_none (H : Int → ℚ) (z : ℚ) (T : Int)
    (l : List Nat) (b : Int)
    (h : ∀ i ∈ l, ¬ (H (History_box_Interp.zid1 T i + 5) ≤ z
      ∧ z < H (History_box_Interp.zid1 T i))) :
    l.foldl (History_box_Interp.step H z T) b = b := by
  induction l generalizing b with
  | nil => rfl
  | cons a l ih =>
    have ha := h a (List.mem_cons_self a l)
    have hl : ∀ i ∈ l, ¬ (H (History_box_Interp.zid1 T i + 5) ≤ z
        ∧ z < H (History_box_Interp.zid1 T i)) :=
      fun i hi => h i (List.mem_cons_of_mem a hi)
    rw [List.foldl_cons, ih _ hl]
    simp only [History_box_Interp.step]
    rw [if_neg ha]

theorem History_box_Interp.foldl_step_some (H : Int → ℚ) (z : ℚ) (T : Int)
    (l : List Nat) (b : Int)
    (h : ∃ i ∈ l, H (History_box_Interp.zid1 T i + 5) ≤ z
      ∧ z < H (History_box_Interp.zid1 T i)) :
    ∃ j ∈ l, l.foldl (History_box_Interp.step H z T) b = (j : Int)
      ∧ H (History_box_Interp.zid1 T j + 5) ≤ z
      ∧ z < H (History_box_Interp.zid1 T j) := by
  induction l using List.reverseRecOn with
  | nil =>
    obtain ⟨i, hi, _⟩ := h
    exact absurd hi (List.not_mem_nil i)
  | append_singleton l a ih =>
    rw [List.foldl_append, List.foldl_cons, List.foldl_nil]
    by_cases ha : H (History_box_Interp.zid1 T a + 5) ≤ z
        ∧ z < H (History_box_Interp.zid1 T a)
    · refine ⟨a, by simp, ?_, ha⟩
      simp only [History_box_Interp.step]
      rw [if_pos ha]
    · have hl : ∃ i ∈ l, H (History_box_Interp.zid1 T i + 5) ≤ z
          ∧ z < H (History_box_Interp.zid1 T i) := by
        obtain ⟨i, hi, hb⟩ := h
        rcases List.mem_append.1 hi with hi | hi
        · exact ⟨i, hi, hb⟩
        · rw [List.mem_singleton] at hi
          subst hi
          exact absurd hb ha
      obtain ⟨j, hj, hjeq, hjb⟩ := ih hl
      refine ⟨j, List.mem_append_left _ hj, ?_, hjb⟩
      simp only [History_box_Interp.step]
      rw [if_neg ha, hjeq]

/-- The scan leaves `bingo = 0` exactly when no `idx` with
`1 <= idx < ArchiveSize` has `z2 <= z < z1`. -/
theorem History_box_Interp.bingo_eq_zero_iff (H : Int → ℚ) (z : ℚ) (T : Int) :
    History_box_Interp.bingo H z T = 0 ↔
      ¬ ∃ idx : Int, 1 ≤ idx ∧ idx < cround (H 0)
        ∧ H (History_box_Interp.zid1 T idx + 5) ≤ z
        ∧ z < H (History_box_Interp.zid1 T idx) := by
  constructor
  · intro h0 hex
    obtain ⟨idx, h1, h2, hb⟩ := hex
    have hmem : ∃ i ∈ List.range' 1 (cround (H 0) - 1).toNat,
        H (History_box_Interp.zid1 T i + 5) ≤ z
        ∧ z < H (History_box_Interp.zid1 T i) := by
      refine ⟨idx.toNat, ?_, ?_⟩
      · rw [List.mem_range'_1]
        omega
      · have hc : ((idx.toNat : Nat) : Int) = idx := Int.toNat_of_nonneg (by omega)
        rw [hc]
        exact hb
    obtain ⟨j, hj, hjeq, _⟩ :=
      History_box_Interp.foldl_step_some H z T _ 0 hmem
    rw [List.mem_range'_1] at hj
    have : History_box_Interp.bingo H z T = (j : Int) := hjeq
    omega
  · intro hno
    apply History_box_Interp.foldl_step_none
    intro i hi hb
    rw [List.mem_range'_1] at hi
    exact hno ⟨(i : Int), by omega, by omega, hb⟩

/-! ## `History_box_Interp` : the results outside the archive coverage -/

theorem History_box_Interp.rate_no_bracket (b : TsBox) (z : ℚ) (T : Int)
    (hT : T = 1 ∨ T = 2)
    (hno : ¬ ∃ idx : Int, 1 ≤ idx ∧ idx ≤ cround (b.History_box 0) - 1
      ∧ b.History_box (5 * idx + 5) ≤ z ∧ z < b.History_box (5 * idx)) :
    History_box_Interp b z T = .error .ValueError := by
  have hb : History_box_Interp.bingo b.History_box z T = 0 := by
    rw [History_box_Interp.bingo_eq_zero_iff]
    rintro ⟨idx, h1, h2, h3, h4⟩
    apply hno
    refine ⟨idx, h1, by omega, ?_, ?_⟩
    · simpa [History_box_Interp.zid1, hT, mul_comm] using h3
    · simpa [History_box_Interp.zid1, hT, mul_comm] using h4
  have hrange : ¬ (T < 1 ∨ T > 3) := by omega
  have h3 : T ≠ 3 := by omega
  simp only [History_box_Interp, if_neg hrange, hb, if_true, if_pos h3]

theorem History_box_Interp.temperature_no_bracket (b : TsBox) (z : ℚ)
    (hno : ¬ ∃ idx : Int, 1 ≤ idx ∧ idx ≤ cround (b.History_box 0) - 1
      ∧ b.History_box (5 * idx + 1) ≤ z ∧ z < b.History_box (5 * (idx - 1) + 1)) :
    History_box_Interp b z 3 = .ok (-100) := by
  have hb : History_box_Interp.bingo b.History_box z 3 = 0 := by
    rw [History_box_Interp.bingo_eq_zero_iff]
    rintro ⟨idx, h1, h2, h3, h4⟩
    apply hno
    have e1 : History_box_Interp.zid1 3 idx + 5 = 5 * idx + 1 := by
      simp [History_box_Interp.zid1]; ring
    have e2 : History_box_Interp.zid1 3 idx = 5 * (idx - 1) + 1 := by
      simp [History_box_Interp.zid1]; ring
    rw [e1] at h3
    rw [e2] at h4
    exact ⟨idx, h1, by omega, h3, h4⟩
  simp only [History_box_Interp, hb]
  norm_num

/-- C4 : `History_box_Interp` throws `ValueError`, and so returns no value,
(a) for every kind selector `Type < 1` or `Type > 3`, whatever the archive and
the redshift; (b) for every rate-kind query (`Type` 1 or 2) for which no `idx`
in `1..ArchiveSize-1` has `History_box[5*idx+5] <= z < History_box[5*idx]`;
(c) in particular, when the rate redshifts `History_box[5], History_box[10],
..., History_box[5*ArchiveSize]` are strictly decreasing, for every `z` below
`History_box[5*ArchiveSize]` or above `History_box[5]`. -/
theorem History_box_Interp_raises_outside_rate_coverage :
    (∀ (b : TsBox) (z : ℚ) (T : Int), (T < 1 ∨ T > 3) →
      History_box_Interp b z T = .error .ValueError)
    ∧ (∀ (b : TsBox) (z : ℚ) (T : Int), (T = 1 ∨ T = 2) →
      (¬ ∃ idx : Int, 1 ≤ idx ∧ idx ≤ cround (b.History_box 0) - 1
        ∧ b.History_box (5 * idx + 5) ≤ z ∧ z < b.History_box (5 * idx)) →
      History_box_Interp b z T = .error .ValueError)
    ∧ (∀ (b : TsBox) (z : ℚ) (T : Int), (T = 1 ∨ T = 2) →
      (∀ i j : Int, 1 ≤ i → i < j → j ≤ cround (b.History_box 0) →
        b.History_box (5 * j) < b.History_box (5 * i)) →
      (z < b.History_box (5 * cround (b.History_box 0)) ∨ b.History_box 5 < z) →
      History_box_Interp b z T = .error .ValueError) := by
  refine ⟨?_, ?_, ?_⟩
  · intro b z T hT
    simp only [History_box_Interp, if_pos hT]
  · intro b z T hT hno
    exact History_box_Interp.rate_no_bracket b z T hT hno
  · intro b z T hT hdec hz
    apply History_box_Interp.rate_no_bracket b z T hT
    rintro ⟨idx, h1, h2, h3, h4⟩
    rcases hz with hz | hz
    · -- below the last rate redshift
      have hle : b.History_box (5 * cround (b.History_box 0))
          ≤ b.History_box (5 * idx + 5) := by
        rcases eq_or_lt_of_le (show idx + 1 ≤ cround (b.History_box 0) by omega)
          with he | hlt
        · rw [← he]
          exact le_of_eq (congrArg b.History_box (by ring))
        · have := hdec (idx + 1) (cround (b.History_box 0)) (by omega) hlt le_rfl
          have e : 5 * (idx + 1) = 5 * idx + 5 := by ring
          rw [e] at this
          exact le_of_lt this
      exact absurd (lt_of_lt_of_le hz hle) (not_lt.2 h3)
    · -- above the first rate redshift
      have hle : b.History_box (5 * idx) ≤ b.History_box 5 := by
        rcases eq_or_lt_of_le h1 with he | hlt
        · rw [← he]
          exact le_of_eq (congrArg b.History_box (by ring))
        · have := hdec 1 idx le_rfl hlt (by omega)
          simpa using le_of_lt this
      exact absurd (lt_of_lt_of_le h4 hle) (not_lt.2 (le_of_lt hz))

/-- C5 : `History_box_Interp` with `Type = 3` returns exactly `-100.0`, and
does not throw, for every archive and every `z` for which no `idx` in
`1..ArchiveSize-1` has `History_box[5*idx+1] <= z < History_box[5*(idx-1)+1]`;
in particular for every `z` below the last or above the first temperature
redshift when the temperature redshifts `History_box[1], History_box[6], ...,
History_box[5*(ArchiveSize-1)+1]` are strictly decreasing, and for every `z`
when `ArchiveSize <= 1`. -/
theorem History_box_Interp_temperature_sentinel :
    (∀ (b : TsBox) (z : ℚ),
      (¬ ∃ idx : Int, 1 ≤ idx ∧ idx ≤ cround (b.History_box 0) - 1
        ∧ b.History_box (5 * idx + 1) ≤ z
        ∧ z < b.History_box (5 * (idx - 1) + 1)) →
      History_box_Interp b z 3 = .ok (-100))
    ∧ (∀ (b : TsBox) (z : ℚ),
      (∀ i j : Int, 0 ≤ i → i < j → j ≤ cround (b.History_box 0) - 1 →
        b.History_box (5 * j + 1) < b.History_box (5 * i + 1)) →
      (z < b.History_box (5 * (cround (b.History_box 0) - 1) + 1)
        ∨ b.History_box 1 < z) →
      History_box_Interp b z 3 = .ok (-100))
    ∧ (∀ (b : TsBox) (z : ℚ), cround (b.History_box 0) ≤ 1 →
      History_box_Interp b z 3 = .ok (-100)) := by
  refine ⟨?_, ?_, ?_⟩
  · intro b z hno
    exact History_box_Interp.temperature_no_bracket b z hno
  · intro b z hdec hz
    apply History_box_Interp.temperature_no_bracket b z
    rintro ⟨idx, h1, h2, h3, h4⟩
    rcases hz with hz | hz
    · have hle : b.History_box (5 * (cround (b.History_box 0) - 1) + 1)
          ≤ b.History_box (5 * idx + 1) := by
        rcases eq_or_lt_of_le h2 with he | hlt
        · rw [← he]
        · exact le_of_lt (hdec idx (cround (b.History_box 0) - 1) (by omega) hlt le_rfl)
      exact absurd (lt_of_lt_of_le hz hle) (not_lt.2 h3)
    · have hle : b.History_box (5 * (idx - 1) + 1) ≤ b.History_box 1 := by
        rcases eq_or_lt_of_le h1 with he | hlt
        · rw [← he]
          exact le_of_eq (congrArg b.History_box (by ring))
        · have := hdec 0 (idx - 1) le_rfl (by omega) (by omega)
          simpa using le_of_lt this
      exact absurd (lt_of_lt_of_le h4 hle) (not_lt.2 (le_of_lt hz))
  · intro b z hA
    apply History_box_Interp.temperature_no_bracket b z
    rintro ⟨idx, h1, h2, _, _⟩
    omega

/-! ## `Get_Radio_Temp_HMG_Astro` : the integration loop -/

theorem History_box_Interp.rate_ok_of_covered (b : TsBox) (z : ℚ) (T : Int)
    (hT : T = 1 ∨ T = 2) (hc : RateCovered b.History_box z) :
    ∃ v, History_box_Interp b z T = .ok v := by
  have hb : History_box_Interp.bingo b.History_box z T ≠ 0 := by
    rw [Ne, History_box_Interp.bingo_eq_zero_iff, not_not]
    obtain ⟨idx, h1, h2, h3, h4⟩ := hc
    refine ⟨idx, h1, by omega, ?_, ?_⟩
    · simpa [History_box_Interp.zid1, hT, mul_comm] using h3
    · simpa [History_box_Interp.zid1, hT, mul_comm] using h4
  have hrange : ¬ (T < 1 ∨ T > 3) := by omega
  simp only [History_box_Interp, if_neg hrange, if_neg hb]
  exact ⟨_, rfl⟩

theorem History_box_Interp.rate_error_of_not_covered (b : TsBox) (z : ℚ) (T : Int)
    (hT : T = 1 ∨ T = 2) (hc : ¬ RateCovered b.History_box z) :
    History_box_Interp b z T = .error .ValueError :=
  History_box_Interp.rate_no_bracket b z T hT hc

/-- The loop throws as soon as one of its sample redshifts is not covered. -/
theorem Get_Radio_Temp_HMG_Astro.loop_error (pow : ℚ → ℚ → ℚ) (b : TsBox)
    (ap : AstroParams) (PA PM dz : ℚ) (n : Nat) (z T : ℚ)
    (h : ∃ k : Nat, k < n ∧ ¬ RateCovered b.History_box (z + k * dz)) :
    Get_Radio_Temp_HMG_Astro.loop pow b ap PA PM dz n z T = .error .ValueError := by
  induction n generalizing z T with
  | zero =>
    obtain ⟨k, hk, _⟩ := h
    exact absurd hk (Nat.not_lt_zero k)
  | succ n ih =>
    by_cases hc : RateCovered b.History_box z
    · obtain ⟨v1, h1⟩ := History_box_Interp.rate_ok_of_covered b z 1 (Or.inl rfl) hc
      obtain ⟨v2, h2⟩ := History_box_Interp.rate_ok_of_covered b z 2 (Or.inr rfl) hc
      simp only [Get_Radio_Temp_HMG_Astro.loop, h1, h2]
      apply ih
      obtain ⟨k, hk, hnc⟩ := h
      cases k with
      | zero =>
        simp only [Nat.cast_zero, zero_mul, add_zero] at hnc
        exact absurd hc hnc
      | succ k =>
        refine ⟨k, by omega, ?_⟩
        have e : z + dz + (k : ℚ) * dz = z + ((k + 1 : Nat) : ℚ) * dz := by
          push_cast; ring
        rw [e]
        exact hnc
    · have h1 := History_box_Interp.rate_error_of_not_covered b z 1 (Or.inl rfl) hc
      simp only [Get_Radio_Temp_HMG_Astro.loop, h1]

/-- When every term that the loop adds is zero (both prefactors are zero, or
the step `dz` is zero) and every sample redshift is covered, the loop returns
the value of `Radio_Temp` it was started with. -/
theorem Get_Radio_Temp_HMG_Astro.loop_ok_of_zero (pow : ℚ → ℚ → ℚ) (b : TsBox)
    (ap : AstroParams) (PA PM dz : ℚ) (n : Nat) (z T : ℚ)
    (hz : (PA = 0 ∧ PM = 0) ∨ dz = 0)
    (h : ∀ k : Nat, k < n → RateCovered b.History_box (z + k * dz)) :
    Get_Radio_Temp_HMG_Astro.loop pow b ap PA PM dz n z T = .ok T := by
  induction n generalizing z T with
  | zero => rfl
  | succ n ih =>
    have hc : RateCovered b.History_box z := by
      simpa using h 0 (Nat.succ_pos n)
    obtain ⟨v1, h1⟩ := History_box_Interp.rate_ok_of_covered b z 1 (Or.inl rfl) hc
    obtain ⟨v2, h2⟩ := History_box_Interp.rate_ok_of_covered b z 2 (Or.inr rfl) hc
    simp only [Get_Radio_Temp_HMG_Astro.loop, h1, h2]
    have hT : (if z > ap.Radio_Zmin then
        T + (PA * v1 * pow (1 + z) (ap.X_RAY_SPEC_INDEX - ap.aR) * dz
          + PM * v2 * pow (1 + z) (ap.X_RAY_SPEC_INDEX - ap.aR_mini) * dz)
        else T) = T := by
      rcases hz with ⟨ha, hm⟩ | hd
      · simp [ha, hm]
      · simp [hd]
    rw [hT]
    apply ih
    intro k hk
    have e : z + dz + (k : ℚ) * dz = z + ((k + 1 : Nat) : ℚ) * dz := by
      push_cast; ring
    rw [e]
    exact h (k + 1) (by omega)

/-! ## `Get_Radio_Temp_HMG_Astro` and `Get_Radio_Temp_HMG` -/

theorem Get_Radio_Temp_HMG_Astro.eq_of_gt (pow : ℚ → ℚ → ℚ) (b : TsBox)
    (ap : AstroParams) (cp : CosmoParams) (fo : FlagOptions) (zpp_max redshift : ℚ)
    (h : zpp_max > b.History_box 5 - 0.01) :
    Get_Radio_Temp_HMG_Astro pow b ap cp fo zpp_max redshift = .ok 0 := by
  simp only [Get_Radio_Temp_HMG_Astro, if_pos h]
  norm_num

/-- C1 (amended) : for every archive and every parameter set with
`zpp_max >= History_box[5] - 0.01`, `Get_Radio_Temp_HMG_Astro` returns exactly
`0.0` when `zpp_max > History_box[5] - 0.01`, and also at the boundary
`zpp_max = History_box[5] - 0.01` when that redshift lies in a rate bracket of
the archive; at the boundary with no such bracket it throws `ValueError`
(the guard is `z1 > z2`, so at the boundary the loop runs, with `dz = 0`). -/
theorem Get_Radio_Temp_HMG_Astro_zero_at_or_above_archive_max
    (pow : ℚ → ℚ → ℚ) (b : TsBox) (ap : AstroParams) (cp : CosmoParams)
    (fo : FlagOptions) (zpp_max redshift : ℚ)
    (h : zpp_max ≥ b.History_box 5 - 0.01) :
    ((zpp_max > b.History_box 5 - 0.01 ∨ RateCovered b.History_box zpp_max) →
      Get_Radio_Temp_HMG_Astro pow b ap cp fo zpp_max redshift = .ok 0)
    ∧ ((zpp_max = b.History_box 5 - 0.01 ∧ ¬ RateCovered b.History_box zpp_max) →
      Get_Radio_Temp_HMG_Astro pow b ap cp fo zpp_max redshift
        = .error .ValueError) := by
  constructor
  · intro hor
    by_cases hgt : zpp_max > b.History_box 5 - 0.01
    · exact Get_Radio_Temp_HMG_Astro.eq_of_gt pow b ap cp fo zpp_max redshift hgt
    · have hc : RateCovered b.History_box zpp_max := hor.resolve_left hgt
      have heq : b.History_box 5 - 0.01 - zpp_max = 0 := by
        have := le_antisymm (not_lt.1 hgt) h
        rw [this]; ring
      simp only [Get_Radio_Temp_HMG_Astro, if_neg hgt, heq, zero_div]
      have e : (0.0 : ℚ) = 0 := by norm_num
      rw [e]
      apply Get_Radio_Temp_HMG_Astro.loop_ok_of_zero _ _ _ _ _ _ _ _ _ (Or.inr rfl)
      intro k _
      simpa using hc
  · rintro ⟨heq, hnc⟩
    have hgt : ¬ zpp_max > b.History_box 5 - 0.01 := by rw [heq]; exact lt_irrefl _
    simp only [Get_Radio_Temp_HMG_Astro, if_neg hgt]
    apply Get_Radio_Temp_HMG_Astro.loop_error
    exact ⟨0, by norm_num, by simpa using hnc⟩

/-- C1, witness : the three-record archive (rate redshifts 30, 20, 10) at the
boundary `zpp_max = 30 - 0.01`, which lies in the bracket `[20, 30)`. -/
theorem Get_Radio_Temp_HMG_Astro_zero_at_or_above_archive_max_witness :
    (2999 / 100 : ℚ) ≥ threeRecordBox.History_box 5 - 0.01
    ∧ Get_Radio_Temp_HMG_Astro powFloor threeRecordBox sampleAstro sampleCosmo
        ⟨true, true⟩ (2999 / 100) 7 = .ok 0 :=
  ⟨by decide!,
    (Get_Radio_Temp_HMG_Astro_zero_at_or_above_archive_max powFloor threeRecordBox
      sampleAstro sampleCosmo ⟨true, true⟩ (2999 / 100) 7 (by decide!)).1
      (Or.inr ⟨1, by decide!, by decide!, by decide!, by decide!⟩)⟩

/-- C1, counterexample : with the one-record archive (redshift 10) and
`zpp_max = 10 - 0.01`, the boundary case, the call throws `ValueError` instead
of returning `0.0`. -/
theorem Get_Radio_Temp_HMG_Astro_boundary_raises :
    (999 / 100 : ℚ) ≥ oneRecordBox.History_box 5 - 0.01
    ∧ Get_Radio_Temp_HMG_Astro powFloor oneRecordBox sampleAstro sampleCosmo
        ⟨true, true⟩ (999 / 100) 7 = .error .ValueError
    ∧ Get_Radio_Temp_HMG_Astro powFloor oneRecordBox sampleAstro sampleCosmo
        ⟨true, true⟩ (999 / 100) 7 ≠ .ok 0 := by
  refine ⟨by decide!, by decide!, by decide!⟩

/-- C2 (amended) : when both `USE_RADIO_ACG` and `USE_RADIO_MCG` are disabled,
`Get_Radio_Temp_HMG_Astro` returns `0.0` or throws `ValueError`, whatever the
archive holds; it returns `0.0` exactly when `zpp_max > History_box[5] - 0.01`
or each of the 1000 sample redshifts `zpp_max + k * dz` (`k = 0..999`,
`dz = (History_box[5] - 0.01 - zpp_max) / 999`) lies in a rate bracket of the
archive: the loop still performs the lookups. -/
theorem Get_Radio_Temp_HMG_Astro_both_disabled
    (pow : ℚ → ℚ → ℚ) (b : TsBox) (ap : AstroParams) (cp : CosmoParams)
    (fo : FlagOptions) (zpp_max redshift : ℚ)
    (hACG : fo.USE_RADIO_ACG = false) (hMCG : fo.USE_RADIO_MCG = false) :
    (Get_Radio_Temp_HMG_Astro pow b ap cp fo zpp_max redshift = .ok 0
      ∨ Get_Radio_Temp_HMG_Astro pow b ap cp fo zpp_max redshift
        = .error .ValueError)
    ∧ (Get_Radio_Temp_HMG_Astro pow b ap cp fo zpp_max redshift = .ok 0 ↔
      (zpp_max > b.History_box 5 - 0.01
        ∨ ∀ k : Nat, k < 1000 → RateCovered b.History_box
            (zpp_max + k * ((b.History_box 5 - 0.01 - zpp_max) / 999)))) := by
  by_cases hgt : zpp_max > b.History_box 5 - 0.01
  · have h0 := Get_Radio_Temp_HMG_Astro.eq_of_gt pow b ap cp fo zpp_max redshift hgt
    exact ⟨Or.inl h0, fun _ => Or.inl hgt, fun _ => h0⟩
  · have hunf : Get_Radio_Temp_HMG_Astro pow b ap cp fo zpp_max redshift
        = Get_Radio_Temp_HMG_Astro.loop pow b ap 0 0
            ((b.History_box 5 - 0.01 - zpp_max) / 999) 1000 zpp_max 0 := by
      simp only [Get_Radio_Temp_HMG_Astro, if_neg hgt, hACG, hMCG]
      norm_num
    by_cases hall : ∀ k : Nat, k < 1000 → RateCovered b.History_box
        (zpp_max + k * ((b.History_box 5 - 0.01 - zpp_max) / 999))
    · have h0 : Get_Radio_Temp_HMG_Astro pow b ap cp fo zpp_max redshift = .ok 0 := by
        rw [hunf]
        exact Get_Radio_Temp_HMG_Astro.loop_ok_of_zero pow b ap 0 0 _ 1000 zpp_max 0
          (Or.inl ⟨rfl, rfl⟩) hall
      exact ⟨Or.inl h0, fun _ => Or.inr hall, fun _ => h0⟩
    · have he : Get_Radio_Temp_HMG_Astro pow b ap cp fo zpp_max redshift
          = .error .ValueError := by
        rw [hunf]
        apply Get_Radio_Temp_HMG_Astro.loop_error
        push_neg at hall
        obtain ⟨k, hk, hnc⟩ := hall
        exact ⟨k, hk, hnc⟩
      refine ⟨Or.inr he, fun h0 => ?_, fun hor => ?_⟩
      · rw [he] at h0
        exact absurd h0 (by simp)
      · rcases hor with h | h
        · exact absurd h hgt
        · exact absurd h hall

/-- C2, witness : both populations disabled on the three-record archive (rate
redshifts 30, 20, 10) with `zpp_max = 12` : the 1000 sample redshifts lie in
`[12, 29.99]`, all inside the brackets `[10, 20)` and `[20, 30)`, and the
call returns `0`. -/
theorem Get_Radio_Temp_HMG_Astro_both_disabled_witness :
    (⟨false, false⟩ : FlagOptions).USE_RADIO_ACG = false
    ∧ (⟨false, false⟩ : FlagOptions).USE_RADIO_MCG = false
    ∧ Get_Radio_Temp_HMG_Astro powFloor threeRecordBox sampleAstro sampleCosmo
        ⟨false, false⟩ 12 7 = .ok 0 :=
  ⟨rfl, rfl,
    (Get_Radio_Temp_HMG_Astro_both_disabled powFloor threeRecordBox sampleAstro
      sampleCosmo ⟨false, false⟩ 12 7 rfl rfl).2.2 (Or.inr (fun k hk => by
        have hA : cround (threeRecordBox.History_box 0) = 3 := by decide!
        have h5 : threeRecordBox.History_box 5 = 30 := by decide!
        have h10 : threeRecordBox.History_box 10 = 20 := by decide!
        have h15 : threeRecordBox.History_box 15 = 10 := by decide!
        have hk0 : (0 : ℚ) ≤ (k : ℚ) := Nat.cast_nonneg k
        have hk1 : (k : ℚ) ≤ 999 := by
          have : k ≤ 999 := by omega
          exact_mod_cast this
        rw [h5]
        have hlo : (12 : ℚ) ≤ 12 + (k : ℚ) * ((30 - 0.01 - 12) / 999) := by
          have : (0 : ℚ) ≤ (k : ℚ) * ((30 - 0.01 - 12) / 999) :=
            mul_nonneg hk0 (by norm_num)
          linarith
        have hhi : 12 + (k : ℚ) * ((30 - 0.01 - 12) / 999) < 30 := by
          have : (k : ℚ) * ((30 - 0.01 - 12) / 999) ≤ 999 * ((30 - 0.01 - 12) / 999) :=
            mul_le_mul_of_nonneg_right hk1 (by norm_num)
          norm_num at this ⊢
          linarith
        by_cases h20 : 12 + (k : ℚ) * ((30 - 0.01 - 12) / 999) < 20
        · refine ⟨2, by norm_num, by rw [hA]; norm_num, ?_, ?_⟩
          · rw [show (5 * 2 + 5 : Int) = 15 by norm_num, h15]
            linarith
          · rw [show (5 * 2 : Int) = 10 by norm_num, h10]
            exact h20
        · refine ⟨1, le_rfl, by rw [hA]; norm_num, ?_, ?_⟩
          · rw [show (5 * 1 + 5 : Int) = 10 by norm_num, h10]
            exact not_lt.1 h20
          · rw [show (5 * 1 : Int) = 5 by norm_num, h5]
            exact hhi))⟩

/-- C2, counterexample : both populations disabled, the three-record archive
(rate redshifts 30, 20, 10) and `zpp_max = 9`, below the archive: the first
lookup of the loop throws `ValueError`, so `0.0` is not returned. -/
theorem Get_Radio_Temp_HMG_Astro_both_disabled_raises :
    (⟨false, false⟩ : FlagOptions).USE_RADIO_ACG = false
    ∧ (⟨false, false⟩ : FlagOptions).USE_RADIO_MCG = false
    ∧ Get_Radio_Temp_HMG_Astro powFloor threeRecordBox sampleAstro sampleCosmo
        ⟨false, false⟩ 9 7 = .error .ValueError
    ∧ Get_Radio_Temp_HMG_Astro powFloor threeRecordBox sampleAstro sampleCosmo
        ⟨false, false⟩ 9 7 ≠ .ok 0 := by
  refine ⟨rfl, rfl, by decide!, by decide!⟩

/-- C3 : whenever `Get_Radio_Temp_HMG_Astro` returns a value `T`,
`Get_Radio_Temp_HMG` throws `ValueError` if and only if `T < -1.0e-8`, and
otherwise returns `T` unchanged (`Reset_Radio_Temp_HMG` is 0); hence every
value that `Get_Radio_Temp_HMG` returns is `>= -1.0e-8`. -/
theorem Get_Radio_Temp_HMG_raises_iff_negative
    (pow : ℚ → ℚ → ℚ) (b : TsBox) (ap : AstroParams) (cp : CosmoParams)
    (fo : FlagOptions) (zpp_max redshift T : ℚ)
    (hT : Get_Radio_Temp_HMG_Astro pow b ap cp fo zpp_max redshift = .ok T) :
    Reset_Radio_Temp_HMG = 0
    ∧ (Get_Radio_Temp_HMG pow b ap cp fo zpp_max redshift = .error .ValueError
      ↔ T < -1.0e-8)
    ∧ (¬ T < -1.0e-8 → Get_Radio_Temp_HMG pow b ap cp fo zpp_max redshift = .ok T)
    ∧ (∀ v, Get_Radio_Temp_HMG pow b ap cp fo zpp_max redshift = .ok v →
      v ≥ -1.0e-8) := by
  have hR : ¬ (Reset_Radio_Temp_HMG = 1) := by decide
  by_cases hneg : T < -1.0e-8
  · have he : Get_Radio_Temp_HMG pow b ap cp fo zpp_max redshift
        = .error .ValueError := by
      simp only [Get_Radio_Temp_HMG, hT, if_pos hneg]
    refine ⟨rfl, ⟨fun _ => hneg, fun _ => he⟩, fun h => absurd hneg h, fun v hv => ?_⟩
    rw [he] at hv
    exact absurd hv (by simp)
  · have ho : Get_Radio_Temp_HMG pow b ap cp fo zpp_max redshift = .ok T := by
      simp only [Get_Radio_Temp_HMG, hT, if_neg hneg, if_neg hR]
    refine ⟨rfl, ⟨fun h => ?_, fun h => absurd h hneg⟩, fun _ => ho, fun v hv => ?_⟩
    · rw [ho] at h
      exact absurd h (by simp)
    · rw [ho] at hv
      have : T = v := Except.ok.inj hv
      rw [← this]
      exact not_lt.1 hneg

/-- C3, witness : above the archive the integrator returns `0`, which
`Get_Radio_Temp_HMG` returns unchanged. -/
theorem Get_Radio_Temp_HMG_raises_iff_negative_witness :
    Get_Radio_Temp_HMG_Astro powFloor threeRecordBox sampleAstro sampleCosmo
      ⟨true, true⟩ 40 7 = .ok 0
    ∧ Get_Radio_Temp_HMG powFloor threeRecordBox sampleAstro sampleCosmo
      ⟨true, true⟩ 40 7 = .ok 0 :=
  ⟨by decide!,
    (Get_Radio_Temp_HMG_raises_iff_negative powFloor threeRecordBox sampleAstro
      sampleCosmo ⟨true, true⟩ 40 7 0 (by decide!)).2.2.1 (by norm_num)⟩

/-! ## `Refine_T_Radio` -/

/-- The cells of the current field after the loop: cell `i` of `[0, N)` holds
`Conversion_Factor * previous[i]`, every other cell is as before. -/
theorem Refine_T_Radio.loop_apply (N : Nat) (CF : ℚ) (p t : Int → ℚ) (i : Int) :
    Refine_T_Radio.loop N CF p t i = if 0 ≤ i ∧ i < N then CF * p i else t i := by
  induction N with
  | zero =>
    have : ¬ (0 ≤ i ∧ i < ((0 : Nat) : Int)) := by
      rintro ⟨h1, h2⟩
      simp at h2
      omega
    rw [if_neg this]
    rfl
  | succ N ih =>
    have hstep : Refine_T_Radio.loop (N + 1) CF p t
        = Function.update (Refine_T_Radio.loop N CF p t) (N : Int) (CF * p (N : Int)) := by
      simp only [Refine_T_Radio.loop, List.range_succ, List.foldl_append,
        List.foldl_cons, List.foldl_nil]
    rw [hstep]
    by_cases hi : i = (N : Int)
    · subst hi
      rw [Function.update_same, if_pos]
      constructor
      · exact Int.natCast_nonneg N
      · push_cast; omega
    · rw [Function.update_noteq hi, ih]
      by_cases hc : 0 ≤ i ∧ i < (N : Int)
      · rw [if_pos hc, if_pos]
        exact ⟨hc.1, by push_cast; omega⟩
      · rw [if_neg hc, if_neg]
        rintro ⟨h1, h2⟩
        apply hc
        refine ⟨h1, ?_⟩
        push_cast at h2
        omega

/-- C6 : `Refine_T_Radio` throws `ValueError` if and only if `USE_RADIO_MCG`
is enabled and `redshift < Radio_Zmin` (otherwise it returns normally); when
it throws, the current and the previous box are exactly as before the call:
no cell of `Trad_box` has been written. -/
theorem Refine_T_Radio_raises_iff (pow : ℚ → ℚ → ℚ) (HII_TOT_NUM_PIXELS : Nat)
    (previous_spin_temp this_spin_temp : TsBox) (prev_redshift redshift : ℚ)
    (ap : AstroParams) (fo : FlagOptions) :
    ((Refine_T_Radio pow HII_TOT_NUM_PIXELS previous_spin_temp this_spin_temp
        prev_redshift redshift ap fo).outcome = .error .ValueError
      ↔ (fo.USE_RADIO_MCG = true ∧ redshift < ap.Radio_Zmin))
    ∧ (¬ (fo.USE_RADIO_MCG = true ∧ redshift < ap.Radio_Zmin) →
      (Refine_T_Radio pow HII_TOT_NUM_PIXELS previous_spin_temp this_spin_temp
        prev_redshift redshift ap fo).outcome = .ok ())
    ∧ ((Refine_T_Radio pow HII_TOT_NUM_PIXELS previous_spin_temp this_spin_temp
        prev_redshift redshift ap fo).outcome = .error .ValueError →
      (Refine_T_Radio pow HII_TOT_NUM_PIXELS previous_spin_temp this_spin_temp
          prev_redshift redshift ap fo).this_spin_temp = this_spin_temp
      ∧ (Refine_T_Radio pow HII_TOT_NUM_PIXELS previous_spin_temp this_spin_temp
          prev_redshift redshift ap fo).previous_spin_temp = previous_spin_temp) := by
  by_cases hc : fo.USE_RADIO_MCG = true ∧ redshift < ap.Radio_Zmin
  · have he : Refine_T_Radio pow HII_TOT_NUM_PIXELS previous_spin_temp
        this_spin_temp prev_redshift redshift ap fo
        = ⟨.error .ValueError, previous_spin_temp, this_spin_temp⟩ := by
      simp only [Refine_T_Radio, if_pos hc]
    rw [he]
    exact ⟨⟨fun _ => hc, fun _ => rfl⟩, fun h => absurd hc h, fun _ => ⟨rfl, rfl⟩⟩
  · have hok : (Refine_T_Radio pow HII_TOT_NUM_PIXELS previous_spin_temp
        this_spin_temp prev_redshift redshift ap fo).outcome = .ok () := by
      simp only [Refine_T_Radio, if_neg hc]
      split_ifs <;> rfl
    refine ⟨⟨fun h => ?_, fun h => absurd h hc⟩, fun _ => hok, fun h => ?_⟩
    · rw [hok] at h
      exact absurd h (by simp)
    · rw [hok] at h
      exact absurd h (by simp)

/-- C6, witness : minor sources enabled and `redshift = 3` below
`Radio_Zmin = 5` : the call throws and the current box is untouched. -/
theorem Refine_T_Radio_raises_iff_witness :
    (Refine_T_Radio powFloor 3 threeRecordBox oneRecordBox 4 3 sampleAstro
        ⟨true, true⟩).outcome = .error .ValueError
    ∧ (Refine_T_Radio powFloor 3 threeRecordBox oneRecordBox 4 3 sampleAstro
        ⟨true, true⟩).this_spin_temp = oneRecordBox :=
  ⟨(Refine_T_Radio_raises_iff powFloor 3 threeRecordBox oneRecordBox 4 3 sampleAstro
      ⟨true, true⟩).1.2 ⟨rfl, by decide!⟩,
    ((Refine_T_Radio_raises_iff powFloor 3 threeRecordBox oneRecordBox 4 3 sampleAstro
      ⟨true, true⟩).2.2
      ((Refine_T_Radio_raises_iff powFloor 3 threeRecordBox oneRecordBox 4 3 sampleAstro
        ⟨true, true⟩).1.2 ⟨rfl, by decide!⟩)).1⟩

/-- C8 : when `Refine_T_Radio` does not throw: if `redshift < Radio_Zmin`,
every cell `i` of `[0, HII_TOT_NUM_PIXELS)` of the current field holds
`pow((1 + redshift) / (1 + prev_redshift), 3 + aR) * previous.Trad_box[i]`
(and nothing else of the current box changes); if `redshift >= Radio_Zmin`
(equality included) the current box is left exactly as it was; in both cases
the previous box is unchanged. -/
theorem Refine_T_Radio_effect (pow : ℚ → ℚ → ℚ) (HII_TOT_NUM_PIXELS : Nat)
    (previous_spin_temp this_spin_temp : TsBox) (prev_redshift redshift : ℚ)
    (ap : AstroParams) (fo : FlagOptions)
    (hok : (Refine_T_Radio pow HII_TOT_NUM_PIXELS previous_spin_temp this_spin_temp
        prev_redshift redshift ap fo).outcome = .ok ()) :
    (redshift < ap.Radio_Zmin →
      (∀ i : Int, 0 ≤ i → i < HII_TOT_NUM_PIXELS →
        (Refine_T_Radio pow HII_TOT_NUM_PIXELS previous_spin_temp this_spin_temp
          prev_redshift redshift ap fo).this_spin_temp.Trad_box i
        = pow ((1 + redshift) / (1 + prev_redshift)) (3 + ap.aR)
          * previous_spin_temp.Trad_box i)
      ∧ (∀ i : Int, ¬ (0 ≤ i ∧ i < HII_TOT_NUM_PIXELS) →
        (Refine_T_Radio pow HII_TOT_NUM_PIXELS previous_spin_temp this_spin_temp
          prev_redshift redshift ap fo).this_spin_temp.Trad_box i
        = this_spin_temp.Trad_box i)
      ∧ (Refine_T_Radio pow HII_TOT_NUM_PIXELS previous_spin_temp this_spin_temp
          prev_redshift redshift ap fo).this_spin_temp.History_box
        = this_spin_temp.History_box)
    ∧ (redshift ≥ ap.Radio_Zmin →
      (Refine_T_Radio pow HII_TOT_NUM_PIXELS previous_spin_temp this_spin_temp
        prev_redshift redshift ap fo).this_spin_temp = this_spin_temp)
    ∧ (Refine_T_Radio pow HII_TOT_NUM_PIXELS previous_spin_temp this_spin_temp
        prev_redshift redshift ap fo).previous_spin_temp = previous_spin_temp := by
  have hc : ¬ (fo.USE_RADIO_MCG = true ∧ redshift < ap.Radio_Zmin) := by
    intro hc
    simp [Refine_T_Radio, if_pos hc] at hok
  refine ⟨fun hlt => ?_, fun hge => ?_, ?_⟩
  · have he : Refine_T_Radio pow HII_TOT_NUM_PIXELS previous_spin_temp
        this_spin_temp prev_redshift redshift ap fo
        = ⟨.ok (), previous_spin_temp,
          { this_spin_temp with
            Trad_box := Refine_T_Radio.loop HII_TOT_NUM_PIXELS
              (pow ((1 + redshift) / (1 + prev_redshift)) (3 + ap.aR))
              previous_spin_temp.Trad_box this_spin_temp.Trad_box }⟩ := by
      simp only [Refine_T_Radio, if_neg hc, if_pos hlt]
    rw [he]
    refine ⟨fun i h0 hN => ?_, fun i hi => ?_, rfl⟩
    · show Refine_T_Radio.loop _ _ _ _ i = _
      rw [Refine_T_Radio.loop_apply, if_pos ⟨h0, hN⟩]
    · show Refine_T_Radio.loop _ _ _ _ i = _
      rw [Refine_T_Radio.loop_apply, if_neg hi]
  · simp only [Refine_T_Radio, if_neg hc, if_neg (not_lt.2 hge)]
  · simp only [Refine_T_Radio, if_neg hc]
    split_ifs <;> rfl

/-- C7 : for every previous field, every `aR` and every `redshift > -1`, a
call of `Refine_T_Radio` with `prev_redshift = redshift` that is not a
configuration error returns normally with conversion factor exactly 1
(`pow(1, y) = 1` for every `y`, as C `pow` guarantees): below the cutoff every
cell of `[0, HII_TOT_NUM_PIXELS)` of the current field equals the cell of the
previous field, and at or above the cutoff the current box is not written. -/
theorem Refine_T_Radio_same_redshift (pow : ℚ → ℚ → ℚ) (HII_TOT_NUM_PIXELS : Nat)
    (previous_spin_temp this_spin_temp : TsBox) (redshift : ℚ)
    (ap : AstroParams) (fo : FlagOptions)
    (hpow : ∀ y : ℚ, pow 1 y = 1) (hz : redshift > -1)
    (hcfg : ¬ (fo.USE_RADIO_MCG = true ∧ redshift < ap.Radio_Zmin)) :
    (Refine_T_Radio pow HII_TOT_NUM_PIXELS previous_spin_temp this_spin_temp
        redshift redshift ap fo).outcome = .ok ()
    ∧ pow ((1 + redshift) / (1 + redshift)) (3 + ap.aR) = 1
    ∧ (redshift < ap.Radio_Zmin →
      ∀ i : Int, 0 ≤ i → i < HII_TOT_NUM_PIXELS →
        (Refine_T_Radio pow HII_TOT_NUM_PIXELS previous_spin_temp this_spin_temp
          redshift redshift ap fo).this_spin_temp.Trad_box i
        = previous_spin_temp.Trad_box i)
    ∧ (redshift ≥ ap.Radio_Zmin →
      (Refine_T_Radio pow HII_TOT_NUM_PIXELS previous_spin_temp this_spin_temp
        redshift redshift ap fo).this_spin_temp = this_spin_temp)
    ∧ (Refine_T_Radio pow HII_TOT_NUM_PIXELS previous_spin_temp this_spin_temp
        redshift redshift ap fo).previous_spin_temp = previous_spin_temp := by
  have hne : (1 + redshift) ≠ 0 := by
    intro h
    have : redshift = -1 := by linarith
    rw [this] at hz
    exact lt_irrefl _ hz
  have hCF : pow ((1 + redshift) / (1 + redshift)) (3 + ap.aR) = 1 := by
    rw [div_self hne, hpow]
  refine ⟨?_, hCF, fun hlt i h0 hN => ?_, fun hge => ?_, ?_⟩
  · simp only [Refine_T_Radio, if_neg hcfg]
    split_ifs <;> rfl
  · have he : Refine_T_Radio pow HII_TOT_NUM_PIXELS previous_spin_temp
        this_spin_temp redshift redshift ap fo
        = ⟨.ok (), previous_spin_temp,
          { this_spin_temp with
            Trad_box := Refine_T_Radio.loop HII_TOT_NUM_PIXELS
              (pow ((1 + redshift) / (1 + redshift)) (3 + ap.aR))
              previous_spin_temp.Trad_box this_spin_temp.Trad_box }⟩ := by
      simp only [Refine_T_Radio, if_neg hcfg, if_pos hlt]
    rw [he]
    show Refine_T_Radio.loop _ _ _ _ i = _
    rw [Refine_T_Radio.loop_apply, if_pos ⟨h0, hN⟩, hCF, one_mul]
  · simp only [Refine_T_Radio, if_neg hcfg, if_neg (not_lt.2 hge)]
  · simp only [Refine_T_Radio, if_neg hcfg]
    split_ifs <;> rfl

/-- C7, witness : `powFloor`, three cells, `redshift = prev_redshift = 3`
below `Radio_Zmin = 5`, minor sources disabled. -/
theorem Refine_T_Radio_same_redshift_witness :
    (∀ y : ℚ, powFloor 1 y = 1) ∧ (3 : ℚ) > -1
    ∧ (Refine_T_Radio powFloor 3 threeRecordBox oneRecordBox 3 3 sampleAstro
        ⟨true, false⟩).outcome = .ok ()
    ∧ (Refine_T_Radio powFloor 3 threeRecordBox oneRecordBox 3 3 sampleAstro
        ⟨true, false⟩).this_spin_temp.Trad_box 2 = threeRecordBox.Trad_box 2 :=
  ⟨fun y => by simp [powFloor], by norm_num,
    (Refine_T_Radio_same_redshift powFloor 3 threeRecordBox oneRecordBox 3 sampleAstro
      ⟨true, false⟩ (fun y => by simp [powFloor]) (by norm_num) (by simp)).1,
    (Refine_T_Radio_same_redshift powFloor 3 threeRecordBox oneRecordBox 3 sampleAstro
      ⟨true, false⟩ (fun y => by simp [powFloor]) (by norm_num) (by simp)).2.2.1
      (by decide!) 2 (by norm_num) (by norm_num)⟩

/-- C8, witness : three cells, `prev_redshift = 1`, `redshift = 3` below
`Radio_Zmin = 5`, minor sources disabled : cell 2 becomes `2 ^ 3 * 7 = 56`. -/
theorem Refine_T_Radio_effect_witness :
    (Refine_T_Radio powFloor 3 threeRecordBox oneRecordBox 1 3 sampleAstro
        ⟨true, false⟩).outcome = .ok ()
    ∧ (Refine_T_Radio powFloor 3 threeRecordBox oneRecordBox 1 3 sampleAstro
        ⟨true, false⟩).this_spin_temp.Trad_box 2
      = powFloor ((1 + 3) / (1 + 1)) (3 + sampleAstro.aR) * threeRecordBox.Trad_box 2
    ∧ powFloor ((1 + 3) / (1 + 1)) (3 + sampleAstro.aR) * threeRecordBox.Trad_box 2
      = 56 :=
  ⟨by decide!,
    ((Refine_T_Radio_effect powFloor 3 threeRecordBox oneRecordBox 1 3 sampleAstro
      ⟨true, false⟩ (by decide!)).1 (by decide!)).1 2 (by norm_num) (by norm_num),
    by decide!⟩

/-! ## `Find_Index` -/

/-- The midpoint `id2 = (int)round((double)(id1 + id3) / 2.0)` of a
non-negative sum `s = id1 + id3` satisfies `s <= 2 * id2 <= s + 1`. -/
theorem cround_half_bounds (s : Int) (hs : 0 ≤ s) :
    s ≤ 2 * cround ((s : ℚ) / 2.0) ∧ 2 * cround ((s : ℚ) / 2.0) ≤ s + 1 := by
  have hq : (0 : ℚ) ≤ (s : ℚ) / 2.0 := by
    have : (0 : ℚ) ≤ (s : ℚ) := by exact_mod_cast hs
    norm_num
    linarith
  have h1 := Int.floor_le ((s : ℚ) / 2.0 + 1 / 2)
  have h2 := Int.lt_floor_add_one ((s : ℚ) / 2.0 + 1 / 2)
  simp only [cround, if_pos hq]
  set m : Int := Int.floor ((s : ℚ) / 2.0 + 1 / 2) with hm
  norm_num at h1 h2
  constructor
  · have : (s : ℚ) < 2 * (m : ℚ) + 1 := by linarith
    have : s < 2 * m + 1 := by exact_mod_cast this
    omega
  · have : 2 * (m : ℚ) ≤ (s : ℚ) + 1 := by linarith
    exact_mod_cast this

/-- Inside the 32-bit range the `int` sum is the exact sum. -/
theorem wrap32_eq (n : Int) (h1 : -2147483648 ≤ n) (h2 : n < 2147483648) :
    wrap32 n = n := by
  unfold wrap32
  omega

/-- The search loop on the ascending branch (`reversed = 0`): started with
`0 <= id1 < id3 <= 2^30` (so that no sum `id1 + id3` leaves 32 bits),
`x_axis[id1] <= x < x_axis[id3]` and a gap `id3 - id1` of at
most `2 ^ k` with `count + k <= 99`, it returns an index `i` of
`[id1, id3)` with `x_axis[i] <= x < x_axis[i+1]`.  No order on the axis is
needed. -/
theorem Find_Index.loop_ascending (x_axis : Int → ℚ) (x : ℚ) (k : Nat) :
    ∀ (fuel : Nat) (id1 id3 count : Int), 0 ≤ id1 → id1 < id3 → id3 ≤ 1073741824 →
      id3 - id1 ≤ 2 ^ k → 0 ≤ count → count + k ≤ 99 → k < fuel →
      x_axis id1 ≤ x → x < x_axis id3 →
      ∃ i, Find_Index.loop x_axis x false fuel id1 id3 count = .ok i
        ∧ id1 ≤ i ∧ i < id3 ∧ x_axis i ≤ x ∧ x < x_axis (i + 1) := by
  induction k with
  | zero =>
    intro fuel id1 id3 count h0 hlt hbd hgap hc0 hck hfuel hx1 hx3
    obtain ⟨fuel, rfl⟩ : ∃ f, fuel = f + 1 := ⟨fuel - 1, by omega⟩
    have he : id3 = id1 + 1 := by
      simp at hgap
      omega
    have hcnt : ¬ (count + 1 > 100) := by omega
    refine ⟨id1, ?_, le_rfl, hlt, hx1, ?_⟩
    · simp only [Find_Index.loop, if_neg hcnt, he, decide_True, if_true]
    · rw [← he]; exact hx3
  | succ k ih =>
    intro fuel id1 id3 count h0 hlt hbd hgap hc0 hck hfuel hx1 hx3
    obtain ⟨fuel, rfl⟩ : ∃ f, fuel = f + 1 := ⟨fuel - 1, by omega⟩
    have hcnt : ¬ (count + 1 > 100) := by omega
    by_cases he : id3 = id1 + 1
    · refine ⟨id1, ?_, le_rfl, hlt, hx1, ?_⟩
      · simp only [Find_Index.loop, if_neg hcnt, he, decide_True, if_true]
      · rw [← he]; exact hx3
    · obtain ⟨hb1, hb2⟩ := cround_half_bounds (id1 + id3) (by omega)
      have hpow : (2 : Int) ^ (k + 1) = 2 * 2 ^ k := by ring
      rw [hpow] at hgap
      have hstop : decide (id3 = id1 + 1) = false := decide_eq_false he
      have hw : wrap32 (id1 + id3) = id1 + id3 := wrap32_eq _ (by omega) (by omega)
      by_cases hx2 : x < x_axis (cround (((id1 + id3 : Int) : ℚ) / 2.0))
      · obtain ⟨i, hi, hi1, hi3, hxi, hxi'⟩ :=
          ih fuel id1 (cround (((id1 + id3 : Int) : ℚ) / 2.0)) (count + 1) h0
            (by omega) (by omega) (by omega) (by omega) (by omega) (by omega) hx1 hx2
        refine ⟨i, ?_, hi1, by omega, hxi, hxi'⟩
        rw [← hi]
        simp only [Find_Index.loop, hw, if_neg hcnt, hstop, Bool.not_false,
          Bool.false_eq_true, if_true, if_false, if_pos hx2, ↓reduceIte]
      · obtain ⟨i, hi, hi1, hi3, hxi, hxi'⟩ :=
          ih fuel (cround (((id1 + id3 : Int) : ℚ) / 2.0)) id3 (count + 1)
            (by omega) (by omega) (by omega) (by omega) (by omega) (by omega) (by omega)
            (not_lt.1 hx2) hx3
        refine ⟨i, ?_, by omega, hi3, hxi, hxi'⟩
        rw [← hi]
        simp only [Find_Index.loop, hw, if_neg hcnt, hstop, Bool.not_false,
          Bool.false_eq_true, if_true, if_false, if_neg hx2, ↓reduceIte]

/-- The search loop on the descending branch (`reversed = 1`): started with
`0 <= id1 < id3 <= 2^30` (so that no sum `id1 + id3` leaves 32 bits),
`x_axis[id1] > x >= x_axis[id3]` and a gap `id3 - id1` of at
most `2 ^ k` with `count + k <= 99`, it returns an index `i` of
`[id1, id3)` with `x_axis[i] > x >= x_axis[i+1]`. -/
theorem Find_Index.loop_descending (x_axis : Int → ℚ) (x : ℚ) (k : Nat) :
    ∀ (fuel : Nat) (id1 id3 count : Int), 0 ≤ id1 → id1 < id3 → id3 ≤ 1073741824 →
      id3 - id1 ≤ 2 ^ k → 0 ≤ count → count + k ≤ 99 → k < fuel →
      x < x_axis id1 → x_axis id3 ≤ x →
      ∃ i, Find_Index.loop x_axis x true fuel id1 id3 count = .ok i
        ∧ id1 ≤ i ∧ i < id3 ∧ x < x_axis i ∧ x_axis (i + 1) ≤ x := by
  induction k with
  | zero =>
    intro fuel id1 id3 count h0 hlt hbd hgap hc0 hck hfuel hx1 hx3
    obtain ⟨fuel, rfl⟩ : ∃ f, fuel = f + 1 := ⟨fuel - 1, by omega⟩
    have he : id3 = id1 + 1 := by
      simp at hgap
      omega
    have hcnt : ¬ (count + 1 > 100) := by omega
    refine ⟨id1, ?_, le_rfl, hlt, hx1, ?_⟩
    · simp only [Find_Index.loop, if_neg hcnt, he, decide_True, if_true]
    · rw [← he]; exact hx3
  | succ k ih =>
    intro fuel id1 id3 count h0 hlt hbd hgap hc0 hck hfuel hx1 hx3
    obtain ⟨fuel, rfl⟩ : ∃ f, fuel = f + 1 := ⟨fuel - 1, by omega⟩
    have hcnt : ¬ (count + 1 > 100) := by omega
    by_cases he : id3 = id1 + 1
    · refine ⟨id1, ?_, le_rfl, hlt, hx1, ?_⟩
      · simp only [Find_Index.loop, if_neg hcnt, he, decide_True, if_true]
      · rw [← he]; exact hx3
    · obtain ⟨hb1, hb2⟩ := cround_half_bounds (id1 + id3) (by omega)
      have hpow : (2 : Int) ^ (k + 1) = 2 * 2 ^ k := by ring
      rw [hpow] at hgap
      have hstop : decide (id3 = id1 + 1) = false := decide_eq_false he
      have hw : wrap32 (id1 + id3) = id1 + id3 := wrap32_eq _ (by omega) (by omega)
      by_cases hx2 : x < x_axis (cround (((id1 + id3 : Int) : ℚ) / 2.0))
      · obtain ⟨i, hi, hi1, hi3, hxi, hxi'⟩ :=
          ih fuel (cround (((id1 + id3 : Int) : ℚ) / 2.0)) id3 (count + 1)
            (by omega) (by omega) (by omega) (by omega) (by omega) (by omega) (by omega)
            hx2 hx3
        refine ⟨i, ?_, by omega, hi3, hxi, hxi'⟩
        rw [← hi]
        simp only [Find_Index.loop, hw, if_neg hcnt, hstop, Bool.not_true,
          Bool.false_eq_true, if_true, if_false, if_pos hx2, ↓reduceIte]
      · obtain ⟨i, hi, hi1, hi3, hxi, hxi'⟩ :=
          ih fuel id1 (cround (((id1 + id3 : Int) : ℚ) / 2.0)) (count + 1) h0
            (by omega) (by omega) (by omega) (by omega) (by omega) (by omega) hx1
            (not_lt.1 hx2)
        refine ⟨i, ?_, hi1, by omega, hxi, hxi'⟩
        rw [← hi]
        simp only [Find_Index.loop, hw, if_neg hcnt, hstop, Bool.not_true,
          Bool.false_eq_true, if_true, if_false, if_neg hx2, ↓reduceIte]

/-- On an in-range ascending query the range tests of lines 304-330 leave
`Stop = 0`, and the call is the search loop started at `(0, nx - 1)`. -/
theorem Find_Index.eq_loop_ascending (x_axis : Int → ℚ) (x : ℚ) (nx : Int)
    (h0 : x_axis 0 ≤ x) (h1 : x ≤ x_axis (nx - 1)) (h01 : x_axis 0 < x_axis (nx - 1)) :
    Find_Index x_axis x nx = Find_Index.loop x_axis x false 101 0 (nx - 1) 0 := by
  simp only [Find_Index, if_pos h01, Bool.not_false, if_true, if_neg (not_lt.2 h0),
    gt_iff_lt, if_neg (not_lt.2 h1), Bool.false_eq_true, if_false, ↓reduceIte]

/-- On an in-range descending query the range tests of lines 304-330 leave
`Stop = 0`, and the call is the search loop started at `(0, nx - 1)`. -/
theorem Find_Index.eq_loop_descending (x_axis : Int → ℚ) (x : ℚ) (nx : Int)
    (h0 : x ≤ x_axis 0) (h1 : x_axis (nx - 1) ≤ x) (h01 : ¬ x_axis 0 < x_axis (nx - 1)) :
    Find_Index x_axis x nx = Find_Index.loop x_axis x true 101 0 (nx - 1) 0 := by
  simp only [Find_Index, if_neg h01, Bool.not_true, if_true, if_neg (not_lt.2 h0),
    gt_iff_lt, if_neg (not_lt.2 h1), Bool.false_eq_true, if_false, ↓reduceIte]

/-- The ascending bracket while the sum `id1 + id3` stays inside 32 bits: for
every strictly increasing axis of length `2 <= nx <= 2^30 + 1` and every query
`x` with `x_axis[0] < x < x_axis[nx-1]`, `Find_Index` returns an index `i`
with `0 <= i <= nx - 2` and `x_axis[i] <= x < x_axis[i+1]`. -/
theorem Find_Index_ascending_bracket (x_axis : Int → ℚ) (x : ℚ) (nx : Int)
    (hn : 2 ≤ nx) (hint : nx ≤ 1073741825)
    (hmono : ∀ i j : Int, 0 ≤ i → i < j → j ≤ nx - 1 → x_axis i < x_axis j)
    (h0 : x_axis 0 < x) (h1 : x < x_axis (nx - 1)) :
    ∃ i, Find_Index x_axis x nx = .ok i ∧ 0 ≤ i ∧ i ≤ nx - 2
      ∧ x_axis i ≤ x ∧ x < x_axis (i + 1) := by
  have h01 : x_axis 0 < x_axis (nx - 1) := hmono 0 (nx - 1) le_rfl (by omega) le_rfl
  rw [Find_Index.eq_loop_ascending x_axis x nx (le_of_lt h0) (le_of_lt h1) h01]
  obtain ⟨i, hi, hi0, hi3, hx, hx'⟩ :=
    Find_Index.loop_ascending x_axis x 31 101 0 (nx - 1) 0 le_rfl (by omega)
      (by omega) (by norm_num; omega) le_rfl (by norm_num) (by norm_num) (le_of_lt h0) h1
  exact ⟨i, hi, hi0, by omega, hx, hx'⟩

/-- The ascending bracket on the axis `{0, 1, 2, 3}` at `x = 3/2` : the index
is 1. -/
theorem Find_Index_ascending_bracket_witness :
    ∃ i, Find_Index ascendingAxis (3 / 2) 4 = .ok i ∧ 0 ≤ i ∧ i ≤ 4 - 2
      ∧ ascendingAxis i ≤ 3 / 2 ∧ (3 / 2 : ℚ) < ascendingAxis (i + 1) :=
  Find_Index_ascending_bracket ascendingAxis (3 / 2) 4 (by norm_num) (by norm_num)
    (fun i j hi hij hj => by
      have hi' : i = 0 ∨ i = 1 ∨ i = 2 := by omega
      have hj' : j = 1 ∨ j = 2 ∨ j = 3 := by omega
      rcases hi' with rfl | rfl | rfl <;> rcases hj' with rfl | rfl | rfl <;>
        first | omega | decide!)
    (by decide!) (by decide!)

/-- C10 (amended) : for every strictly decreasing axis of length
`2 <= nx <= 2^30 + 1` (the lengths for which the 32-bit sum `id1 + id3` of
line 336 cannot overflow) and every query `x` with
`x_axis[0] > x > x_axis[nx-1]`, `Find_Index` returns an index `i` with
`0 <= i <= nx - 2` and `x_axis[i] > x >= x_axis[i+1]` : the bracket is closed
at its lower, right-hand end. -/
theorem Find_Index_descending_bracket (x_axis : Int → ℚ) (x : ℚ) (nx : Int)
    (hn : 2 ≤ nx) (hint : nx ≤ 1073741825)
    (hmono : ∀ i j : Int, 0 ≤ i → i < j → j ≤ nx - 1 → x_axis j < x_axis i)
    (h0 : x_axis 0 > x) (h1 : x > x_axis (nx - 1)) :
    ∃ i, Find_Index x_axis x nx = .ok i ∧ 0 ≤ i ∧ i ≤ nx - 2
      ∧ x_axis i > x ∧ x ≥ x_axis (i + 1) := by
  have h01 : ¬ x_axis 0 < x_axis (nx - 1) :=
    not_lt.2 (le_of_lt (hmono 0 (nx - 1) le_rfl (by omega) le_rfl))
  rw [Find_Index.eq_loop_descending x_axis x nx (le_of_lt h0) (le_of_lt h1) h01]
  obtain ⟨i, hi, hi0, hi3, hx, hx'⟩ :=
    Find_Index.loop_descending x_axis x 31 101 0 (nx - 1) 0 le_rfl (by omega)
      (by omega) (by norm_num; omega) le_rfl (by norm_num) (by norm_num) h0 (le_of_lt h1)
  exact ⟨i, hi, hi0, by omega, hx, hx'⟩

/-- C10, witness : the axis `{2, 1, 0}` and `x = 3/2` : the index is 0. -/
theorem Find_Index_descending_bracket_witness :
    ∃ i, Find_Index descendingAxis (3 / 2) 3 = .ok i ∧ 0 ≤ i ∧ i ≤ 3 - 2
      ∧ descendingAxis i > 3 / 2 ∧ (3 / 2 : ℚ) ≥ descendingAxis (i + 1) :=
  Find_Index_descending_bracket descendingAxis (3 / 2) 3 (by norm_num) (by norm_num)
    (fun i j hi hij hj => by
      have hi' : i = 0 ∨ i = 1 := by omega
      have hj' : j = 1 ∨ j = 2 := by omega
      rcases hi' with rfl | rfl <;> rcases hj' with rfl | rfl <;>
        first | omega | decide!)
    (by decide!) (by decide!)

/-- C10, counterexample : the strictly decreasing axis `{2, 1, 0}` and the
query `x = 1`, the interior tabulated element: `Find_Index` returns 0, and
`x > x_axis[0 + 1]` fails (`x_axis[1] = 1`), so no index it returns has
`x_axis[i] >= x > x_axis[i+1]`. -/
theorem Find_Index_descending_interior_element :
    (∀ i j : Int, 0 ≤ i → i < j → j ≤ 3 - 1 → descendingAxis j < descendingAxis i)
    ∧ descendingAxis 0 > 1 ∧ (1 : ℚ) > descendingAxis (3 - 1)
    ∧ Find_Index descendingAxis 1 3 = .ok 0
    ∧ ¬ ((1 : ℚ) > descendingAxis (0 + 1))
    ∧ ¬ ∃ i, Find_Index descendingAxis 1 3 = .ok i ∧ 0 ≤ i ∧ i ≤ 3 - 2
        ∧ descendingAxis i ≥ 1 ∧ (1 : ℚ) > descendingAxis (i + 1) := by
  have hres : Find_Index descendingAxis 1 3 = .ok 0 := by decide!
  refine ⟨fun i j hi hij hj => ?_, by decide!, by decide!, hres, by decide!, ?_⟩
  · have hi' : i = 0 ∨ i = 1 := by omega
    have hj' : j = 1 ∨ j = 2 := by omega
    rcases hi' with rfl | rfl <;> rcases hj' with rfl | rfl <;>
      first | omega | decide!
  · rintro ⟨i, hi, _, _, _, hgt⟩
    rw [hres] at hi
    have : (0 : Int) = i := Except.ok.inj hi
    subst this
    exact absurd hgt (by decide!)

/-! ## Sample evaluations of `History_box_Interp` -/

/-- C4, witness : the three-record archive has strictly decreasing rate
redshifts 30, 20, 10; a rate query at `z = 5`, below them, throws, and so does
a query with the kind selector 4. -/
theorem History_box_Interp_raises_outside_rate_coverage_witness :
    History_box_Interp threeRecordBox 5 1 = .error .ValueError
    ∧ History_box_Interp threeRecordBox 25 4 = .error .ValueError :=
  ⟨History_box_Interp_raises_outside_rate_coverage.2.2 threeRecordBox 5 1 (Or.inl rfl)
      (fun i j hi hij hj => by
        have hA : cround (threeRecordBox.History_box 0) = 3 := by decide!
        rw [hA] at hj
        have hi' : i = 1 ∨ i = 2 := by omega
        have hj' : j = 2 ∨ j = 3 := by omega
        rcases hi' with rfl | rfl <;> rcases hj' with rfl | rfl <;>
          first | omega | decide!)
      (Or.inl (by decide!)),
    History_box_Interp_raises_outside_rate_coverage.1 threeRecordBox 25 4
      (Or.inr (by norm_num))⟩

/-- C5, witness : the three-record archive has temperature redshifts 31, 21,
11; a temperature query at `z = 50`, above them, returns `-100`, and so does
any temperature query on the one-record archive. -/
theorem History_box_Interp_temperature_sentinel_witness :
    History_box_Interp threeRecordBox 50 3 = .ok (-100)
    ∧ History_box_Interp oneRecordBox 10 3 = .ok (-100) :=
  ⟨History_box_Interp_temperature_sentinel.2.1 threeRecordBox 50
      (fun i j hi hij hj => by
        have hA : cround (threeRecordBox.History_box 0) = 3 := by decide!
        rw [hA] at hj
        have hi' : i = 0 ∨ i = 1 := by omega
        have hj' : j = 1 ∨ j = 2 := by omega
        rcases hi' with rfl | rfl <;> rcases hj' with rfl | rfl <;>
          first | omega | decide!)
      (Or.inr (by decide!)),
    History_box_Interp_temperature_sentinel.2.2 oneRecordBox 10 (by decide!)⟩

/-! ## `Find_Index` : every axis, every query -/


/-- The search loop with an invariant: `P` is kept by the lower index `id1`,
`Q` by the upper index `id3`, and each comparison of `x` with `x_axis[id2]`
establishes the one that `id2` then has to satisfy.  Started with
`0 <= id1 < id3 <= 2^30` (so that no sum `id1 + id3` leaves 32 bits), a gap
`id3 - id1` of at most `2 ^ k` and `count + k <= 99`, the loop returns within
`k + 1` iterations an index `i` of `[id1, id3)` with `P i` and `Q (i + 1)`.
No order on the axis is needed. -/
theorem Find_Index.loop_invariant (x_axis : Int → ℚ) (x : ℚ) (reversed : Bool)
    (P Q : Int → Prop)
    (hlt : ∀ m : Int, x < x_axis m → if reversed = true then P m else Q m)
    (hge : ∀ m : Int, ¬ x < x_axis m → if reversed = true then Q m else P m)
    (k : Nat) :
    ∀ (fuel : Nat) (id1 id3 count : Int), 0 ≤ id1 → id1 < id3 → id3 ≤ 1073741824 →
      id3 - id1 ≤ 2 ^ k → 0 ≤ count → count + k ≤ 99 → k < fuel →
      P id1 → Q id3 →
      ∃ i, Find_Index.loop x_axis x reversed fuel id1 id3 count = .ok i
        ∧ id1 ≤ i ∧ i < id3 ∧ P i ∧ Q (i + 1) := by
  induction k with
  | zero =>
    intro fuel id1 id3 count h0 hlt' hbd hgap hc0 hck hfuel hP hQ
    obtain ⟨fuel, rfl⟩ : ∃ f, fuel = f + 1 := ⟨fuel - 1, by omega⟩
    have he : id3 = id1 + 1 := by
      simp at hgap
      omega
    have hcnt : ¬ (count + 1 > 100) := by omega
    refine ⟨id1, ?_, le_rfl, hlt', hP, ?_⟩
    · simp only [Find_Index.loop, if_neg hcnt, he, decide_True, if_true]
    · rw [← he]; exact hQ
  | succ k ih =>
    intro fuel id1 id3 count h0 hlt' hbd hgap hc0 hck hfuel hP hQ
    obtain ⟨fuel, rfl⟩ : ∃ f, fuel = f + 1 := ⟨fuel - 1, by omega⟩
    have hcnt : ¬ (count + 1 > 100) := by omega
    by_cases he : id3 = id1 + 1
    · refine ⟨id1, ?_, le_rfl, hlt', hP, ?_⟩
      · simp only [Find_Index.loop, if_neg hcnt, he, decide_True, if_true]
      · rw [← he]; exact hQ
    · obtain ⟨hb1, hb2⟩ := cround_half_bounds (id1 + id3) (by omega)
      have hpow : (2 : Int) ^ (k + 1) = 2 * 2 ^ k := by ring
      rw [hpow] at hgap
      have hstop : decide (id3 = id1 + 1) = false := decide_eq_false he
      have hw : wrap32 (id1 + id3) = id1 + id3 := wrap32_eq _ (by omega) (by omega)
      have hlo := ih fuel id1 (cround (((id1 + id3 : Int) : ℚ) / 2.0)) (count + 1) h0
        (by omega) (by omega) (by omega) (by omega) (by omega) (by omega) hP
      have hhi := ih fuel (cround (((id1 + id3 : Int) : ℚ) / 2.0)) id3 (count + 1)
        (by omega) (by omega) (by omega) (by omega) (by omega) (by omega) (by omega)
      by_cases hx2 : x < x_axis (cround (((id1 + id3 : Int) : ℚ) / 2.0))
      · have hm := hlt _ hx2
        cases reversed with
        | false =>
          obtain ⟨i, hi, hi1, hi3, hPi, hQi⟩ := hlo (by simpa using hm)
          refine ⟨i, ?_, hi1, by omega, hPi, hQi⟩
          rw [← hi]
          simp only [Find_Index.loop, hw, if_neg hcnt, hstop, Bool.not_false,
            Bool.false_eq_true, if_true, if_false, if_pos hx2, ↓reduceIte]
        | true =>
          obtain ⟨i, hi, hi1, hi3, hPi, hQi⟩ := hhi (by simpa using hm) hQ
          refine ⟨i, ?_, by omega, hi3, hPi, hQi⟩
          rw [← hi]
          simp only [Find_Index.loop, hw, if_neg hcnt, hstop, Bool.not_true,
            Bool.false_eq_true, if_true, if_false, if_pos hx2, ↓reduceIte]
      · have hm := hge _ hx2
        cases reversed with
        | false =>
          obtain ⟨i, hi, hi1, hi3, hPi, hQi⟩ := hhi (by simpa using hm) hQ
          refine ⟨i, ?_, by omega, hi3, hPi, hQi⟩
          rw [← hi]
          simp only [Find_Index.loop, hw, if_neg hcnt, hstop, Bool.not_false,
            Bool.false_eq_true, if_true, if_false, if_neg hx2, ↓reduceIte]
        | true =>
          obtain ⟨i, hi, hi1, hi3, hPi, hQi⟩ := hlo (by simpa using hm)
          refine ⟨i, ?_, hi1, by omega, hPi, hQi⟩
          rw [← hi]
          simp only [Find_Index.loop, hw, if_neg hcnt, hstop, Bool.not_true,
            Bool.false_eq_true, if_true, if_false, if_neg hx2, ↓reduceIte]

/-- More fuel does not change a result the loop has returned. -/
theorem Find_Index.loop_fuel_mono (x_axis : Int → ℚ) (x : ℚ) (reversed : Bool)
    (f1 : Nat) :
    ∀ (f2 : Nat) (id1 id3 count i : Int), f1 ≤ f2 →
      Find_Index.loop x_axis x reversed f1 id1 id3 count = .ok i →
      Find_Index.loop x_axis x reversed f2 id1 id3 count = .ok i := by
  induction f1 with
  | zero =>
    intro f2 id1 id3 count i _ h
    simp [Find_Index.loop] at h
  | succ f1 ih =>
    intro f2 id1 id3 count i hf h
    obtain ⟨f2, rfl⟩ : ∃ f, f2 = f + 1 := ⟨f2 - 1, by omega⟩
    simp only [Find_Index.loop] at h ⊢
    split_ifs at h ⊢
    all_goals first | exact h | exact ih f2 _ _ _ _ (by omega) h

theorem Find_Index.eq_before_ascending (x_axis : Int → ℚ) (x : ℚ) (nx : Int)
    (h01 : x_axis 0 < x_axis (nx - 1)) (h : x < x_axis 0) :
    Find_Index x_axis x nx = .ok (-1) := by
  have h3 : ¬ x > x_axis (nx - 1) := not_lt.2 (le_of_lt (lt_trans h h01))
  simp only [Find_Index, if_pos h01, Bool.not_false, if_true, if_pos h, if_neg h3,
    ↓reduceIte]

theorem Find_Index.eq_after_ascending (x_axis : Int → ℚ) (x : ℚ) (nx : Int)
    (h01 : x_axis 0 < x_axis (nx - 1)) (h : x > x_axis (nx - 1)) :
    Find_Index x_axis x nx = .ok nx := by
  simp only [Find_Index, if_pos h01, Bool.not_false, if_true, if_pos h, ↓reduceIte]

theorem Find_Index.eq_before_descending (x_axis : Int → ℚ) (x : ℚ) (nx : Int)
    (h01 : ¬ x_axis 0 < x_axis (nx - 1)) (h : x > x_axis 0) :
    Find_Index x_axis x nx = .ok (-1) := by
  have h3 : ¬ x < x_axis (nx - 1) := not_lt.2 (le_trans (not_lt.1 h01) (le_of_lt h))
  simp only [Find_Index, if_neg h01, Bool.not_true, Bool.false_eq_true, if_false,
    if_pos h, if_neg h3, ↓reduceIte]

theorem Find_Index.eq_after_descending (x_axis : Int → ℚ) (x : ℚ) (nx : Int)
    (h01 : ¬ x_axis 0 < x_axis (nx - 1)) (h : x < x_axis (nx - 1)) :
    Find_Index x_axis x nx = .ok nx := by
  simp only [Find_Index, if_neg h01, Bool.not_true, Bool.false_eq_true, if_false,
    if_pos h, ↓reduceIte]


theorem ascendingAxis_strict : StrictlyIncreasing ascendingAxis 4 := by
  intro i j hi hij hj
  have hi' : i = 0 ∨ i = 1 ∨ i = 2 := by omega
  have hj' : j = 1 ∨ j = 2 ∨ j = 3 := by omega
  rcases hi' with rfl | rfl | rfl <;> rcases hj' with rfl | rfl | rfl <;>
    first | omega | decide!

theorem descendingAxis_strict : StrictlyDecreasing descendingAxis 3 := by
  intro i j hi hij hj
  have hi' : i = 0 ∨ i = 1 := by omega
  have hj' : j = 1 ∨ j = 2 := by omega
  rcases hi' with rfl | rfl <;> rcases hj' with rfl | rfl <;>
    first | omega | decide!

/-- On the closed covered range of an axis of length `nx >= 2` the call
returns an index of `[0, nx - 2]`, whatever the order of the interior
elements. -/
theorem Find_Index.in_range_index (x_axis : Int → ℚ) (x : ℚ) (nx : Int)
    (hn : 2 ≤ nx) (hint : nx ≤ 1073741825)
    (hx : (x_axis 0 < x_axis (nx - 1) ∧ x_axis 0 ≤ x ∧ x ≤ x_axis (nx - 1))
      ∨ (¬ x_axis 0 < x_axis (nx - 1) ∧ x_axis (nx - 1) ≤ x ∧ x ≤ x_axis 0)) :
    ∃ i, Find_Index x_axis x nx = .ok i ∧ 0 ≤ i ∧ i ≤ nx - 2 := by
  rcases hx with ⟨h01, h0, h1⟩ | ⟨h01, h1, h0⟩
  · rw [Find_Index.eq_loop_ascending x_axis x nx h0 h1 h01]
    obtain ⟨i, hi, hi0, hi3, _, _⟩ :=
      Find_Index.loop_invariant x_axis x false (fun _ => True) (fun _ => True)
        (fun _ _ => by simp) (fun _ _ => by simp) 31 101 0 (nx - 1) 0 le_rfl
        (by omega) (by omega) (by norm_num; omega) le_rfl (by norm_num) (by norm_num)
        trivial trivial
    exact ⟨i, hi, hi0, by omega⟩
  · rw [Find_Index.eq_loop_descending x_axis x nx h0 h1 h01]
    obtain ⟨i, hi, hi0, hi3, _, _⟩ :=
      Find_Index.loop_invariant x_axis x true (fun _ => True) (fun _ => True)
        (fun _ _ => by simp) (fun _ _ => by simp) 31 101 0 (nx - 1) 0 le_rfl
        (by omega) (by omega) (by norm_num; omega) le_rfl (by norm_num) (by norm_num)
        trivial trivial
    exact ⟨i, hi, hi0, by omega⟩

/-- The sentinels and the index range while the sum `id1 + id3` stays inside 32
bits: for every strictly monotonic axis of length `2 <= nx <= 2^30 + 1`, a
query before the first element (`x < x_axis[0]` if ascending, `x > x_axis[0]`
if descending) gives the sentinel `-1`, a query past the last element
(`x > x_axis[nx-1]` if ascending, `x < x_axis[nx-1]` if descending) gives the
sentinel `nx`, and every query of the closed covered range gives an index of
`[0, nx - 2]`, never a sentinel. -/
theorem Find_Index_sentinels (x_axis : Int → ℚ) (x : ℚ) (nx : Int)
    (hn : 2 ≤ nx) (hint : nx ≤ 1073741825)
    (hmono : StrictlyIncreasing x_axis nx ∨ StrictlyDecreasing x_axis nx) :
    (StrictlyIncreasing x_axis nx →
      (x < x_axis 0 → Find_Index x_axis x nx = .ok (-1))
      ∧ (x > x_axis (nx - 1) → Find_Index x_axis x nx = .ok nx)
      ∧ (x_axis 0 ≤ x ∧ x ≤ x_axis (nx - 1) →
        ∃ i, Find_Index x_axis x nx = .ok i ∧ 0 ≤ i ∧ i ≤ nx - 2))
    ∧ (StrictlyDecreasing x_axis nx →
      (x > x_axis 0 → Find_Index x_axis x nx = .ok (-1))
      ∧ (x < x_axis (nx - 1) → Find_Index x_axis x nx = .ok nx)
      ∧ (x_axis (nx - 1) ≤ x ∧ x ≤ x_axis 0 →
        ∃ i, Find_Index x_axis x nx = .ok i ∧ 0 ≤ i ∧ i ≤ nx - 2))
    ∧ ∃ r, Find_Index x_axis x nx = .ok r := by
  have hasc : StrictlyIncreasing x_axis nx →
      (x < x_axis 0 → Find_Index x_axis x nx = .ok (-1))
      ∧ (x > x_axis (nx - 1) → Find_Index x_axis x nx = .ok nx)
      ∧ (x_axis 0 ≤ x ∧ x ≤ x_axis (nx - 1) →
        ∃ i, Find_Index x_axis x nx = .ok i ∧ 0 ≤ i ∧ i ≤ nx - 2) := by
    intro hinc
    have h01 : x_axis 0 < x_axis (nx - 1) := hinc 0 (nx - 1) le_rfl (by omega) le_rfl
    exact ⟨Find_Index.eq_before_ascending x_axis x nx h01,
      Find_Index.eq_after_ascending x_axis x nx h01,
      fun h => Find_Index.in_range_index x_axis x nx hn hint (Or.inl ⟨h01, h.1, h.2⟩)⟩
  have hdesc : StrictlyDecreasing x_axis nx →
      (x > x_axis 0 → Find_Index x_axis x nx = .ok (-1))
      ∧ (x < x_axis (nx - 1) → Find_Index x_axis x nx = .ok nx)
      ∧ (x_axis (nx - 1) ≤ x ∧ x ≤ x_axis 0 →
        ∃ i, Find_Index x_axis x nx = .ok i ∧ 0 ≤ i ∧ i ≤ nx - 2) := by
    intro hdec
    have h01 : ¬ x_axis 0 < x_axis (nx - 1) :=
      not_lt.2 (le_of_lt (hdec 0 (nx - 1) le_rfl (by omega) le_rfl))
    exact ⟨Find_Index.eq_before_descending x_axis x nx h01,
      Find_Index.eq_after_descending x_axis x nx h01,
      fun h => Find_Index.in_range_index x_axis x nx hn hint (Or.inr ⟨h01, h.1, h.2⟩)⟩
  refine ⟨hasc, hdesc, ?_⟩
  rcases hmono with hinc | hdec
  · obtain ⟨hb, ha, hin⟩ := hasc hinc
    by_cases h0 : x < x_axis 0
    · exact ⟨_, hb h0⟩
    · by_cases h1 : x > x_axis (nx - 1)
      · exact ⟨_, ha h1⟩
      · obtain ⟨i, hi, _⟩ := hin ⟨not_lt.1 h0, not_lt.1 h1⟩
        exact ⟨i, hi⟩
  · obtain ⟨hb, ha, hin⟩ := hdesc hdec
    by_cases h0 : x > x_axis 0
    · exact ⟨_, hb h0⟩
    · by_cases h1 : x < x_axis (nx - 1)
      · exact ⟨_, ha h1⟩
      · obtain ⟨i, hi, _⟩ := hin ⟨not_lt.1 h1, not_lt.1 h0⟩
        exact ⟨i, hi⟩

/-- The sentinels on sample axes: on `{0, 1, 2, 3}` the query `-1` gives `-1` and
the query `7` gives `4`; on the axis `{2, 1, 0}` the query `5` gives `-1` and
the query `-5` gives `3`. -/
theorem Find_Index_sentinels_witness :
    Find_Index ascendingAxis (-1) 4 = .ok (-1)
    ∧ Find_Index ascendingAxis 7 4 = .ok 4
    ∧ Find_Index descendingAxis 5 3 = .ok (-1)
    ∧ Find_Index descendingAxis (-5) 3 = .ok 3 :=
  ⟨((Find_Index_sentinels ascendingAxis (-1) 4 (by norm_num) (by norm_num)
      (Or.inl ascendingAxis_strict)).1 ascendingAxis_strict).1 (by decide!),
    ((Find_Index_sentinels ascendingAxis 7 4 (by norm_num) (by norm_num)
      (Or.inl ascendingAxis_strict)).1 ascendingAxis_strict).2.1 (by decide!),
    ((Find_Index_sentinels descendingAxis 5 3 (by norm_num) (by norm_num)
      (Or.inr descendingAxis_strict)).2.1 descendingAxis_strict).1 (by decide!),
    ((Find_Index_sentinels descendingAxis (-5) 3 (by norm_num) (by norm_num)
      (Or.inr descendingAxis_strict)).2.1 descendingAxis_strict).2.1 (by decide!)⟩

/-! ## `Interp_1D` -/


/-- On the closed covered range of an ascending-detected axis the index `i`
returned has `x_axis[i] <= x <= x_axis[i+1]`. -/
theorem Find_Index.closed_bracket_ascending (x_axis : Int → ℚ) (x : ℚ) (nx : Int)
    (hn : 2 ≤ nx) (hint : nx ≤ 1073741825) (h01 : x_axis 0 < x_axis (nx - 1))
    (h0 : x_axis 0 ≤ x) (h1 : x ≤ x_axis (nx - 1)) :
    ∃ i, Find_Index x_axis x nx = .ok i ∧ 0 ≤ i ∧ i ≤ nx - 2
      ∧ x_axis i ≤ x ∧ x ≤ x_axis (i + 1) := by
  rw [Find_Index.eq_loop_ascending x_axis x nx h0 h1 h01]
  obtain ⟨i, hi, hi0, hi3, hP, hQ⟩ :=
    Find_Index.loop_invariant x_axis x false (fun m => x_axis m ≤ x)
      (fun m => x ≤ x_axis m)
      (fun m hm => by simpa using le_of_lt hm) (fun m hm => by simpa using hm)
      31 101 0 (nx - 1) 0 le_rfl
      (by omega) (by omega) (by norm_num; omega) le_rfl (by norm_num) (by norm_num) h0 h1
  exact ⟨i, hi, hi0, by omega, hP, hQ⟩

/-- On the closed covered range of a descending-detected axis the index `i`
returned has `x_axis[i] >= x >= x_axis[i+1]`. -/
theorem Find_Index.closed_bracket_descending (x_axis : Int → ℚ) (x : ℚ) (nx : Int)
    (hn : 2 ≤ nx) (hint : nx ≤ 1073741825) (h01 : ¬ x_axis 0 < x_axis (nx - 1))
    (h0 : x ≤ x_axis 0) (h1 : x_axis (nx - 1) ≤ x) :
    ∃ i, Find_Index x_axis x nx = .ok i ∧ 0 ≤ i ∧ i ≤ nx - 2
      ∧ x ≤ x_axis i ∧ x_axis (i + 1) ≤ x := by
  rw [Find_Index.eq_loop_descending x_axis x nx h0 h1 h01]
  obtain ⟨i, hi, hi0, hi3, hP, hQ⟩ :=
    Find_Index.loop_invariant x_axis x true (fun m => x ≤ x_axis m)
      (fun m => x_axis m ≤ x)
      (fun m hm => by simpa using le_of_lt hm) (fun m hm => by simpa using hm)
      31 101 0 (nx - 1) 0 le_rfl
      (by omega) (by omega) (by norm_num; omega) le_rfl (by norm_num) (by norm_num) h0 h1
  exact ⟨i, hi, hi0, by omega, hP, hQ⟩

/-- The value of `Interp_1D` with both log flags off, once `Find_Index` has
returned an index that is not a sentinel. -/
theorem Interp_1D.eq_linear {α : Type} [DivisionRing α] (log exp : α → α) (x : ℚ)
    (x_axis y_axis : Int → ℚ) (nx Overflow_Handle i : Int)
    (hi : Find_Index x_axis x nx = .ok i) (h1 : i ≠ -1) (h2 : i ≠ nx) :
    Interp_1D log exp x x_axis y_axis nx 0 0 Overflow_Handle
      = .ok (((y_axis (i + 1) : α) - (y_axis i : α))
          / ((x_axis (i + 1) : α) - (x_axis i : α)) * ((x : α) - (x_axis i : α))
          + (y_axis i : α)) := by
  simp only [Interp_1D, hi, if_neg h1, if_neg h2, ne_eq, not_true_eq_false, if_false,
    if_true, ↓reduceIte]

/-- The value of `Interp_1D` with `Use_LogX` off and `Use_LogY` on, once
`Find_Index` has returned an index that is not a sentinel. -/
theorem Interp_1D.eq_logY {α : Type} [DivisionRing α] (log exp : α → α) (x : ℚ)
    (x_axis y_axis : Int → ℚ) (nx Use_LogY Overflow_Handle i : Int)
    (hY : Use_LogY ≠ 0)
    (hi : Find_Index x_axis x nx = .ok i) (h1 : i ≠ -1) (h2 : i ≠ nx) :
    Interp_1D log exp x x_axis y_axis nx 0 Use_LogY Overflow_Handle
      = .ok (exp ((log (y_axis (i + 1) : α) - log (y_axis i : α))
          / ((x_axis (i + 1) : α) - (x_axis i : α)) * ((x : α) - (x_axis i : α))
          + log (y_axis i : α))) := by
  simp only [Interp_1D, hi, if_neg h1, if_neg h2, if_pos hY, if_true, ↓reduceIte]

/-- The result of `Interp_1D` when `Find_Index` returns the sentinel `-1`. -/
theorem Interp_1D.eq_before {α : Type} [DivisionRing α] (log exp : α → α) (x : ℚ)
    (x_axis y_axis : Int → ℚ) (nx Use_LogX Use_LogY Overflow_Handle : Int)
    (hi : Find_Index x_axis x nx = .ok (-1)) :
    Interp_1D log exp x x_axis y_axis nx Use_LogX Use_LogY Overflow_Handle
      = if Overflow_Handle = 1 then .ok (y_axis 0 : α) else .error .Exit := by
  simp only [Interp_1D, hi, if_true, ↓reduceIte]

/-- The result of `Interp_1D` when `Find_Index` returns the sentinel `nx`. -/
theorem Interp_1D.eq_after {α : Type} [DivisionRing α] (log exp : α → α) (x : ℚ)
    (x_axis y_axis : Int → ℚ) (nx Use_LogX Use_LogY Overflow_Handle : Int)
    (hn : nx ≠ -1) (hi : Find_Index x_axis x nx = .ok nx) :
    Interp_1D log exp x x_axis y_axis nx Use_LogX Use_LogY Overflow_Handle
      = if Overflow_Handle = 1 then .ok (y_axis (nx - 1) : α) else .error .Exit := by
  simp only [Interp_1D, hi, if_neg hn, if_true, ↓reduceIte]



/-- Linear data while the sum `id1 + id3` stays inside 32 bits: for every
strictly monotonic (ascending or descending) axis of length
`2 <= nx <= 2^30 + 1`, every `a`, `b` with `y_axis[i] = a * x_axis[i] + b`, and every query
`x` of the closed covered range, `Interp_1D` with `Use_LogX = 0`,
`Use_LogY = 0` and any overflow policy returns `a * x + b`, in exact
arithmetic (any field of characteristic zero). -/
theorem Interp_1D_linear_exact {α : Type} [Field α] [CharZero α] (log exp : α → α)
    (x : ℚ) (x_axis y_axis : Int → ℚ) (nx Overflow_Handle : Int) (a b : ℚ)
    (hn : 2 ≤ nx) (hint : nx ≤ 1073741825)
    (hmono : StrictlyIncreasing x_axis nx ∨ StrictlyDecreasing x_axis nx)
    (hy : ∀ i : Int, 0 ≤ i → i ≤ nx - 1 → y_axis i = a * x_axis i + b)
    (hx : (x_axis 0 ≤ x ∧ x ≤ x_axis (nx - 1))
      ∨ (x_axis (nx - 1) ≤ x ∧ x ≤ x_axis 0)) :
    Interp_1D log exp x x_axis y_axis nx 0 0 Overflow_Handle
      = .ok ((a * x + b : ℚ) : α) := by
  have hrange : (x_axis 0 < x_axis (nx - 1) ∧ x_axis 0 ≤ x ∧ x ≤ x_axis (nx - 1))
      ∨ (¬ x_axis 0 < x_axis (nx - 1) ∧ x_axis (nx - 1) ≤ x ∧ x ≤ x_axis 0) := by
    rcases hmono with hinc | hdec
    · have h01 : x_axis 0 < x_axis (nx - 1) := hinc 0 (nx - 1) le_rfl (by omega) le_rfl
      rcases hx with h | h
      · exact Or.inl ⟨h01, h.1, h.2⟩
      · exact absurd (le_trans h.1 h.2) (not_le.2 h01)
    · have h01 : x_axis (nx - 1) < x_axis 0 := hdec 0 (nx - 1) le_rfl (by omega) le_rfl
      rcases hx with h | h
      · exact absurd (le_trans h.1 h.2) (not_le.2 h01)
      · exact Or.inr ⟨not_lt.2 (le_of_lt h01), h.1, h.2⟩
  obtain ⟨i, hi, hi0, hi2⟩ := Find_Index.in_range_index x_axis x nx hn hint hrange
  rw [Interp_1D.eq_linear log exp x x_axis y_axis nx Overflow_Handle i hi
    (by omega) (by omega)]
  have hne : x_axis (i + 1) - x_axis i ≠ 0 := by
    rcases hmono with hinc | hdec
    · exact sub_ne_zero.2 (ne_of_gt (hinc i (i + 1) hi0 (by omega) (by omega)))
    · exact sub_ne_zero.2 (ne_of_lt (hdec i (i + 1) hi0 (by omega) (by omega)))
  have hq : (y_axis (i + 1) - y_axis i) / (x_axis (i + 1) - x_axis i) * (x - x_axis i)
      + y_axis i = a * x + b := by
    rw [hy i hi0 (by omega), hy (i + 1) (by omega) (by omega)]
    field_simp
    ring
  rw [← hq]
  push_cast
  rfl

/-- Linear data on the axis `{0, 1, 2, 3}` with the values `{0, 2, 4, 6}` at
`x = 1.5` : the result is `3`. -/
theorem Interp_1D_linear_exact_witness :
    Interp_1D (fun y : ℚ => y) (fun y : ℚ => y) 1.5 ascendingAxis linearValues 4 0 0 0
      = .ok 3 :=
  (Interp_1D_linear_exact (fun y : ℚ => y) (fun y : ℚ => y) 1.5 ascendingAxis
    linearValues 4 0 2 0 (by norm_num) (by norm_num) (Or.inl ascendingAxis_strict)
    (fun i h0 h3 => by
      have hi : i = 0 ∨ i = 1 ∨ i = 2 ∨ i = 3 := by omega
      rcases hi with rfl | rfl | rfl | rfl <;> decide!)
    (Or.inl ⟨by decide!, by decide!⟩)).trans (by norm_num)

/-- C14 : for every strictly monotonic axis of length `nx >= 2` and every
out-of-range query, whatever the log flags: with `Overflow_Handle = 1`
`Interp_1D` returns exactly `y_axis[0]` when the query lies before the first
axis element and `y_axis[nx-1]` when it lies past the last; with
`Overflow_Handle = 0` the same query ends in `exit(1)` and returns no value. -/
theorem Interp_1D_out_of_range {α : Type} [DivisionRing α] (log exp : α → α)
    (x : ℚ) (x_axis y_axis : Int → ℚ) (nx Use_LogX Use_LogY : Int) (hn : 2 ≤ nx) :
    (StrictlyIncreasing x_axis nx →
      (x < x_axis 0 →
        Interp_1D log exp x x_axis y_axis nx Use_LogX Use_LogY 1 = .ok (y_axis 0 : α)
        ∧ Interp_1D log exp x x_axis y_axis nx Use_LogX Use_LogY 0 = .error .Exit)
      ∧ (x > x_axis (nx - 1) →
        Interp_1D log exp x x_axis y_axis nx Use_LogX Use_LogY 1
          = .ok (y_axis (nx - 1) : α)
        ∧ Interp_1D log exp x x_axis y_axis nx Use_LogX Use_LogY 0 = .error .Exit))
    ∧ (StrictlyDecreasing x_axis nx →
      (x > x_axis 0 →
        Interp_1D log exp x x_axis y_axis nx Use_LogX Use_LogY 1 = .ok (y_axis 0 : α)
        ∧ Interp_1D log exp x x_axis y_axis nx Use_LogX Use_LogY 0 = .error .Exit)
      ∧ (x < x_axis (nx - 1) →
        Interp_1D log exp x x_axis y_axis nx Use_LogX Use_LogY 1
          = .ok (y_axis (nx - 1) : α)
        ∧ Interp_1D log exp x x_axis y_axis nx Use_LogX Use_LogY 0 = .error .Exit)) := by
  have hne : nx ≠ -1 := by omega
  have hasc : StrictlyIncreasing x_axis nx →
      (x < x_axis 0 →
        Interp_1D log exp x x_axis y_axis nx Use_LogX Use_LogY 1 = .ok (y_axis 0 : α)
        ∧ Interp_1D log exp x x_axis y_axis nx Use_LogX Use_LogY 0 = .error .Exit)
      ∧ (x > x_axis (nx - 1) →
        Interp_1D log exp x x_axis y_axis nx Use_LogX Use_LogY 1
          = .ok (y_axis (nx - 1) : α)
        ∧ Interp_1D log exp x x_axis y_axis nx Use_LogX Use_LogY 0 = .error .Exit) := by
    intro hinc
    have h01 : x_axis 0 < x_axis (nx - 1) := hinc 0 (nx - 1) le_rfl (by omega) le_rfl
    constructor
    · intro h
      have hi := Find_Index.eq_before_ascending x_axis x nx h01 h
      constructor
      · rw [Interp_1D.eq_before log exp x x_axis y_axis nx Use_LogX Use_LogY 1 hi]
        rfl
      · rw [Interp_1D.eq_before log exp x x_axis y_axis nx Use_LogX Use_LogY 0 hi]
        rfl
    · intro h
      have hi := Find_Index.eq_after_ascending x_axis x nx h01 h
      constructor
      · rw [Interp_1D.eq_after log exp x x_axis y_axis nx Use_LogX Use_LogY 1 hne hi]
        rfl
      · rw [Interp_1D.eq_after log exp x x_axis y_axis nx Use_LogX Use_LogY 0 hne hi]
        rfl
  have hdesc : StrictlyDecreasing x_axis nx →
      (x > x_axis 0 →
        Interp_1D log exp x x_axis y_axis nx Use_LogX Use_LogY 1 = .ok (y_axis 0 : α)
        ∧ Interp_1D log exp x x_axis y_axis nx Use_LogX Use_LogY 0 = .error .Exit)
      ∧ (x < x_axis (nx - 1) →
        Interp_1D log exp x x_axis y_axis nx Use_LogX Use_LogY 1
          = .ok (y_axis (nx - 1) : α)
        ∧ Interp_1D log exp x x_axis y_axis nx Use_LogX Use_LogY 0 = .error .Exit) := by
    intro hdec
    have h01 : ¬ x_axis 0 < x_axis (nx - 1) :=
      not_lt.2 (le_of_lt (hdec 0 (nx - 1) le_rfl (by omega) le_rfl))
    constructor
    · intro h
      have hi := Find_Index.eq_before_descending x_axis x nx h01 h
      constructor
      · rw [Interp_1D.eq_before log exp x x_axis y_axis nx Use_LogX Use_LogY 1 hi]
        rfl
      · rw [Interp_1D.eq_before log exp x x_axis y_axis nx Use_LogX Use_LogY 0 hi]
        rfl
    · intro h
      have hi := Find_Index.eq_after_descending x_axis x nx h01 h
      constructor
      · rw [Interp_1D.eq_after log exp x x_axis y_axis nx Use_LogX Use_LogY 1 hne hi]
        rfl
      · rw [Interp_1D.eq_after log exp x x_axis y_axis nx Use_LogX Use_LogY 0 hne hi]
        rfl
  exact ⟨hasc, hdesc⟩

/-- C14, witness : the axis `{0, 1, 2, 3}` with values `{0, 2, 4, 6}` and the
query `7`, past the last element: clamped to `6`, or `exit(1)`. -/
theorem Interp_1D_out_of_range_witness :
    Interp_1D (fun y : ℚ => y) (fun y : ℚ => y) 7 ascendingAxis linearValues 4 1 1 1
      = .ok 6
    ∧ Interp_1D (fun y : ℚ => y) (fun y : ℚ => y) 7 ascendingAxis linearValues 4 1 1 0
      = .error .Exit :=
  ⟨((((Interp_1D_out_of_range (fun y : ℚ => y) (fun y : ℚ => y) 7 ascendingAxis
      linearValues 4 1 1 (by norm_num)).1
      ascendingAxis_strict).2 (by decide!)).1).trans (by decide!),
    (((Interp_1D_out_of_range (fun y : ℚ => y) (fun y : ℚ => y) 7 ascendingAxis
      linearValues 4 1 1 (by norm_num)).1
      ascendingAxis_strict).2 (by decide!)).2⟩


theorem twoPointAxis_strict : StrictlyIncreasing twoPointAxis 2 := by
  intro i j hi hij hj
  have hi' : i = 0 := by omega
  have hj' : j = 1 := by omega
  subst hi' hj'
  decide!

/-- The log-value transform while the sum `id1 + id3` stays inside 32 bits:
with `Use_LogY` enabled and `Use_LogX` disabled, for every strictly
monotonic axis of length `2 <= nx <= 2^30 + 1`, every table of
strictly positive values and every query `x` of the closed covered range,
`Find_Index` returns an index `i` of `[0, nx - 2]` whose bracket contains `x`,
and `Interp_1D` returns
`exp(log(y_i) + (log(y_{i+1}) - log(y_i)) * (x - x_i) / (x_{i+1} - x_i))`,
whatever `log` and `exp` are; with the real logarithm and exponential this is
the geometric interpolation `y_i ^ (1 - t) * y_{i+1} ^ t`,
`t = (x - x_i) / (x_{i+1} - x_i)`. -/
theorem Interp_1D_log_value (x : ℚ) (x_axis y_axis : Int → ℚ)
    (nx Use_LogY Overflow_Handle : Int)
    (hn : 2 ≤ nx) (hint : nx ≤ 1073741825)
    (hmono : StrictlyIncreasing x_axis nx ∨ StrictlyDecreasing x_axis nx)
    (hpos : ∀ i : Int, 0 ≤ i → i ≤ nx - 1 → 0 < y_axis i)
    (hY : Use_LogY ≠ 0)
    (hx : (x_axis 0 ≤ x ∧ x ≤ x_axis (nx - 1))
      ∨ (x_axis (nx - 1) ≤ x ∧ x ≤ x_axis 0)) :
    ∃ i, Find_Index x_axis x nx = .ok i ∧ 0 ≤ i ∧ i ≤ nx - 2
      ∧ ((x_axis i ≤ x ∧ x ≤ x_axis (i + 1)) ∨ (x_axis (i + 1) ≤ x ∧ x ≤ x_axis i))
      ∧ (∀ (α : Type) [Field α] (log exp : α → α),
        Interp_1D log exp x x_axis y_axis nx 0 Use_LogY Overflow_Handle
          = .ok (exp (log (y_axis i : α)
              + (log (y_axis (i + 1) : α) - log (y_axis i : α))
                * ((x : α) - (x_axis i : α))
                / ((x_axis (i + 1) : α) - (x_axis i : α)))))
      ∧ Interp_1D Real.log Real.exp x x_axis y_axis nx 0 Use_LogY Overflow_Handle
          = .ok ((y_axis i : ℝ)
                ^ (1 - ((x : ℝ) - (x_axis i : ℝ)) / ((x_axis (i + 1) : ℝ) - (x_axis i : ℝ)))
              * (y_axis (i + 1) : ℝ)
                ^ (((x : ℝ) - (x_axis i : ℝ)) / ((x_axis (i + 1) : ℝ) - (x_axis i : ℝ)))) := by
  have hbr : ∃ i, Find_Index x_axis x nx = .ok i ∧ 0 ≤ i ∧ i ≤ nx - 2
      ∧ ((x_axis i ≤ x ∧ x ≤ x_axis (i + 1))
        ∨ (x_axis (i + 1) ≤ x ∧ x ≤ x_axis i)) := by
    rcases hmono with hinc | hdec
    · have h01 : x_axis 0 < x_axis (nx - 1) := hinc 0 (nx - 1) le_rfl (by omega) le_rfl
      rcases hx with h | h
      · obtain ⟨i, hi, h0, h2, hlo, hhi⟩ :=
          Find_Index.closed_bracket_ascending x_axis x nx hn hint h01 h.1 h.2
        exact ⟨i, hi, h0, h2, Or.inl ⟨hlo, hhi⟩⟩
      · exact absurd (le_trans h.1 h.2) (not_le.2 h01)
    · have h01 : x_axis (nx - 1) < x_axis 0 := hdec 0 (nx - 1) le_rfl (by omega) le_rfl
      rcases hx with h | h
      · exact absurd (le_trans h.1 h.2) (not_le.2 h01)
      · obtain ⟨i, hi, h0, h2, hlo, hhi⟩ :=
          Find_Index.closed_bracket_descending x_axis x nx hn hint
            (not_lt.2 (le_of_lt h01)) h.2 h.1
        exact ⟨i, hi, h0, h2, Or.inr ⟨hhi, hlo⟩⟩
  obtain ⟨i, hi, h0, h2, hb⟩ := hbr
  refine ⟨i, hi, h0, h2, hb, ?_, ?_⟩
  · intro α _ log exp
    rw [Interp_1D.eq_logY log exp x x_axis y_axis nx Use_LogY Overflow_Handle i hY hi
      (by omega) (by omega)]
    exact congrArg (fun r => Except.ok (exp r)) (by ring)
  · rw [Interp_1D.eq_logY Real.log Real.exp x x_axis y_axis nx Use_LogY
      Overflow_Handle i hY hi (by omega) (by omega)]
    have hp1 : (0 : ℝ) < (y_axis i : ℝ) := by exact_mod_cast hpos i h0 (by omega)
    have hp2 : (0 : ℝ) < (y_axis (i + 1) : ℝ) := by
      exact_mod_cast hpos (i + 1) (by omega) (by omega)
    rw [Real.rpow_def_of_pos hp1, Real.rpow_def_of_pos hp2, ← Real.exp_add]
    exact congrArg (fun r => Except.ok (Real.exp r)) (by ring)

/-- The log-value transform on the axis `{1, 2}` with the values `{1, 100}`,
`Use_LogY = 1`, at `x = 1.5` : with the real logarithm and exponential the
result is `10`. -/
theorem Interp_1D_log_value_witness :
    Interp_1D Real.log Real.exp 1.5 twoPointAxis twoPointValues 2 0 1 0 = .ok 10 := by
  obtain ⟨i, hi, _, _, _, _, hgeo⟩ :=
    Interp_1D_log_value 1.5 twoPointAxis twoPointValues 2 1 0 (by norm_num)
      (by norm_num) (Or.inl twoPointAxis_strict)
      (fun i h0 h1 => by
        have hi : i = 0 ∨ i = 1 := by omega
        rcases hi with rfl | rfl <;> decide!)
      (by norm_num) (Or.inl ⟨by decide!, by decide!⟩)
  have h0 : Find_Index twoPointAxis 1.5 2 = .ok 0 := by decide!
  rw [h0] at hi
  have hi0 : i = 0 := (Except.ok.inj hi).symm
  subst hi0
  rw [hgeo]
  have e0 : twoPointAxis 0 = 1 := by decide!
  have e1 : twoPointAxis (0 + 1) = 2 := by decide!
  have v0 : twoPointValues 0 = 1 := by decide!
  have v1 : twoPointValues (0 + 1) = 100 := by decide!
  rw [e0, e1, v0, v1]
  have ht : (((1.5 : ℚ) : ℝ) - ((1 : ℚ) : ℝ)) / (((2 : ℚ) : ℝ) - ((1 : ℚ) : ℝ)) = 1 / 2 := by
    push_cast
    norm_num
  rw [ht]
  have h100 : (((100 : ℚ) : ℝ)) ^ ((1 : ℝ) / 2) = 10 := by
    rw [show ((100 : ℚ) : ℝ) = (10 : ℝ) ^ (2 : ℝ) by norm_num,
      ← Real.rpow_mul (by norm_num)]
    norm_num
  rw [h100]
  norm_num

/-! ## `get_mturn_interp` -/


/-- An axis whose neighbouring elements increase is strictly increasing. -/
theorem StrictlyIncreasing.of_adjacent (x_axis : Int → ℚ) (nx : Int)
    (h : ∀ i : Int, 0 ≤ i → i ≤ nx - 2 → x_axis i < x_axis (i + 1)) :
    StrictlyIncreasing x_axis nx := by
  intro i j hi hij hj
  obtain ⟨d, rfl⟩ : ∃ d : Nat, j = i + 1 + d := ⟨(j - i - 1).toNat, by omega⟩
  clear hij
  induction d with
  | zero => simpa using h i hi (by omega)
  | succ d ih =>
    have h1 := ih (by push_cast at hj ⊢; omega)
    have h2 := h (i + 1 + d) (by omega) (by push_cast at hj ⊢; omega)
    have e : i + 1 + ((d + 1 : Nat) : Int) = i + 1 + d + 1 := by push_cast; ring
    rw [e]
    exact lt_trans h1 h2

theorem get_mturn_interp.z_axis_strict :
    StrictlyIncreasing get_mturn_interp.z_axis 100 := by
  apply StrictlyIncreasing.of_adjacent
  intro i h0 h1
  have hall : ∀ k : Fin 99, get_mturn_interp.z_axis (k.val : Int)
      < get_mturn_interp.z_axis ((k.val : Int) + 1) := by decide!
  have := hall ⟨i.toNat, by omega⟩
  have e : ((i.toNat : Nat) : Int) = i := Int.toNat_of_nonneg h0
  simpa [e] using this

/-- At a tabulated point of a strictly increasing axis, `Interp_1D` with both
log flags off returns the tabulated value. -/
theorem Interp_1D.at_node_ascending {α : Type} [Field α] [CharZero α]
    (log exp : α → α) (x_axis y_axis : Int → ℚ) (nx Overflow_Handle k : Int)
    (hn : 2 ≤ nx) (hint : nx ≤ 1073741825) (hinc : StrictlyIncreasing x_axis nx)
    (hk0 : 0 ≤ k) (hk1 : k ≤ nx - 1) :
    Interp_1D log exp (x_axis k) x_axis y_axis nx 0 0 Overflow_Handle
      = .ok (y_axis k : α) := by
  have h01 : x_axis 0 < x_axis (nx - 1) := hinc 0 (nx - 1) le_rfl (by omega) le_rfl
  have hlo : x_axis 0 ≤ x_axis k := by
    rcases eq_or_lt_of_le hk0 with he | hlt
    · rw [← he]
    · exact le_of_lt (hinc 0 k le_rfl hlt hk1)
  have hhi : x_axis k ≤ x_axis (nx - 1) := by
    rcases eq_or_lt_of_le hk1 with he | hlt
    · rw [he]
    · exact le_of_lt (hinc k (nx - 1) hk0 hlt le_rfl)
  obtain ⟨i, hi, hi0, hi2, hb1, hb2⟩ :=
    Find_Index.closed_bracket_ascending x_axis (x_axis k) nx hn hint h01 hlo hhi
  rw [Interp_1D.eq_linear log exp (x_axis k) x_axis y_axis nx Overflow_Handle i hi
    (by omega) (by omega)]
  have hik : i ≤ k := by
    by_contra hcon
    exact absurd (hinc k i hk0 (by omega) (by omega)) (not_lt.2 hb1)
  have hki : k ≤ i + 1 := by
    by_contra hcon
    exact absurd (hinc (i + 1) k (by omega) (by omega) hk1) (not_lt.2 hb2)
  have hne : ((x_axis (i + 1) : α) - (x_axis i : α)) ≠ 0 := by
    have : x_axis i < x_axis (i + 1) := hinc i (i + 1) hi0 (by omega) (by omega)
    have hq : x_axis (i + 1) - x_axis i ≠ 0 := sub_ne_zero.2 (ne_of_gt this)
    exact_mod_cast hq
  rcases eq_or_lt_of_le hik with he | hlt
  · subst he
    simp
  · have he : k = i + 1 := by omega
    subst he
    rw [div_mul_cancel₀ _ hne]
    simp



/-- C15 : for every index `k` of `0..99`, `get_mturn_interp(z_axis[k])` is
`pow(10, lmt_axis[k])`; for every `z` below the smallest tabulated redshift
`5.39517` it is `pow(10, 8.46618)` and for every `z` above the largest
tabulated redshift `29.9702` it is `pow(10, 5.80995)`; the call never fails.
It holds for every `pow`, `log`, `exp`, in exact arithmetic. -/
theorem get_mturn_interp_table {α : Type} [Field α] [CharZero α]
    (log exp : α → α) (pow : α → α → α) :
    (∀ k : Int, 0 ≤ k → k ≤ 99 →
      get_mturn_interp log exp pow (get_mturn_interp.z_axis k)
        = .ok (pow 10 (get_mturn_interp.lmt_axis k : α)))
    ∧ (∀ z : ℚ, z < 5.39517 →
      get_mturn_interp log exp pow z = .ok (pow 10 ((8.46618 : ℚ) : α)))
    ∧ (∀ z : ℚ, z > 29.9702 →
      get_mturn_interp log exp pow z = .ok (pow 10 ((5.80995 : ℚ) : α)))
    ∧ (∀ z : ℚ, ∃ v, get_mturn_interp log exp pow z = .ok v) := by
  have h10 : (10.0 : α) = 10 := by norm_num
  have hz0 : get_mturn_interp.z_axis 0 = 5.39517 := by decide!
  have hz99 : get_mturn_interp.z_axis (100 - 1) = 29.9702 := by decide!
  have hl0 : get_mturn_interp.lmt_axis 0 = 8.46618 := by decide!
  have hl99 : get_mturn_interp.lmt_axis (100 - 1) = 5.80995 := by decide!
  have h01 : get_mturn_interp.z_axis 0 < get_mturn_interp.z_axis (100 - 1) := by
    decide!
  have hbelow : ∀ z : ℚ, z < 5.39517 →
      get_mturn_interp log exp pow z = .ok (pow 10 ((8.46618 : ℚ) : α)) := by
    intro z hz
    have hi := Find_Index.eq_before_ascending get_mturn_interp.z_axis z 100 h01
      (by rw [hz0]; exact hz)
    simp only [get_mturn_interp,
      Interp_1D.eq_before log exp z get_mturn_interp.z_axis get_mturn_interp.lmt_axis
        100 0 0 1 hi, if_true, hl0, h10]
  have habove : ∀ z : ℚ, z > 29.9702 →
      get_mturn_interp log exp pow z = .ok (pow 10 ((5.80995 : ℚ) : α)) := by
    intro z hz
    have hi := Find_Index.eq_after_ascending get_mturn_interp.z_axis z 100 h01
      (by rw [hz99]; exact hz)
    simp only [get_mturn_interp,
      Interp_1D.eq_after log exp z get_mturn_interp.z_axis get_mturn_interp.lmt_axis
        100 0 0 1 (by norm_num) hi, if_true, hl99, h10]
  refine ⟨?_, hbelow, habove, ?_⟩
  · intro k hk0 hk1
    simp only [get_mturn_interp,
      Interp_1D.at_node_ascending log exp get_mturn_interp.z_axis
        get_mturn_interp.lmt_axis 100 1 k (by norm_num) (by norm_num)
        get_mturn_interp.z_axis_strict hk0 (by omega), h10]
  · intro z
    by_cases hlo : z < 5.39517
    · exact ⟨_, hbelow z hlo⟩
    · by_cases hhi : z > 29.9702
      · exact ⟨_, habove z hhi⟩
      · obtain ⟨i, hi, hi0, hi2⟩ :=
          Find_Index.in_range_index get_mturn_interp.z_axis z 100 (by norm_num)
            (by norm_num)
            (Or.inl ⟨h01, by rw [hz0]; exact not_lt.1 hlo,
              by rw [hz99]; exact not_lt.1 hhi⟩)
        simp only [get_mturn_interp,
          Interp_1D.eq_linear log exp z get_mturn_interp.z_axis
            get_mturn_interp.lmt_axis 100 1 i hi (by omega) (by omega)]
        exact ⟨_, rfl⟩

/-- C15, witness : with the real power, at the tabulated redshift
`z_axis[17] = 9.61512` the turnover mass is `10 ^ 7.15769`, and at `z = 3`,
below the table, it is `10 ^ 8.46618`. -/
theorem get_mturn_interp_table_witness :
    get_mturn_interp Real.log Real.exp (fun a b : ℝ => a ^ b) 9.61512
      = .ok ((10 : ℝ) ^ (((7.15769 : ℚ) : ℝ)))
    ∧ get_mturn_interp Real.log Real.exp (fun a b : ℝ => a ^ b) 3
      = .ok ((10 : ℝ) ^ (((8.46618 : ℚ) : ℝ))) := by
  have hz : get_mturn_interp.z_axis 17 = 9.61512 := by decide!
  have hl : get_mturn_interp.lmt_axis 17 = 7.15769 := by decide!
  have h := (get_mturn_interp_table Real.log Real.exp (fun a b : ℝ => a ^ b)).1 17
    (by norm_num) (by norm_num)
  rw [hz, hl] at h
  exact ⟨h, (get_mturn_interp_table Real.log Real.exp (fun a b : ℝ => a ^ b)).2.1 3
    (by norm_num)⟩

/-! ## `Find_Index` : termination -/


/-- Once `Find_Index` has returned an index that is not a sentinel,
`Interp_1D` returns a value, whatever the flags. -/
theorem Interp_1D.ok_of_index {α : Type} [DivisionRing α] (log exp : α → α) (x : ℚ)
    (x_axis y_axis : Int → ℚ) (nx Use_LogX Use_LogY Overflow_Handle i : Int)
    (hi : Find_Index x_axis x nx = .ok i) (h1 : i ≠ -1) (h2 : i ≠ nx) :
    ∃ v, Interp_1D log exp x x_axis y_axis nx Use_LogX Use_LogY Overflow_Handle
      = .ok v := by
  simp only [Interp_1D, hi, if_neg h1, if_neg h2]
  exact ⟨_, rfl⟩

/-- With a single element and the query equal to it, `id1 = id3 = 0` never
changes and the loop ends in `exit(1)` when `count` passes 100. -/
theorem Find_Index.loop_single (x_axis : Int → ℚ) (fuel : Nat) :
    ∀ count : Int, 0 ≤ count →
      Find_Index.loop x_axis (x_axis 0) true fuel 0 0 count = .error .Exit := by
  induction fuel with
  | zero => intro count _; rfl
  | succ fuel ih =>
    intro count hc
    have h0 : cround (((wrap32 (0 + 0) : Int) : ℚ) / 2.0) = 0 := by decide!
    have hs : decide ((0 : Int) = 0 + 1) = false := by decide
    simp only [Find_Index.loop, h0, hs, lt_irrefl, if_false, Bool.not_true,
      Bool.false_eq_true, ↓reduceIte]
    split_ifs
    · rfl
    · exact ih (count + 1) (by omega)

/-- Termination while the sum `id1 + id3` stays inside 32 bits: for every axis
of length `nx` with `2 <= nx <= 2^30 + 1`, monotonic or not, and every query
`x`: `Find_Index` returns, and its value is `-1`, `nx` or an index of
`[0, nx - 2]`; with `id3 <= 2^30` the midpoint `id2` lies strictly between
`id1` and `id3` while the gap is at least 2, so the gap shrinks; the search
loop started at `(0, nx - 1)` finishes within `k + 1` iterations for every `k`
with `nx - 1 <= 2^k` (in particular within 31, `k = 30`), with the result it
has under the cap of the source, so `exit(1)` is not reached; consequently
`Interp_1D` returns a value on every in-range query.  For `nx = 1` the cap is
reached exactly when `x` is the single element. -/
theorem Find_Index_terminates (x_axis : Int → ℚ) (x : ℚ) (nx : Int)
    (hn : 2 ≤ nx) (hint : nx ≤ 1073741825) :
    (∃ r, Find_Index x_axis x nx = .ok r
      ∧ (r = -1 ∨ r = nx ∨ (0 ≤ r ∧ r ≤ nx - 2)))
    ∧ (∀ id1 id3 : Int, 0 ≤ id1 → id1 + 2 ≤ id3 → id3 ≤ 1073741824 →
      id1 < cround (((wrap32 (id1 + id3) : Int) : ℚ) / 2.0)
      ∧ cround (((wrap32 (id1 + id3) : Int) : ℚ) / 2.0) < id3)
    ∧ (∀ (reversed : Bool) (k : Nat), nx - 1 ≤ 2 ^ k → k ≤ 31 →
      ∃ i, Find_Index.loop x_axis x reversed (k + 1) 0 (nx - 1) 0 = .ok i
        ∧ Find_Index.loop x_axis x reversed 101 0 (nx - 1) 0 = .ok i
        ∧ 0 ≤ i ∧ i ≤ nx - 2)
    ∧ nx - 1 ≤ 2 ^ 30
    ∧ (∀ (α : Type) [DivisionRing α] (log exp : α → α) (y_axis : Int → ℚ)
        (Use_LogX Use_LogY Overflow_Handle : Int),
      ((x_axis 0 < x_axis (nx - 1) ∧ x_axis 0 ≤ x ∧ x ≤ x_axis (nx - 1))
        ∨ (¬ x_axis 0 < x_axis (nx - 1) ∧ x_axis (nx - 1) ≤ x ∧ x ≤ x_axis 0)) →
      ∃ v, Interp_1D log exp x x_axis y_axis nx Use_LogX Use_LogY Overflow_Handle
        = .ok v)
    ∧ (∀ (a : Int → ℚ) (q : ℚ),
      (q = a 0 → Find_Index a q 1 = .error .Exit)
      ∧ (q ≠ a 0 → ∃ r, Find_Index a q 1 = .ok r)) := by
  refine ⟨?_, ?_, ?_, by omega, ?_, ?_⟩
  · by_cases h01 : x_axis 0 < x_axis (nx - 1)
    · by_cases hb : x < x_axis 0
      · exact ⟨-1, Find_Index.eq_before_ascending x_axis x nx h01 hb, Or.inl rfl⟩
      · by_cases ha : x > x_axis (nx - 1)
        · exact ⟨nx, Find_Index.eq_after_ascending x_axis x nx h01 ha,
            Or.inr (Or.inl rfl)⟩
        · obtain ⟨i, hi, h0, h2⟩ := Find_Index.in_range_index x_axis x nx hn hint
            (Or.inl ⟨h01, not_lt.1 hb, not_lt.1 ha⟩)
          exact ⟨i, hi, Or.inr (Or.inr ⟨h0, h2⟩)⟩
    · by_cases hb : x > x_axis 0
      · exact ⟨-1, Find_Index.eq_before_descending x_axis x nx h01 hb, Or.inl rfl⟩
      · by_cases ha : x < x_axis (nx - 1)
        · exact ⟨nx, Find_Index.eq_after_descending x_axis x nx h01 ha,
            Or.inr (Or.inl rfl)⟩
        · obtain ⟨i, hi, h0, h2⟩ := Find_Index.in_range_index x_axis x nx hn hint
            (Or.inr ⟨h01, not_lt.1 ha, not_lt.1 hb⟩)
          exact ⟨i, hi, Or.inr (Or.inr ⟨h0, h2⟩)⟩
  · intro id1 id3 h0 hgap hbd
    rw [wrap32_eq (id1 + id3) (by omega) (by omega)]
    obtain ⟨hb1, hb2⟩ := cround_half_bounds (id1 + id3) (by omega)
    constructor <;> omega
  · intro reversed k hk hk31
    obtain ⟨i, hi, hi0, hi3, _, _⟩ :=
      Find_Index.loop_invariant x_axis x reversed (fun _ => True) (fun _ => True)
        (fun _ _ => by split_ifs <;> trivial) (fun _ _ => by split_ifs <;> trivial)
        k (k + 1) 0 (nx - 1) 0 le_rfl (by omega) (by omega) (by omega) le_rfl
        (by omega) (by omega) trivial trivial
    exact ⟨i, hi,
      Find_Index.loop_fuel_mono x_axis x reversed (k + 1) 101 0 (nx - 1) 0 i
        (by omega) hi, hi0, by omega⟩
  · intro α _ log exp y_axis Use_LogX Use_LogY Overflow_Handle hx
    obtain ⟨i, hi, h0, h2⟩ := Find_Index.in_range_index x_axis x nx hn hint hx
    exact Interp_1D.ok_of_index log exp x x_axis y_axis nx Use_LogX Use_LogY
      Overflow_Handle i hi (by omega) (by omega)
  · intro a q
    constructor
    · intro hq
      subst hq
      have hl := Find_Index.loop_single a 101 0 le_rfl
      simp only [Find_Index, sub_self, lt_irrefl, if_false, Bool.not_true,
        Bool.false_eq_true, gt_iff_lt, ↓reduceIte]
      exact hl
    · intro hq
      rcases lt_or_gt_of_ne hq with h | h
      · refine ⟨1, ?_⟩
        simp only [Find_Index, sub_self, lt_irrefl, if_false, Bool.not_true,
          Bool.false_eq_true, gt_iff_lt, if_pos h, if_neg (not_lt.2 (le_of_lt h)),
          ↓reduceIte]
      · refine ⟨-1, ?_⟩
        simp only [Find_Index, sub_self, lt_irrefl, if_false, Bool.not_true,
          Bool.false_eq_true, gt_iff_lt, if_pos h, if_neg (not_lt.2 (le_of_lt h)),
          ↓reduceIte]

/-- Termination on the axis `{0, 5, 2, 9}`, which is not monotonic, at the
query `3` : the call returns, with a sentinel or an index of `[0, 2]`. -/
theorem Find_Index_terminates_witness :
    ∃ r, Find_Index zigzagAxis 3 4 = .ok r
      ∧ (r = -1 ∨ r = 4 ∨ (0 ≤ r ∧ r ≤ 4 - 2)) :=
  (Find_Index_terminates zigzagAxis 3 4 (by norm_num) (by norm_num)).1

/-! ## `History_box_Interp` : the value on a bracket -/


/-- The scan over `idx = 1..n` started with `bingo = 0` ends with `bingo = 0`
when no `idx` matches, and otherwise with the greatest `idx` that matches. -/
theorem History_box_Interp.foldl_step_range (H : Int → ℚ) (z : ℚ) (T : Int) (n : Nat) :
    ((List.range' 1 n).foldl (History_box_Interp.step H z T) 0 = 0
      ∧ ∀ i : Nat, 1 ≤ i → i ≤ n →
        ¬ (H (History_box_Interp.zid1 T i + 5) ≤ z
          ∧ z < H (History_box_Interp.zid1 T i)))
    ∨ (∃ j : Nat, (List.range' 1 n).foldl (History_box_Interp.step H z T) 0 = (j : Int)
      ∧ 1 ≤ j ∧ j ≤ n
      ∧ (H (History_box_Interp.zid1 T j + 5) ≤ z ∧ z < H (History_box_Interp.zid1 T j))
      ∧ ∀ i : Nat, j < i → i ≤ n →
        ¬ (H (History_box_Interp.zid1 T i + 5) ≤ z
          ∧ z < H (History_box_Interp.zid1 T i))) := by
  induction n with
  | zero =>
    left
    refine ⟨rfl, fun i h1 h0 => ?_⟩
    omega
  | succ n ih =>
    rw [List.range'_1_concat, List.foldl_append, List.foldl_cons, List.foldl_nil]
    by_cases hB : H (History_box_Interp.zid1 T ((1 + n : Nat) : Int) + 5) ≤ z
        ∧ z < H (History_box_Interp.zid1 T ((1 + n : Nat) : Int))
    · right
      refine ⟨1 + n, ?_, by omega, by omega, hB, fun i h1 h2 => ?_⟩
      · simp only [History_box_Interp.step]
        rw [if_pos hB]
      · omega
    · have hstep : History_box_Interp.step H z T
          ((List.range' 1 n).foldl (History_box_Interp.step H z T) 0) (1 + n)
          = (List.range' 1 n).foldl (History_box_Interp.step H z T) 0 := by
        simp only [History_box_Interp.step]
        rw [if_neg hB]
      rw [hstep]
      rcases ih with ⟨h0, hno⟩ | ⟨j, hj, hj1, hjn, hBj, hlast⟩
      · left
        refine ⟨h0, fun i h1 hi => ?_⟩
        rcases Nat.lt_or_ge i (n + 1) with hlt | hge
        · exact hno i h1 (by omega)
        · have : i = 1 + n := by omega
          subst this
          exact hB
      · right
        refine ⟨j, hj, hj1, by omega, hBj, fun i h1 hi => ?_⟩
        rcases Nat.lt_or_ge i (n + 1) with hlt | hge
        · exact hlast i h1 (by omega)
        · have : i = 1 + n := by omega
          subst this
          exact hB

/-- When some `idx` of `1..ArchiveSize-1` matches, `bingo` is the greatest
one. -/
theorem History_box_Interp.bingo_greatest (H : Int → ℚ) (z : ℚ) (T : Int)
    (hex : ∃ idx : Int, 1 ≤ idx ∧ idx ≤ cround (H 0) - 1
      ∧ H (History_box_Interp.zid1 T idx + 5) ≤ z
      ∧ z < H (History_box_Interp.zid1 T idx)) :
    1 ≤ History_box_Interp.bingo H z T
    ∧ History_box_Interp.bingo H z T ≤ cround (H 0) - 1
    ∧ H (History_box_Interp.zid1 T (History_box_Interp.bingo H z T) + 5) ≤ z
    ∧ z < H (History_box_Interp.zid1 T (History_box_Interp.bingo H z T))
    ∧ ∀ idx : Int, 1 ≤ idx → idx ≤ cround (H 0) - 1 →
      H (History_box_Interp.zid1 T idx + 5) ≤ z →
      z < H (History_box_Interp.zid1 T idx) →
      idx ≤ History_box_Interp.bingo H z T := by
  obtain ⟨idx0, h1, h2, h3, h4⟩ := hex
  have hcast : ∀ i : Int, 0 ≤ i → ((i.toNat : Nat) : Int) = i :=
    fun i hi => Int.toNat_of_nonneg hi
  rcases History_box_Interp.foldl_step_range H z T (cround (H 0) - 1).toNat with
    ⟨_, hno⟩ | ⟨j, hj, hj1, hjn, hBj, hlast⟩
  · exfalso
    apply hno idx0.toNat (by omega) (by omega)
    rw [hcast idx0 (by omega)]
    exact ⟨h3, h4⟩
  · have hb : History_box_Interp.bingo H z T = (j : Int) := hj
    rw [hb]
    refine ⟨by omega, by omega, hBj.1, hBj.2, fun idx hi1 hi2 hi3 hi4 => ?_⟩
    by_contra hcon
    apply hlast idx.toNat (by omega) (by omega)
    rw [hcast idx (by omega)]
    exact ⟨hi3, hi4⟩



theorem History_box_Interp.eq_kind1 (b : TsBox) (z : ℚ) (g : Int)
    (hg : History_box_Interp.bingo b.History_box z 1 = g) (h0 : g ≠ 0) :
    History_box_Interp b z 1
      = .ok (b.History_box (5 * g - 3)
          + (b.History_box (5 * g + 2) - b.History_box (5 * g - 3))
            * (z - b.History_box (5 * g))
            / (b.History_box (5 * g + 5) - b.History_box (5 * g))) := by
  have e1 : (g - 1) * 5 + 2 = 5 * g - 3 := by ring
  have e2 : (g - 1) * 5 + 2 + 5 = 5 * g + 2 := by ring
  have e3 : g * 5 = 5 * g := by ring
  have e4 : g * 5 + 5 = 5 * g + 5 := by ring
  simp only [History_box_Interp, hg, if_neg h0, e1, e2, e3, e4, ↓reduceIte]
  norm_num
  ring_nf

theorem History_box_Interp.eq_kind2 (b : TsBox) (z : ℚ) (g : Int)
    (hg : History_box_Interp.bingo b.History_box z 2 = g) (h0 : g ≠ 0) :
    History_box_Interp b z 2
      = .ok (b.History_box (5 * g - 1)
          + (b.History_box (5 * g + 4) - b.History_box (5 * g - 1))
            * (z - b.History_box (5 * g))
            / (b.History_box (5 * g + 5) - b.History_box (5 * g))) := by
  have e1 : (g - 1) * 5 + 4 = 5 * g - 1 := by ring
  have e2 : (g - 1) * 5 + 4 + 5 = 5 * g + 4 := by ring
  have e3 : g * 5 = 5 * g := by ring
  have e4 : g * 5 + 5 = 5 * g + 5 := by ring
  simp only [History_box_Interp, hg, if_neg h0, e1, e2, e3, e4, ↓reduceIte]
  norm_num
  ring_nf

theorem History_box_Interp.eq_kind3 (b : TsBox) (z : ℚ) (g : Int)
    (hg : History_box_Interp.bingo b.History_box z 3 = g) (h0 : g ≠ 0) :
    History_box_Interp b z 3
      = .ok (b.History_box (5 * g - 2)
          + (b.History_box (5 * g + 3) - b.History_box (5 * g - 2))
            * (z - b.History_box (5 * g - 4))
            / (b.History_box (5 * g + 1) - b.History_box (5 * g - 4))) := by
  have e1 : (g - 1) * 5 + 1 + 2 = 5 * g - 2 := by ring
  have e2 : (g - 1) * 5 + 1 + 2 + 5 = 5 * g + 3 := by ring
  have e3 : (g - 1) * 5 + 1 = 5 * g - 4 := by ring
  have e4 : (g - 1) * 5 + 1 + 5 = 5 * g + 1 := by ring
  simp only [History_box_Interp, hg, if_neg h0, e1, e2, e3, e4, ↓reduceIte]
  norm_num
  ring_nf


/-- C16 : for every archive, monotonic or not, and every `z` for which at
least one `idx` of `1..ArchiveSize-1` brackets `z` under the convention of the
kind (rate kinds: `History_box[5*idx+5] <= z < History_box[5*idx]`;
temperature: `History_box[5*idx+1] <= z < History_box[5*idx-4]`),
`History_box_Interp` returns `f1 + (f2 - f1) * (z - z1) / (z2 - z1)` computed
on the greatest such `idx`, `g` : `z1`, `z2` are the two redshift slots of the
bracket `g`, and `f1`, `f2` the slots `5g-3`, `5g+2` (kind 1), `5g-1`, `5g+4`
(kind 2) or `5g-2`, `5g+3` (kind 3); there is no log transform. -/
theorem History_box_Interp_interpolates_on_greatest_bracket :
    (∀ (b : TsBox) (z : ℚ),
      (∃ idx : Int, 1 ≤ idx ∧ idx ≤ cround (b.History_box 0) - 1
        ∧ b.History_box (5 * idx + 5) ≤ z ∧ z < b.History_box (5 * idx)) →
      ∃ g : Int, 1 ≤ g ∧ g ≤ cround (b.History_box 0) - 1
        ∧ b.History_box (5 * g + 5) ≤ z ∧ z < b.History_box (5 * g)
        ∧ (∀ idx : Int, 1 ≤ idx → idx ≤ cround (b.History_box 0) - 1 →
          b.History_box (5 * idx + 5) ≤ z → z < b.History_box (5 * idx) → idx ≤ g)
        ∧ History_box_Interp b z 1
          = .ok (b.History_box (5 * g - 3)
              + (b.History_box (5 * g + 2) - b.History_box (5 * g - 3))
                * (z - b.History_box (5 * g))
                / (b.History_box (5 * g + 5) - b.History_box (5 * g)))
        ∧ History_box_Interp b z 2
          = .ok (b.History_box (5 * g - 1)
              + (b.History_box (5 * g + 4) - b.History_box (5 * g - 1))
                * (z - b.History_box (5 * g))
                / (b.History_box (5 * g + 5) - b.History_box (5 * g))))
    ∧ (∀ (b : TsBox) (z : ℚ),
      (∃ idx : Int, 1 ≤ idx ∧ idx ≤ cround (b.History_box 0) - 1
        ∧ b.History_box (5 * idx + 1) ≤ z ∧ z < b.History_box (5 * idx - 4)) →
      ∃ g : Int, 1 ≤ g ∧ g ≤ cround (b.History_box 0) - 1
        ∧ b.History_box (5 * g + 1) ≤ z ∧ z < b.History_box (5 * g - 4)
        ∧ (∀ idx : Int, 1 ≤ idx → idx ≤ cround (b.History_box 0) - 1 →
          b.History_box (5 * idx + 1) ≤ z → z < b.History_box (5 * idx - 4) → idx ≤ g)
        ∧ History_box_Interp b z 3
          = .ok (b.History_box (5 * g - 2)
              + (b.History_box (5 * g + 3) - b.History_box (5 * g - 2))
                * (z - b.History_box (5 * g - 4))
                / (b.History_box (5 * g + 1) - b.History_box (5 * g - 4)))) := by
  have hr1 : ∀ i : Int, History_box_Interp.zid1 1 i = 5 * i := by
    intro i; simp [History_box_Interp.zid1, mul_comm]
  have hr2 : ∀ i : Int, History_box_Interp.zid1 2 i = 5 * i := by
    intro i; simp [History_box_Interp.zid1, mul_comm]
  have hr3 : ∀ i : Int, History_box_Interp.zid1 3 i = 5 * i - 4 := by
    intro i; simp [History_box_Interp.zid1]; ring
  have hr3' : ∀ i : Int, 5 * i - 4 + 5 = 5 * i + 1 := by intro i; ring
  constructor
  · rintro b z ⟨idx, h1, h2, h3, h4⟩
    obtain ⟨g1a, g1b, g1c, g1d, g1e⟩ :=
      History_box_Interp.bingo_greatest b.History_box z 1
        ⟨idx, h1, h2, by rw [hr1]; exact h3, by rw [hr1]; exact h4⟩
    obtain ⟨g2a, g2b, g2c, g2d, g2e⟩ :=
      History_box_Interp.bingo_greatest b.History_box z 2
        ⟨idx, h1, h2, by rw [hr2]; exact h3, by rw [hr2]; exact h4⟩
    rw [hr1] at g1c g1d
    rw [hr2] at g2c g2d
    have h12 : History_box_Interp.bingo b.History_box z 2
        = History_box_Interp.bingo b.History_box z 1 := by
      apply le_antisymm
      · exact g1e _ g2a g2b (by rw [hr1]; exact g2c) (by rw [hr1]; exact g2d)
      · exact g2e _ g1a g1b (by rw [hr2]; exact g1c) (by rw [hr2]; exact g1d)
    refine ⟨History_box_Interp.bingo b.History_box z 1, g1a, g1b, g1c, g1d,
      fun i hi1 hi2 hi3 hi4 => g1e i hi1 hi2 (by rw [hr1]; exact hi3)
        (by rw [hr1]; exact hi4), ?_, ?_⟩
    · exact History_box_Interp.eq_kind1 b z _ rfl (by omega)
    · exact History_box_Interp.eq_kind2 b z _ h12 (by omega)
  · rintro b z ⟨idx, h1, h2, h3, h4⟩
    obtain ⟨ga, gb, gc, gd, ge⟩ :=
      History_box_Interp.bingo_greatest b.History_box z 3
        ⟨idx, h1, h2, by rw [hr3, hr3']; exact h3, by rw [hr3]; exact h4⟩
    rw [hr3] at gc gd
    rw [hr3'] at gc
    refine ⟨History_box_Interp.bingo b.History_box z 3, ga, gb, gc, gd,
      fun i hi1 hi2 hi3 hi4 => ge i hi1 hi2 (by rw [hr3, hr3']; exact hi3)
        (by rw [hr3]; exact hi4), ?_⟩
    exact History_box_Interp.eq_kind3 b z _ rfl (by omega)


/-- C16, witness : in the four-record archive with rate redshifts 30, 10, 40,
20 the query `z = 25` lies in the brackets 1 and 3; the value returned is the
one of bracket 3, `0 + (4 - 0) * (25 - 40) / (20 - 40) = 3` (bracket 1 would
give 125). -/
theorem History_box_Interp_interpolates_on_greatest_bracket_witness :
    History_box_Interp overlapBox 25 1 = .ok 3 := by
  have hA : cround (overlapBox.History_box 0) = 4 := by decide!
  obtain ⟨g, hg1, hg2, _, _, hmax, hv, _⟩ :=
    History_box_Interp_interpolates_on_greatest_bracket.1 overlapBox 25
      ⟨1, le_rfl, by rw [hA]; norm_num, by decide!, by decide!⟩
  have h3 : (3 : Int) ≤ g := hmax 3 (by norm_num) (by rw [hA]; norm_num)
    (by decide!) (by decide!)
  have hg : g = 3 := by rw [hA] at hg2; omega
  subst hg
  rw [hv]
  decide!

/-! ## `History_box_Interp` : a strictly decreasing archive -/


/-- The rate brackets `1..m` cover `[History_box[5*(m+1)], History_box[5])`,
whatever the order of the redshifts in between. -/
theorem RateCovered.of_between (H : Int → ℚ) (z : ℚ) (m : Nat) :
    1 ≤ m → z < H 5 → H (5 * ((m : Int) + 1)) ≤ z →
    ∃ idx : Int, 1 ≤ idx ∧ idx ≤ m ∧ H (5 * idx + 5) ≤ z ∧ z < H (5 * idx) := by
  induction m with
  | zero => intro h; omega
  | succ m ih =>
    intro _ hz5 hlo
    by_cases hm : m = 0
    · subst hm
      refine ⟨1, le_rfl, by norm_num, ?_, by simpa using hz5⟩
      simpa using hlo
    · by_cases hmid : H (5 * ((m : Int) + 1)) ≤ z
      · obtain ⟨idx, h1, h2, h3, h4⟩ := ih (by omega) hz5 hmid
        exact ⟨idx, h1, by push_cast; omega, h3, h4⟩
      · refine ⟨(m : Int) + 1, by omega, by push_cast; omega, ?_, not_le.1 hmid⟩
        have e : 5 * (((m + 1 : Nat) : Int) + 1) = 5 * ((m : Int) + 1) + 5 := by
          push_cast; ring
        rw [e] at hlo
        exact hlo

/-- C18 : for every archive with `ArchiveSize = N >= 2` whose rate redshifts
`History_box[5] > History_box[10] > ... > History_box[5N]` are strictly
decreasing, a rate-kind query (`Type` 1 or 2) returns a value if and only if
`History_box[5N] <= z < History_box[5]`, and throws `ValueError` otherwise;
on that interval exactly one bracket matches; the archive minimum
`History_box[5N]` is accepted and gives the sample of the last record exactly
(slot `5N-3` for kind 1, `5N-1` for kind 2); the archive maximum
`History_box[5]` is rejected with `ValueError`. -/
theorem History_box_Interp_rate_coverage_decreasing (b : TsBox) (z : ℚ) (T : Int)
    (hT : T = 1 ∨ T = 2) (hN : 2 ≤ cround (b.History_box 0))
    (hdec : ∀ i j : Int, 1 ≤ i → i < j → j ≤ cround (b.History_box 0) →
      b.History_box (5 * j) < b.History_box (5 * i)) :
    ((∃ v, History_box_Interp b z T = .ok v) ↔
      (b.History_box (5 * cround (b.History_box 0)) ≤ z ∧ z < b.History_box 5))
    ∧ (¬ (b.History_box (5 * cround (b.History_box 0)) ≤ z ∧ z < b.History_box 5) →
      History_box_Interp b z T = .error .ValueError)
    ∧ ((b.History_box (5 * cround (b.History_box 0)) ≤ z ∧ z < b.History_box 5) →
      ∃! idx : Int, 1 ≤ idx ∧ idx ≤ cround (b.History_box 0) - 1
        ∧ b.History_box (5 * idx + 5) ≤ z ∧ z < b.History_box (5 * idx))
    ∧ History_box_Interp b (b.History_box (5 * cround (b.History_box 0))) 1
      = .ok (b.History_box (5 * cround (b.History_box 0) - 3))
    ∧ History_box_Interp b (b.History_box (5 * cround (b.History_box 0))) 2
      = .ok (b.History_box (5 * cround (b.History_box 0) - 1))
    ∧ History_box_Interp b (b.History_box 5) T = .error .ValueError := by
  set N := cround (b.History_box 0) with hNdef
  -- a bracket lies inside the archive interval
  have hin : ∀ (w : ℚ) (idx : Int), 1 ≤ idx → idx ≤ N - 1 →
      b.History_box (5 * idx + 5) ≤ w → w < b.History_box (5 * idx) →
      b.History_box (5 * N) ≤ w ∧ w < b.History_box 5 := by
    intro w idx h1 h2 h3 h4
    constructor
    · rcases eq_or_lt_of_le (show idx + 1 ≤ N by omega) with he | hlt
      · rw [← he, show 5 * (idx + 1) = 5 * idx + 5 by ring]
        exact h3
      · have := hdec (idx + 1) N (by omega) hlt le_rfl
        rw [show 5 * (idx + 1) = 5 * idx + 5 by ring] at this
        exact le_trans (le_of_lt this) h3
    · rcases eq_or_lt_of_le h1 with he | hlt
      · rw [← he] at h4
        simpa using h4
      · have := hdec 1 idx le_rfl hlt (by omega)
        exact lt_trans h4 (by simpa using this)
  -- the archive interval is covered
  have hcov : ∀ w : ℚ, b.History_box (5 * N) ≤ w → w < b.History_box 5 →
      RateCovered b.History_box w := by
    intro w hlo hhi
    have hcast : (((N - 1).toNat : Nat) : Int) = N - 1 := Int.toNat_of_nonneg (by omega)
    obtain ⟨idx, h1, h2, h3, h4⟩ :=
      RateCovered.of_between b.History_box w (N - 1).toNat (by omega) hhi
        (by rw [hcast, show N - 1 + 1 = N by ring]; exact hlo)
    exact ⟨idx, h1, by rw [← hNdef]; omega, h3, h4⟩
  have hrej : ∀ w : ℚ, ¬ (b.History_box (5 * N) ≤ w ∧ w < b.History_box 5) →
      History_box_Interp b w T = .error .ValueError := by
    intro w hw
    apply History_box_Interp.rate_no_bracket b w T hT
    rintro ⟨idx, h1, h2, h3, h4⟩
    exact hw (hin w idx h1 h2 h3 h4)
  have hlast : 1 ≤ N - 1 ∧ N - 1 ≤ N - 1
      ∧ b.History_box (5 * (N - 1) + 5) ≤ b.History_box (5 * N)
      ∧ b.History_box (5 * N) < b.History_box (5 * (N - 1)) := by
    refine ⟨by omega, le_rfl, ?_, hdec (N - 1) N (by omega) (by omega) le_rfl⟩
    rw [show 5 * (N - 1) + 5 = 5 * N by ring]
  have hne : b.History_box (5 * (N - 1) + 5) - b.History_box (5 * (N - 1)) ≠ 0 := by
    rw [show 5 * (N - 1) + 5 = 5 * N by ring]
    exact sub_ne_zero.2 (ne_of_lt hlast.2.2.2)
  have hr1 : ∀ i : Int, History_box_Interp.zid1 1 i = 5 * i := by
    intro i; simp [History_box_Interp.zid1, mul_comm]
  have hr2 : ∀ i : Int, History_box_Interp.zid1 2 i = 5 * i := by
    intro i; simp [History_box_Interp.zid1, mul_comm]
  refine ⟨⟨?_, ?_⟩, hrej z, ?_, ?_, ?_, ?_⟩
  · rintro ⟨v, hv⟩
    by_contra hcon
    rw [hrej z hcon] at hv
    exact absurd hv (by simp)
  · rintro ⟨hlo, hhi⟩
    exact History_box_Interp.rate_ok_of_covered b z T hT (hcov z hlo hhi)
  · rintro ⟨hlo, hhi⟩
    obtain ⟨idx, h1, h2, h3, h4⟩ := hcov z hlo hhi
    refine ⟨idx, ⟨h1, h2, h3, h4⟩, ?_⟩
    rintro j ⟨j1, j2, j3, j4⟩
    by_contra hne'
    rcases lt_or_gt_of_ne hne' with hlt | hgt
    · -- j < idx : z < H[5 idx] <= H[5 j + 5] <= z
      have hle : b.History_box (5 * idx) ≤ b.History_box (5 * j + 5) := by
        rcases eq_or_lt_of_le (show j + 1 ≤ idx by omega) with he | hl
        · rw [← he, show 5 * (j + 1) = 5 * j + 5 by ring]
        · have := hdec (j + 1) idx (by omega) hl (by omega)
          rw [show 5 * (j + 1) = 5 * j + 5 by ring] at this
          exact le_of_lt this
      exact absurd (lt_of_lt_of_le h4 (le_trans hle j3)) (lt_irrefl _)
    · have hle : b.History_box (5 * j) ≤ b.History_box (5 * idx + 5) := by
        rcases eq_or_lt_of_le (show idx + 1 ≤ j by omega) with he | hl
        · rw [← he, show 5 * (idx + 1) = 5 * idx + 5 by ring]
        · have := hdec (idx + 1) j (by omega) hl (by omega)
          rw [show 5 * (idx + 1) = 5 * idx + 5 by ring] at this
          exact le_of_lt this
      exact absurd (lt_of_lt_of_le j4 (le_trans hle h3)) (lt_irrefl _)
  · obtain ⟨ga, gb, gc, gd, ge⟩ :=
      History_box_Interp.bingo_greatest b.History_box (b.History_box (5 * N)) 1
        ⟨N - 1, hlast.1, hlast.2.1, by rw [hr1]; exact hlast.2.2.1,
          by rw [hr1]; exact hlast.2.2.2⟩
    have hg : History_box_Interp.bingo b.History_box (b.History_box (5 * N)) 1
        = N - 1 := by
      apply le_antisymm gb
      exact ge (N - 1) hlast.1 hlast.2.1 (by rw [hr1]; exact hlast.2.2.1)
        (by rw [hr1]; exact hlast.2.2.2)
    rw [History_box_Interp.eq_kind1 b _ (N - 1) hg (by omega)]
    rw [show 5 * (N - 1) + 5 = 5 * N by ring] at hne
    rw [show 5 * (N - 1) + 5 = 5 * N by ring, show 5 * (N - 1) + 2 = 5 * N - 3 by ring,
      mul_div_assoc, div_self hne]
    congr 1
    ring
  · obtain ⟨ga, gb, gc, gd, ge⟩ :=
      History_box_Interp.bingo_greatest b.History_box (b.History_box (5 * N)) 2
        ⟨N - 1, hlast.1, hlast.2.1, by rw [hr2]; exact hlast.2.2.1,
          by rw [hr2]; exact hlast.2.2.2⟩
    have hg : History_box_Interp.bingo b.History_box (b.History_box (5 * N)) 2
        = N - 1 := by
      apply le_antisymm gb
      exact ge (N - 1) hlast.1 hlast.2.1 (by rw [hr2]; exact hlast.2.2.1)
        (by rw [hr2]; exact hlast.2.2.2)
    rw [History_box_Interp.eq_kind2 b _ (N - 1) hg (by omega)]
    rw [show 5 * (N - 1) + 5 = 5 * N by ring] at hne
    rw [show 5 * (N - 1) + 5 = 5 * N by ring, show 5 * (N - 1) + 4 = 5 * N - 1 by ring,
      mul_div_assoc, div_self hne]
    congr 1
    ring
  · exact hrej _ (fun h => lt_irrefl _ h.2)

/-- C18, witness : the three-record archive (rate redshifts 30, 20, 10): the
query at the archive minimum `z = 10` returns the sample of the last record,
`History_box[12] = 5`, and the query at the archive maximum `z = 30` throws. -/
theorem History_box_Interp_rate_coverage_decreasing_witness :
    History_box_Interp threeRecordBox 10 1 = .ok 5
    ∧ History_box_Interp threeRecordBox 30 1 = .error .ValueError := by
  have hA : cround (threeRecordBox.History_box 0) = 3 := by decide!
  have h := History_box_Interp_rate_coverage_decreasing threeRecordBox 25 1
    (Or.inl rfl) (by rw [hA]; norm_num)
    (fun i j hi hij hj => by
      rw [hA] at hj
      have hi' : i = 1 ∨ i = 2 := by omega
      have hj' : j = 2 ∨ j = 3 := by omega
      rcases hi' with rfl | rfl <;> rcases hj' with rfl | rfl <;>
        first | omega | decide!)
  obtain ⟨_, _, _, hmin, _, hmax⟩ := h
  rw [hA] at hmin
  have e15 : threeRecordBox.History_box (5 * 3) = 10 := by decide!
  have e12 : threeRecordBox.History_box (5 * 3 - 3) = 5 := by decide!
  have e5 : threeRecordBox.History_box 5 = 30 := by decide!
  rw [e15, e12] at hmin
  rw [e5] at hmax
  exact ⟨hmin, hmax⟩

/-! ## `Get_Radio_Temp_HMG_Astro` : the value of the integral -/


/-- When every lookup succeeds, the loop adds to `Radio_Temp` the rectangle
terms of the sample redshifts above `Radio_Zmin`. -/
theorem Get_Radio_Temp_HMG_Astro.loop_sum (pow : ℚ → ℚ → ℚ) (b : TsBox)
    (ap : AstroParams) (PA PM dz : ℚ) (n : Nat) :
    ∀ (Phi Phi_mini : Nat → ℚ) (z T : ℚ),
      (∀ k : Nat, k < n →
        History_box_Interp b (z + k * dz) 1 = .ok (Phi k)
        ∧ History_box_Interp b (z + k * dz) 2 = .ok (Phi_mini k)) →
      Get_Radio_Temp_HMG_Astro.loop pow b ap PA PM dz n z T
        = .ok (T + ∑ k in Finset.range n,
            if z + k * dz > ap.Radio_Zmin then
              (PA * Phi k * pow (1 + (z + k * dz)) (ap.X_RAY_SPEC_INDEX - ap.aR)
                + PM * Phi_mini k
                  * pow (1 + (z + k * dz)) (ap.X_RAY_SPEC_INDEX - ap.aR_mini)) * dz
            else 0) := by
  induction n with
  | zero =>
    intro Phi Phi_mini z T _
    simp [Get_Radio_Temp_HMG_Astro.loop]
  | succ n ih =>
    intro Phi Phi_mini z T h
    obtain ⟨h1, h2⟩ := h 0 (Nat.succ_pos n)
    simp only [Nat.cast_zero, zero_mul, add_zero] at h1 h2
    simp only [Get_Radio_Temp_HMG_Astro.loop, h1, h2]
    rw [ih (fun k => Phi (k + 1)) (fun k => Phi_mini (k + 1)) (z + dz) _
      (fun k hk => by
        have e : z + dz + (k : ℚ) * dz = z + ((k + 1 : Nat) : ℚ) * dz := by
          push_cast; ring
        rw [e]
        exact h (k + 1) (by omega))]
    rw [Finset.sum_range_succ']
    have e : ∀ k : Nat, z + dz + (k : ℚ) * dz = z + ((k + 1 : Nat) : ℚ) * dz := by
      intro k; push_cast; ring
    simp only [e, Nat.cast_zero, zero_mul, add_zero]
    congr 1
    split_ifs <;> ring

/-- C17 : when `zpp_max < History_box[5] - 0.01` and every archive lookup
succeeds (with values `Phi_ACG k`, `Phi_MCG k` at the sample `k`),
`Get_Radio_Temp_HMG_Astro` returns the 1000-sample rectangle sum: with
`dz = (History_box[5] - 0.01 - zpp_max) / 999` and `z_k = zpp_max + k * dz`,
the sum over `k = 0..999` with `z_k > Radio_Zmin` of
`(P_ACG * Phi_ACG k * pow(1 + z_k, X_RAY_SPEC_INDEX - aR)
  + P_MCG * Phi_MCG k * pow(1 + z_k, X_RAY_SPEC_INDEX - aR_mini)) * dz`,
where each prefactor is `113.6161 * fR * OMb * pow(hlittle, 2) * F_STAR
* pow(0.15 / 1.4276, aR) * pow(1 + redshift, 3 + aR)` at the current redshift
with the parameters of its population, or 0 when the population is disabled;
the samples with `z_k <= Radio_Zmin` add nothing. -/
theorem Get_Radio_Temp_HMG_Astro_rectangle_sum (pow : ℚ → ℚ → ℚ) (b : TsBox)
    (ap : AstroParams) (cp : CosmoParams) (fo : FlagOptions) (zpp_max redshift : ℚ)
    (Phi_ACG Phi_MCG : Nat → ℚ)
    (hlt : zpp_max < b.History_box 5 - 0.01)
    (hlook : ∀ k : Nat, k < 1000 →
      History_box_Interp b
          (zpp_max + k * ((b.History_box 5 - 0.01 - zpp_max) / 999)) 1
        = .ok (Phi_ACG k)
      ∧ History_box_Interp b
          (zpp_max + k * ((b.History_box 5 - 0.01 - zpp_max) / 999)) 2
        = .ok (Phi_MCG k)) :
    Get_Radio_Temp_HMG_Astro pow b ap cp fo zpp_max redshift
      = .ok (∑ k in Finset.range 1000,
          if zpp_max + k * ((b.History_box 5 - 0.01 - zpp_max) / 999) > ap.Radio_Zmin then
            ((if fo.USE_RADIO_ACG = true then
                  113.6161 * ap.fR * cp.OMb * pow cp.hlittle 2 * ap.F_STAR10
                    * pow (0.15 / 1.4276) ap.aR * pow (1 + redshift) (3 + ap.aR)
                else 0)
                * Phi_ACG k
                * pow (1 + (zpp_max + k * ((b.History_box 5 - 0.01 - zpp_max) / 999)))
                    (ap.X_RAY_SPEC_INDEX - ap.aR)
              + (if fo.USE_RADIO_MCG = true then
                  113.6161 * ap.fR_mini * cp.OMb * pow cp.hlittle 2 * ap.F_STAR7_MINI
                    * pow (0.15 / 1.4276) ap.aR_mini
                    * pow (1 + redshift) (3 + ap.aR_mini)
                else 0)
                * Phi_MCG k
                * pow (1 + (zpp_max + k * ((b.History_box 5 - 0.01 - zpp_max) / 999)))
                    (ap.X_RAY_SPEC_INDEX - ap.aR_mini))
              * ((b.History_box 5 - 0.01 - zpp_max) / 999)
          else 0) := by
  have hgt : ¬ zpp_max > b.History_box 5 - 0.01 := not_lt.2 (le_of_lt hlt)
  have h999 : (((1000 : Nat) : ℚ) - 1) = 999 := by norm_num
  simp only [Get_Radio_Temp_HMG_Astro, if_neg hgt, h999, astro_nu0]
  rw [Get_Radio_Temp_HMG_Astro.loop_sum pow b ap _ _ _ 1000 Phi_ACG Phi_MCG zpp_max _
    hlook]
  norm_num


/-- The 1000 sample redshifts of the call with `zpp_max = 12` on the
three-record archive lie in `[12, 29.99]`, inside the brackets `[10, 20)` and
`[20, 30)`. -/
theorem threeRecordBox_samples_covered (k : Nat) (hk : k < 1000) :
    RateCovered threeRecordBox.History_box
      (12 + k * ((threeRecordBox.History_box 5 - 0.01 - 12) / 999)) := by
  have hA : cround (threeRecordBox.History_box 0) = 3 := by decide!
  have h5 : threeRecordBox.History_box 5 = 30 := by decide!
  have h10 : threeRecordBox.History_box 10 = 20 := by decide!
  have h15 : threeRecordBox.History_box 15 = 10 := by decide!
  have hk0 : (0 : ℚ) ≤ (k : ℚ) := Nat.cast_nonneg k
  have hk1 : (k : ℚ) ≤ 999 := by
    have : k ≤ 999 := by omega
    exact_mod_cast this
  rw [h5]
  have hlo : (12 : ℚ) ≤ 12 + (k : ℚ) * ((30 - 0.01 - 12) / 999) := by
    have : (0 : ℚ) ≤ (k : ℚ) * ((30 - 0.01 - 12) / 999) :=
      mul_nonneg hk0 (by norm_num)
    linarith
  have hhi : 12 + (k : ℚ) * ((30 - 0.01 - 12) / 999) < 30 := by
    have : (k : ℚ) * ((30 - 0.01 - 12) / 999) ≤ 999 * ((30 - 0.01 - 12) / 999) :=
      mul_le_mul_of_nonneg_right hk1 (by norm_num)
    norm_num at this ⊢
    linarith
  by_cases h20 : 12 + (k : ℚ) * ((30 - 0.01 - 12) / 999) < 20
  · refine ⟨2, by norm_num, by rw [hA]; norm_num, ?_, ?_⟩
    · rw [show (5 * 2 + 5 : Int) = 15 by norm_num, h15]
      linarith
    · rw [show (5 * 2 : Int) = 10 by norm_num, h10]
      exact h20
  · refine ⟨1, le_rfl, by rw [hA]; norm_num, ?_, ?_⟩
    · rw [show (5 * 1 + 5 : Int) = 10 by norm_num, h10]
      exact not_lt.1 h20
    · rw [show (5 * 1 : Int) = 5 by norm_num, h5]
      exact hhi

/-- A lookup that returns a value returns the value read back from it. -/
theorem History_box_Interp.ok_getD (b : TsBox) (z : ℚ) (T : Int)
    (h : ∃ v, History_box_Interp b z T = .ok v) :
    History_box_Interp b z T = .ok ((History_box_Interp b z T).toOption.getD 0) := by
  obtain ⟨v, hv⟩ := h
  rw [hv]
  rfl

/-- C17, witness : the three-record archive with `zpp_max = 12` below
`30 - 0.01`, both populations enabled, `redshift = 7` : every lookup succeeds
and the call returns the rectangle sum of the looked-up rates. -/
theorem Get_Radio_Temp_HMG_Astro_rectangle_sum_witness :
    (12 : ℚ) < threeRecordBox.History_box 5 - 0.01
    ∧ Get_Radio_Temp_HMG_Astro powFloor threeRecordBox sampleAstro sampleCosmo
        ⟨true, true⟩ 12 7
      = .ok (∑ k in Finset.range 1000,
          if (12 : ℚ) + k * ((threeRecordBox.History_box 5 - 0.01 - 12) / 999)
              > sampleAstro.Radio_Zmin then
            ((if (⟨true, true⟩ : FlagOptions).USE_RADIO_ACG = true then
                  113.6161 * sampleAstro.fR * sampleCosmo.OMb
                    * powFloor sampleCosmo.hlittle 2 * sampleAstro.F_STAR10
                    * powFloor (0.15 / 1.4276) sampleAstro.aR
                    * powFloor (1 + 7) (3 + sampleAstro.aR)
                else 0)
                * (History_box_Interp threeRecordBox
                    (12 + k * ((threeRecordBox.History_box 5 - 0.01 - 12) / 999))
                    1).toOption.getD 0
                * powFloor
                    (1 + (12 + k * ((threeRecordBox.History_box 5 - 0.01 - 12) / 999)))
                    (sampleAstro.X_RAY_SPEC_INDEX - sampleAstro.aR)
              + (if (⟨true, true⟩ : FlagOptions).USE_RADIO_MCG = true then
                  113.6161 * sampleAstro.fR_mini * sampleCosmo.OMb
                    * powFloor sampleCosmo.hlittle 2 * sampleAstro.F_STAR7_MINI
                    * powFloor (0.15 / 1.4276) sampleAstro.aR_mini
                    * powFloor (1 + 7) (3 + sampleAstro.aR_mini)
                else 0)
                * (History_box_Interp threeRecordBox
                    (12 + k * ((threeRecordBox.History_box 5 - 0.01 - 12) / 999))
                    2).toOption.getD 0
                * powFloor
                    (1 + (12 + k * ((threeRecordBox.History_box 5 - 0.01 - 12) / 999)))
                    (sampleAstro.X_RAY_SPEC_INDEX - sampleAstro.aR_mini))
              * ((threeRecordBox.History_box 5 - 0.01 - 12) / 999)
          else 0) :=
  ⟨by decide!,
    Get_Radio_Temp_HMG_Astro_rectangle_sum powFloor threeRecordBox sampleAstro
      sampleCosmo ⟨true, true⟩ 12 7
      (fun k => (History_box_Interp threeRecordBox
        (12 + k * ((threeRecordBox.History_box 5 - 0.01 - 12) / 999)) 1).toOption.getD 0)
      (fun k => (History_box_Interp threeRecordBox
        (12 + k * ((threeRecordBox.History_box 5 - 0.01 - 12) / 999)) 2).toOption.getD 0)
      (by decide!)
      (fun k hk =>
        ⟨History_box_Interp.ok_getD _ _ _
            (History_box_Interp.rate_ok_of_covered _ _ 1 (Or.inl rfl)
              (threeRecordBox_samples_covered k hk)),
          History_box_Interp.ok_getD _ _ _
            (History_box_Interp.rate_ok_of_covered _ _ 2 (Or.inr rfl)
              (threeRecordBox_samples_covered k hk))⟩)⟩

/-! ## `Get_Radio_Temp_HMG_Astro` : the sign of the integral -/


/-- Two-point interpolation inside a bracket `z2 <= z < z1` is a convex
combination of the two samples: it is non-negative when they are. -/
theorem interp_nonneg_of_bracket (f1 f2 z z1 z2 : ℚ) (h1 : 0 ≤ f1) (h2 : 0 ≤ f2)
    (hlo : z2 ≤ z) (hhi : z < z1) :
    0 ≤ f1 + (f2 - f1) * (z - z1) / (z2 - z1) := by
  have hd : z2 - z1 < 0 := by linarith
  have ht0 : 0 ≤ (z - z1) / (z2 - z1) :=
    div_nonneg_of_nonpos (by linarith) (le_of_lt hd)
  have ht1 : (z - z1) / (z2 - z1) ≤ 1 := by
    rw [div_le_one_of_neg hd]
    linarith
  have e : f1 + (f2 - f1) * (z - z1) / (z2 - z1)
      = (1 - (z - z1) / (z2 - z1)) * f1 + (z - z1) / (z2 - z1) * f2 := by ring
  rw [e]
  exact add_nonneg (mul_nonneg (by linarith) h1) (mul_nonneg ht0 h2)

/-- A rate lookup on an archive whose rate samples are non-negative returns a
non-negative value. -/
theorem History_box_Interp.rate_nonneg (b : TsBox) (z v : ℚ) (T : Int)
    (hT : T = 1 ∨ T = 2)
    (hPhi : ∀ j : Int, 0 ≤ j → j ≤ cround (b.History_box 0) - 1 →
      0 ≤ b.History_box (5 * j + 2) ∧ 0 ≤ b.History_box (5 * j + 4))
    (hv : History_box_Interp b z T = .ok v) : 0 ≤ v := by
  have hex : ∃ idx : Int, 1 ≤ idx ∧ idx ≤ cround (b.History_box 0) - 1
      ∧ b.History_box (5 * idx + 5) ≤ z ∧ z < b.History_box (5 * idx) := by
    by_contra hno
    rw [History_box_Interp.rate_no_bracket b z T hT hno] at hv
    exact absurd hv (by simp)
  obtain ⟨idx, i1, i2, i3, i4⟩ := hex
  have hzid : ∀ i : Int, History_box_Interp.zid1 T i = 5 * i := by
    intro i
    rcases hT with rfl | rfl <;> simp [History_box_Interp.zid1, mul_comm]
  obtain ⟨ga, gb, gc, gd, _⟩ :=
    History_box_Interp.bingo_greatest b.History_box z T
      ⟨idx, i1, i2, by rw [hzid]; exact i3, by rw [hzid]; exact i4⟩
  rw [hzid] at gc gd
  rcases hT with rfl | rfl
  · rw [History_box_Interp.eq_kind1 b z _ rfl (by omega)] at hv
    rw [← Except.ok.inj hv]
    have hs1 := (hPhi (History_box_Interp.bingo b.History_box z 1 - 1) (by omega)
      (by omega)).1
    have hs2 := (hPhi (History_box_Interp.bingo b.History_box z 1) (by omega) gb).1
    rw [show 5 * (History_box_Interp.bingo b.History_box z 1 - 1) + 2
      = 5 * History_box_Interp.bingo b.History_box z 1 - 3 by ring] at hs1
    exact interp_nonneg_of_bracket _ _ _ _ _ hs1 hs2 gc gd
  · rw [History_box_Interp.eq_kind2 b z _ rfl (by omega)] at hv
    rw [← Except.ok.inj hv]
    have hs1 := (hPhi (History_box_Interp.bingo b.History_box z 2 - 1) (by omega)
      (by omega)).2
    have hs2 := (hPhi (History_box_Interp.bingo b.History_box z 2) (by omega) gb).2
    rw [show 5 * (History_box_Interp.bingo b.History_box z 2 - 1) + 4
      = 5 * History_box_Interp.bingo b.History_box z 2 - 1 by ring] at hs1
    exact interp_nonneg_of_bracket _ _ _ _ _ hs1 hs2 gc gd

/-- The loop keeps `Radio_Temp` non-negative when the prefactors, the step,
the looked-up rates and the power terms are non-negative. -/
theorem Get_Radio_Temp_HMG_Astro.loop_nonneg (pow : ℚ → ℚ → ℚ) (b : TsBox)
    (ap : AstroParams) (PA PM dz : ℚ)
    (hpow : ∀ x y : ℚ, 0 < x → 0 < pow x y)
    (hPhi : ∀ j : Int, 0 ≤ j → j ≤ cround (b.History_box 0) - 1 →
      0 ≤ b.History_box (5 * j + 2) ∧ 0 ≤ b.History_box (5 * j + 4))
    (hPA : 0 ≤ PA) (hPM : 0 ≤ PM) (hdz : 0 ≤ dz) (n : Nat) :
    ∀ (z T0 T : ℚ), -1 < z → 0 ≤ T0 →
      Get_Radio_Temp_HMG_Astro.loop pow b ap PA PM dz n z T0 = .ok T → 0 ≤ T := by
  induction n with
  | zero =>
    intro z T0 T _ hT0 h
    simp only [Get_Radio_Temp_HMG_Astro.loop] at h
    rw [← Except.ok.inj h]
    exact hT0
  | succ n ih =>
    intro z T0 T hz hT0 h
    cases h1 : History_box_Interp b z 1 with
    | error e => simp [Get_Radio_Temp_HMG_Astro.loop, h1] at h
    | ok Phi =>
      cases h2 : History_box_Interp b z 2 with
      | error e => simp [Get_Radio_Temp_HMG_Astro.loop, h1, h2] at h
      | ok Phi_mini =>
        simp only [Get_Radio_Temp_HMG_Astro.loop, h1, h2] at h
        have hP1 : 0 ≤ Phi := History_box_Interp.rate_nonneg b z Phi 1 (Or.inl rfl) hPhi h1
        have hP2 : 0 ≤ Phi_mini :=
          History_box_Interp.rate_nonneg b z Phi_mini 2 (Or.inr rfl) hPhi h2
        have hz1 : (0 : ℚ) < 1 + z := by linarith
        have ht : 0 ≤ PA * Phi * pow (1 + z) (ap.X_RAY_SPEC_INDEX - ap.aR) * dz
            + PM * Phi_mini * pow (1 + z) (ap.X_RAY_SPEC_INDEX - ap.aR_mini) * dz :=
          add_nonneg
            (mul_nonneg (mul_nonneg (mul_nonneg hPA hP1) (le_of_lt (hpow _ _ hz1))) hdz)
            (mul_nonneg (mul_nonneg (mul_nonneg hPM hP2) (le_of_lt (hpow _ _ hz1))) hdz)
        refine ih (z + dz) _ T (by linarith) ?_ h
        split_ifs
        · exact add_nonneg hT0 ht
        · exact hT0



/-- The sign of the integral in exact arithmetic, where each interpolated
rate is a convex combination of its two samples (in doubles line 101 is
rounded three times and can leave the interval of its samples, which no
definition of this file expresses): for every archive whose stored rate
samples (slots `5j+2` and
`5j+4`, `j = 0..ArchiveSize-1`) are all `>= 0`, and every parameter set with
`fR, fR_mini, OMb, F_STAR10, F_STAR7_MINI >= 0`, `redshift > -1` and
`zpp_max > -1`, every value that `Get_Radio_Temp_HMG_Astro` returns is `>= 0`,
and `Get_Radio_Temp_HMG` then returns it too: its negative-temperature check
does not fire.  The facts used of `pow` are `pow(x, y) > 0` for `x > 0` and
`pow(x, 2) >= 0`. -/
theorem Get_Radio_Temp_HMG_Astro_nonneg_exact (pow : ℚ → ℚ → ℚ) (b : TsBox)
    (ap : AstroParams) (cp : CosmoParams) (fo : FlagOptions) (zpp_max redshift : ℚ)
    (hpow : ∀ x y : ℚ, 0 < x → 0 < pow x y) (hsq : ∀ x : ℚ, 0 ≤ pow x 2)
    (hPhi : ∀ j : Int, 0 ≤ j → j ≤ cround (b.History_box 0) - 1 →
      0 ≤ b.History_box (5 * j + 2) ∧ 0 ≤ b.History_box (5 * j + 4))
    (hfR : 0 ≤ ap.fR) (hfR_mini : 0 ≤ ap.fR_mini) (hOMb : 0 ≤ cp.OMb)
    (hF10 : 0 ≤ ap.F_STAR10) (hF7 : 0 ≤ ap.F_STAR7_MINI)
    (hred : redshift > -1) (hzpp : zpp_max > -1) :
    (∀ T : ℚ, Get_Radio_Temp_HMG_Astro pow b ap cp fo zpp_max redshift = .ok T →
      0 ≤ T)
    ∧ (∀ T : ℚ, Get_Radio_Temp_HMG_Astro pow b ap cp fo zpp_max redshift = .ok T →
      Get_Radio_Temp_HMG pow b ap cp fo zpp_max redshift = .ok T)
    ∧ Get_Radio_Temp_HMG pow b ap cp fo zpp_max redshift
      = Get_Radio_Temp_HMG_Astro pow b ap cp fo zpp_max redshift := by
  have hnn : ∀ T : ℚ,
      Get_Radio_Temp_HMG_Astro pow b ap cp fo zpp_max redshift = .ok T → 0 ≤ T := by
    intro T h
    by_cases hgt : zpp_max > b.History_box 5 - 0.01
    · rw [Get_Radio_Temp_HMG_Astro.eq_of_gt pow b ap cp fo zpp_max redshift hgt] at h
      rw [← Except.ok.inj h]
    · have hnu : (0 : ℚ) < astro_nu0 / 1.4276 := by norm_num [astro_nu0]
      have h1r : (0 : ℚ) < 1 + redshift := by linarith
      have hPA : (0 : ℚ) ≤ (if fo.USE_RADIO_ACG = true then
          113.6161 * ap.fR * cp.OMb * (pow cp.hlittle 2) * ap.F_STAR10
            * pow (astro_nu0 / 1.4276) ap.aR * pow (1 + redshift) (3 + ap.aR)
          else 0.0) := by
        split_ifs
        · exact mul_nonneg (mul_nonneg (mul_nonneg (mul_nonneg (mul_nonneg
            (mul_nonneg (by norm_num) hfR) hOMb) (hsq _)) hF10)
            (le_of_lt (hpow _ _ hnu))) (le_of_lt (hpow _ _ h1r))
        · norm_num
      have hPM : (0 : ℚ) ≤ (if fo.USE_RADIO_MCG = true then
          113.6161 * ap.fR_mini * cp.OMb * (pow cp.hlittle 2) * ap.F_STAR7_MINI
            * pow (astro_nu0 / 1.4276) ap.aR_mini * pow (1 + redshift) (3 + ap.aR_mini)
          else 0.0) := by
        split_ifs
        · exact mul_nonneg (mul_nonneg (mul_nonneg (mul_nonneg (mul_nonneg
            (mul_nonneg (by norm_num) hfR_mini) hOMb) (hsq _)) hF7)
            (le_of_lt (hpow _ _ hnu))) (le_of_lt (hpow _ _ h1r))
        · norm_num
      have hdz : (0 : ℚ) ≤ (b.History_box 5 - 0.01 - zpp_max) / (((1000 : Nat) : ℚ) - 1) :=
        div_nonneg (by linarith [not_lt.1 hgt]) (by norm_num)
      simp only [Get_Radio_Temp_HMG_Astro, if_neg hgt] at h
      exact Get_Radio_Temp_HMG_Astro.loop_nonneg pow b ap _ _ _ hpow hPhi hPA hPM hdz
        1000 zpp_max _ T hzpp (by norm_num) h
  have hR : ¬ (Reset_Radio_Temp_HMG = 1) := by decide
  have hsame : ∀ T : ℚ,
      Get_Radio_Temp_HMG_Astro pow b ap cp fo zpp_max redshift = .ok T →
      Get_Radio_Temp_HMG pow b ap cp fo zpp_max redshift = .ok T := by
    intro T h
    have hneg : ¬ T < -1.0e-8 := by
      have := hnn T h
      intro hlt
      have : (-1.0e-8 : ℚ) < 0 := by norm_num
      linarith
    simp only [Get_Radio_Temp_HMG, h, if_neg hneg, if_neg hR]
  refine ⟨hnn, hsame, ?_⟩
  cases h : Get_Radio_Temp_HMG_Astro pow b ap cp fo zpp_max redshift with
  | error e => simp only [Get_Radio_Temp_HMG, h]
  | ok T => exact hsame T h

/-- The sign of the integral in exact arithmetic on a sample: `powFloor`, the
three-record archive (rate samples 1, 3, 5 and 2, 4, 6), the sample
parameters, `zpp_max = 12`, `redshift = 7`. -/
theorem Get_Radio_Temp_HMG_Astro_nonneg_exact_sample :
    (∀ x y : ℚ, 0 < x → 0 < powFloor x y) ∧ (∀ x : ℚ, 0 ≤ powFloor x 2)
    ∧ (7 : ℚ) > -1 ∧ (12 : ℚ) > -1
    ∧ ∀ T : ℚ, Get_Radio_Temp_HMG_Astro powFloor threeRecordBox sampleAstro sampleCosmo
        ⟨true, true⟩ 12 7 = .ok T → 0 ≤ T :=
  have hpow : ∀ x y : ℚ, 0 < x → 0 < powFloor x y :=
    fun x y hx => zpow_pos hx _
  have hsq : ∀ x : ℚ, 0 ≤ powFloor x 2 := fun x => by
    have h2 : Int.floor (2 : ℚ) = 2 := by norm_num
    simp only [powFloor, h2]
    exact zpow_two_nonneg x
  ⟨hpow, hsq, by norm_num, by norm_num,
    (Get_Radio_Temp_HMG_Astro_nonneg_exact powFloor threeRecordBox sampleAstro sampleCosmo
      ⟨true, true⟩ 12 7 hpow hsq
      (fun j h0 h1 => by
        have hA : cround (threeRecordBox.History_box 0) = 3 := by decide!
        rw [hA] at h1
        have hj : j = 0 ∨ j = 1 ∨ j = 2 := by omega
        rcases hj with rfl | rfl | rfl <;> constructor <;> decide!)
      (by decide!) (by decide!) (by decide!) (by decide!) (by decide!)
      (by norm_num) (by norm_num)).1⟩

/-! ## `Find_Index` : the 32-bit sum `id1 + id3`

For `nx >= 2^30 + 2` the sum of line 336 can reach `2^31`.  It then wraps to a
negative `int`, the midpoint `id2` is negative, `x_axis[id2]` is read below
the array, and the gap `id3 - id1` stops shrinking.  The evaluations below are
on the axis `x_axis[i] = i` (and its mirror image); each is given for the
function as it stands and for a read below the array that returns a value on
the other side of the query. -/

theorem identityAxis_strict (nx : Int) : StrictlyIncreasing identityAxis nx := by
  intro i j _ hij _
  simp only [identityAxis]
  exact_mod_cast hij

theorem mirroredAxis_strict (nx : Int) : StrictlyDecreasing mirroredAxis nx := by
  intro i j _ hij _
  simp only [mirroredAxis, neg_lt_neg_iff]
  exact_mod_cast hij

/-- A failure of `Find_Index` is a failure of `Interp_1D`, whatever the flags
and the value table. -/
theorem Interp_1D.error_of_index_error {α : Type} [DivisionRing α] (log exp : α → α)
    (x : ℚ) (x_axis y_axis : Int → ℚ) (nx Use_LogX Use_LogY Overflow_Handle : Int)
    (e : Error) (hi : Find_Index x_axis x nx = .error e) :
    Interp_1D log exp x x_axis y_axis nx Use_LogX Use_LogY Overflow_Handle
      = .error e := by
  simp only [Interp_1D, hi]

/-- C9, the code at a failing input : the axis `x_axis[i] = i` of length
`nx = 2^31 - 1` is strictly increasing and the query `x = 2000000000.5` lies
strictly inside it, between the elements 2000000000 and 2000000001.  The
first midpoint is 1073741823; in the second iteration the 32-bit sum
`1073741823 + 2147483646` is `-1073741827`, the midpoint is negative, and the
call ends in `exit(1)` when `count` passes 100, whether the read below the
array returns a value below the query or above it: no index is returned. -/
theorem Find_Index_ascending_overflow :
    StrictlyIncreasing identityAxis 2147483647
    ∧ identityAxis 0 < 2000000000.5
    ∧ (2000000000.5 : ℚ) < identityAxis (2147483647 - 1)
    ∧ identityAxis 2000000000 ≤ 2000000000.5
    ∧ (2000000000.5 : ℚ) < identityAxis (2000000000 + 1)
    ∧ cround (((wrap32 (0 + 2147483646) : Int) : ℚ) / 2.0) = 1073741823
    ∧ wrap32 (1073741823 + 2147483646) = -1073741827
    ∧ Find_Index identityAxis 2000000000.5 2147483647 = .error .Exit
    ∧ Find_Index (readBelow identityAxis 4294967296) 2000000000.5 2147483647
      = .error .Exit := by
  refine ⟨identityAxis_strict _, ?_, ?_, ?_, ?_, ?_, ?_, ?_, ?_⟩ <;> decide!

/-- C11, the code at a failing input : the axis `x_axis[i] = i` of length
`nx = 2^30 + 2`, the smallest length at which the 32-bit sum overflows.  The
two sentinels are returned as claimed (`-1` for the query `-1`, `nx` for the
query `nx`), but the query `x = 1073741824.5` of the closed covered range gets
no index: the call ends in `exit(1)`, whether the read below the array returns
a value below the query or above it.  One element less (`nx = 2^30 + 1`) and
the query `1073741823.5` gets its index. -/
theorem Find_Index_in_range_overflow :
    StrictlyIncreasing identityAxis 1073741826
    ∧ Find_Index identityAxis (-1) 1073741826 = .ok (-1)
    ∧ Find_Index identityAxis 1073741826 1073741826 = .ok 1073741826
    ∧ identityAxis 0 ≤ 1073741824.5
    ∧ (1073741824.5 : ℚ) ≤ identityAxis (1073741826 - 1)
    ∧ Find_Index identityAxis 1073741824.5 1073741826 = .error .Exit
    ∧ Find_Index (readBelow identityAxis 4294967296) 1073741824.5 1073741826
      = .error .Exit
    ∧ Find_Index identityAxis 1073741823.5 1073741825 = .ok 1073741823 := by
  refine ⟨identityAxis_strict _, ?_, ?_, ?_, ?_, ?_, ?_, ?_⟩ <;> decide!

/-- C12, the code at a failing input : the axis `x_axis[i] = i` of length
`nx = 2^31 - 1` with the linear values `y_axis[i] = 1 * x_axis[i] + 0` and the
query `x = 2000000000.5` of the covered range, both log flags off: `Interp_1D`
does not return `1 * x + 0 = 2000000000.5`; it ends in the `exit(1)` of
`Find_Index`, under either overflow policy. -/
theorem Interp_1D_linear_overflow :
    StrictlyIncreasing identityAxis 2147483647
    ∧ (∀ i : Int, identityAxis i = 1 * identityAxis i + 0)
    ∧ identityAxis 0 ≤ 2000000000.5
    ∧ (2000000000.5 : ℚ) ≤ identityAxis (2147483647 - 1)
    ∧ Interp_1D (fun y : ℚ => y) (fun y : ℚ => y) 2000000000.5 identityAxis
        identityAxis 2147483647 0 0 1 = .error .Exit
    ∧ Interp_1D (fun y : ℚ => y) (fun y : ℚ => y) 2000000000.5 identityAxis
        identityAxis 2147483647 0 0 0 = .error .Exit
    ∧ Interp_1D (fun y : ℚ => y) (fun y : ℚ => y) 2000000000.5
        (readBelow identityAxis 4294967296) identityAxis 2147483647 0 0 1
      = .error .Exit := by
  refine ⟨identityAxis_strict _, fun i => by ring, by decide!, by decide!, ?_, ?_, ?_⟩
  · exact Interp_1D.error_of_index_error _ _ _ _ _ _ _ _ _ _ (by decide!)
  · exact Interp_1D.error_of_index_error _ _ _ _ _ _ _ _ _ _ (by decide!)
  · exact Interp_1D.error_of_index_error _ _ _ _ _ _ _ _ _ _ (by decide!)

/-- C13, the code at a failing input : the axis `x_axis[i] = i` of length
`nx = 2^31 - 1` with the strictly positive values `y_axis[i] = 1`,
`Use_LogX = 0`, `Use_LogY = 1`, and the query `x = 2000000000.5`, which the
index 2000000000 brackets: with the real logarithm and exponential `Interp_1D`
does not return the geometric interpolation (which is 1); it ends in the
`exit(1)` of `Find_Index`. -/
theorem Interp_1D_log_overflow :
    StrictlyIncreasing identityAxis 2147483647
    ∧ (∀ i : Int, 0 < unitValues i)
    ∧ identityAxis 2000000000 ≤ 2000000000.5
    ∧ (2000000000.5 : ℚ) ≤ identityAxis (2000000000 + 1)
    ∧ Interp_1D Real.log Real.exp 2000000000.5 identityAxis unitValues
        2147483647 0 1 1 = .error .Exit
    ∧ Interp_1D Real.log Real.exp 2000000000.5 (readBelow identityAxis 4294967296)
        unitValues 2147483647 0 1 1 = .error .Exit := by
  refine ⟨identityAxis_strict _, fun i => by simp [unitValues], by decide!, by decide!,
    ?_, ?_⟩
  · exact Interp_1D.error_of_index_error _ _ _ _ _ _ _ _ _ _ (by decide!)
  · exact Interp_1D.error_of_index_error _ _ _ _ _ _ _ _ _ _ (by decide!)

/-- C20, the code at a failing input : the axis `x_axis[i] = -i` of length
`nx = 2^31 - 1`, the largest length `int` allows, and the query
`x = -2000000000.5` of the covered range.  The call does not return: it ends
in the `exit(1)` of the 100-iteration cap, whether the read below the array
returns a value above the query or below it.  It is the cap that ends the
loop: with room for 1000 iterations the result is the same.  `Interp_1D`
fails on this in-range query. -/
theorem Find_Index_cap_reached :
    (2 : Int) ≤ 2147483647 ∧ (2147483647 : Int) ≤ 2 ^ 31 - 1
    ∧ mirroredAxis (2147483647 - 1) ≤ -2000000000.5
    ∧ (-2000000000.5 : ℚ) ≤ mirroredAxis 0
    ∧ Find_Index mirroredAxis (-2000000000.5) 2147483647 = .error .Exit
    ∧ Find_Index (readBelow mirroredAxis (-4294967296)) (-2000000000.5) 2147483647
      = .error .Exit
    ∧ Find_Index.loop mirroredAxis (-2000000000.5) true 1000 0 (2147483647 - 1) 0
      = .error .Exit
    ∧ Interp_1D (fun y : ℚ => y) (fun y : ℚ => y) (-2000000000.5) mirroredAxis
        unitValues 2147483647 0 0 1 = .error .Exit := by
  refine ⟨by norm_num, by norm_num, by decide!, by decide!, by decide!, by decide!,
    by decide!, ?_⟩
  exact Interp_1D.error_of_index_error _ _ _ _ _ _ _ _ _ _ (by decide!)

end RadioExcess
